import Mathlib

/-!
# FPMS portfolio client: upload validation and upload orchestration

A shallow embedding of `src/main/resources/static/js/portfolio.js`, and of
`deleteDocument` of `document.js`.

* JavaScript strings are Lean `String`s; the string primitives used by the
  source (`split('.')`, `pop()`, `toLowerCase()`, `startsWith`, `includes`,
  `join`) are written out over the character list so that they evaluate.
* A `File` is its declared metadata `name`, `size`, `type`, which is all the
  source reads.
* Effects (network requests, progress reports, toasts, timers) are recorded in
  order in a trace carried by the `World`; `console.*` calls are not recorded.
* `await fetch(...)` is answered by a `Network`: the k-th request issued during
  a run receives outcome `net k`.  A run is modelled without other event
  handlers interleaving at the `await` points, except for `createPortfolio`,
  which is split at its `await`.
* The toast elements and their timers have a model of their own, `ToastPage`,
  with a clock in milliseconds.
* The documents list is a `DocumentsView`: the search field, the filter
  buttons and the cards with their data attributes, as the parser reads them
  from the markup.
* `Math.log` is a parameter of `formatFileSize`, since its values are those of
  the platform; the arithmetic around it is the double arithmetic of the
  progress percentage.
* `document.querySelector` on the selector of `removeFilePreview` is exact
  for a file name that stands for itself in the selector, and a parameter
  (`SelectorEngine`) for any other name.
-/

namespace FPMS

/-! ## JavaScript string primitives -/

/-- The array `s.split('.')` over the characters of `s`: the maximal runs of
characters between dots, never empty as an array. -/
def splitDot : List Char → List (List Char)
  | [] => [[]]
  | c :: cs =>
    if c = '.' then [] :: splitDot cs
    else
      match splitDot cs with
      | [] => [[c]]
      | seg :: segs => (c :: seg) :: segs

/-- The value of `arr.pop()` for a non-empty array: its last element. -/
def pop : List (List Char) → List Char
  | [] => []
  | [seg] => seg
  | _ :: seg :: segs => pop (seg :: segs)

/-- The method `toLowerCase()`.  Every ASCII capital is mapped to its small
letter and every other character is kept.  JavaScript also lowers non-ASCII
capitals; such a character never lowers into a string of the ASCII allow-list
of `validateFile` (the only one lowering to an ASCII letter is U+212A, to `k`,
which no allowed extension contains), so membership in that list is the same.
The documents list uses `Unicode.toLowerCase` below, which also covers the
Greek letters and the rule for the final sigma. -/
def toLowerCase (s : String) : String := ⟨s.data.map Char.toLower⟩

/-- The method `s.startsWith(p)`. -/
def startsWith (s p : String) : Bool := p.data.isPrefixOf s.data

/-- The method `arr.join(sep)` on an array of strings. -/
def join (sep : String) : List String → String
  | [] => ""
  | [s] => s
  | s :: t :: rest => s ++ sep ++ join sep (t :: rest)

/-- The method `arr.includes(x)` on an array of strings. -/
def includes (arr : List String) (x : String) : Bool := arr.contains x

/-! ## Files and validation -/

/-- The metadata of a browser `File` that the source reads. -/
structure File where
  name : String
  size : Nat
  type : String
  deriving DecidableEq, Repr

/-- The object returned by `validateFile`: `message` is absent when valid. -/
structure Validation where
  valid : Bool
  message : Option String
  deriving DecidableEq, Repr

/-- The constant `maxSize` of `validateFile`. -/
def maxSize : Nat := 50 * 1024 * 1024

/-- The array `allowedExtensions` of `validateFile`. -/
def allowedExtensions : List String :=
  [".pdf", ".doc", ".docx", ".xls", ".xlsx", ".ppt", ".pptx", ".jpg", ".jpeg",
   ".png", ".gif", ".txt", ".zip", ".rar"]

/-- The expression `'.' + file.name.split('.').pop().toLowerCase()`. -/
def fileExtension (name : String) : String :=
  "." ++ toLowerCase ⟨pop (splitDot name.data)⟩

/-- The function `validateFile(file)` of portfolio.js. -/
def validateFile (file : File) : Validation :=
  if file.size > maxSize then
    { valid := false
      message := some ("File \"" ++ file.name ++ "\" exceeds 50MB limit") }
  else if startsWith file.type "video/" then
    { valid := false
      message := some ("Video files are not allowed: \"" ++ file.name ++ "\"") }
  else if !(includes allowedExtensions (fileExtension file.name)) then
    { valid := false
      message := some ("File type not allowed: \"" ++ file.name ++ "\". Allowed: "
        ++ join ", " allowedExtensions) }
  else
    { valid := true, message := none }

/-- The allow-list without the leading dots, as the specification writes it. -/
def allowedNames : List String :=
  ["pdf", "doc", "docx", "xls", "xlsx", "ppt", "pptx", "jpg", "jpeg", "png", "gif", "txt",
   "zip", "rar"]

/-! ## IEEE-754 double precision, for `Math.floor((i / n) * 100)`

A non-negative finite double is an integer multiple of `2^-1074`; it is
represented here by that integer multiple, a `Nat`.  Overflow to `Infinity`
is not modelled (all values met here are below 101). -/

/-- The number of units `2^-1074` in the double `1`. -/
def Double.one : Nat := 1 <<< 1074

/-- Round-half-to-even of the quotient `a / b` to an integer. -/
def roundHalfEven (a b : Nat) : Nat :=
  if 2 * (a % b) < b then a / b
  else if b < 2 * (a % b) then a / b + 1
  else if (a / b) % 2 = 0 then a / b
  else a / b + 1

/-- The number of halvings that bring `q` below `2^53`: the binary exponent of
the spacing of the doubles around `q` units (`0` in the subnormal range and in
the first normal binade).  The first argument bounds the recursion. -/
def ulpExp : Nat → Nat → Nat
  | 0, _ => 0
  | fuel + 1, q => if q < 2 ^ 53 then 0 else ulpExp fuel (q / 2) + 1

/-- Round-to-nearest, ties-to-even, of the rational `a / b` (counted in units
`2^-1074`, `b` non-zero) to a double: 53 significant bits in the normal range,
the unit spacing in the subnormal range.  The integer part of `a / b` is
enough fuel for `ulpExp`. -/
def Double.round (a b : Nat) : Nat :=
  roundHalfEven a (b <<< ulpExp (a / b) (a / b)) <<< ulpExp (a / b) (a / b)

/-- The double of a non-negative integer below `2^53` (exact). -/
def Double.ofNat (n : Nat) : Nat := n * Double.one

/-- The operator `x / y` on non-negative doubles (`y` non-zero). -/
def Double.div (x y : Nat) : Nat := Double.round (x * Double.one) y

/-- The operator `x * y` on non-negative doubles. -/
def Double.mul (x y : Nat) : Nat := Double.round (x * y) Double.one

/-- The function `Math.floor` on a non-negative double, as an integer. -/
def Double.floor (x : Nat) : Nat := x / Double.one

/-- The expression `Math.floor((i / total) * 100)` of `uploadToDocuments`, for
an index `i` and a length `total` (both below `2^53`, `total` non-zero). -/
def progressPercent (i total : Nat) : Nat :=
  Double.floor (Double.mul (Double.div (Double.ofNat i) (Double.ofNat total)) (Double.ofNat 100))

/-- The largest quotient `i / total` with `i < total ≤ 2^32`, which is
`1 - 2^-32`, in units. -/
def Double.belowOne : Nat := (2 ^ 32 - 1) <<< 1042

/-! ## The page: state, document, network and trace -/

/-- The global object `portfolioState`. -/
structure PortfolioState where
  currentPortfolioId : Option String
  currentFolderId : Option String
  selectedFiles : List File
  userRole : Option String
  userId : Option String
  uploadDestination : String
  isInitialized : Bool
  isInitializing : Bool
  isDetailsPage : Bool
  deriving DecidableEq, Repr

/-- The element `#uploadBtn`. -/
structure Button where
  innerHTML : String
  disabled : Bool
  deriving DecidableEq, Repr

/-- The elements of the document that the upload functions look up by id; a
field is `none` when `getElementById` finds no such element. -/
structure Dom where
  /-- The element `#uploadBtn`. -/
  uploadBtn : Option Button
  /-- The `value` of the select `#uploadPortfolio`. -/
  uploadPortfolio : Option String
  /-- The `value` of the select `#documentCategory`. -/
  documentCategory : Option String
  /-- The `style.width` of `#uploadProgressBar`. -/
  uploadProgressBar : Option String
  /-- The `style.display` of `#uploadProgress`. -/
  uploadProgress : Option String
  /-- The `textContent` of `#uploadStatus`. -/
  uploadStatus : Option String
  /-- Whether `#documents` exists and has the class `active`. -/
  documentsActive : Bool
  /-- The elements that `closeModal` can find by id, each with whether it
  carries the class `active`. -/
  modals : List (String × Bool) := []
  /-- The `style.overflow` of `document.body`. -/
  bodyOverflow : String := ""
  /-- The `value` of `#fileInput`. -/
  fileInput : Option String := none
  /-- The preview items inside `#uploadPreview`, by their `data-file-name`. -/
  uploadPreview : Option (List String) := none
  /-- The `content` of the element `meta[name="_csrf"]` of the page. -/
  csrfMeta : Option String := none
  /-- The `content` of the element `meta[name="_csrf_header"]` of the page. -/
  csrfHeaderMeta : Option String := none
  deriving DecidableEq, Repr

/-- A value of a `FormData` entry. -/
inductive FormValue where
  | file (f : File)
  | text (s : String)
  deriving DecidableEq, Repr

/-- A call `fetch(url, {method, body})` with a `FormData` body, entries in the
order they were appended. -/
structure Request where
  method : String
  url : String
  body : List (String × FormValue)
  /-- The `headers` option of the call, empty when the call gives none. -/
  headers : List (String × String) := []
  deriving DecidableEq, Repr

/-- The fields of a parsed JSON response body that the source reads; `message`
is `none` when the property is absent (`undefined`). -/
structure Body where
  success : Bool
  message : Option String
  deriving DecidableEq, Repr

/-- The result of `await response.json()` as the source uses it: `threw` when
parsing throws; `null` when the body is the JSON text `null`, so that the
call resolves and the first read of a property of the result throws a
`TypeError` with the given message; `value` with the fields read otherwise. -/
inductive Json where
  | threw (message : String)
  | null (message : String)
  | value (body : Body)
  deriving DecidableEq, Repr

/-- What `await fetch(...)` does: it throws, or it yields a response with a
status, a text (read by `response.text()`) and a JSON result. -/
inductive FetchOutcome where
  | rejected (message : String)
  | response (status : Nat) (text : String) (json : Json)
  deriving DecidableEq, Repr

/-- The property `response.ok`: the status is in the range 200-299. -/
def FetchOutcome.ok (status : Nat) : Bool := decide (200 ≤ status) && decide (status ≤ 299)

/-- The server and the network: the outcome of the k-th request of a run. -/
abbrev Network := Nat → FetchOutcome

/-- The second argument of `showToast`. -/
inductive ToastType where
  | success
  | error
  | warning
  | info
  deriving DecidableEq, Repr

/-- The callbacks that the upload functions pass to `setTimeout`. -/
inductive TimerAction where
  /-- The body `closeModal('uploadModal'); clearUploadForm();`. -/
  | closeUploadModalAndClear
  /-- The body `loadDocuments();`. -/
  | loadDocuments
  /-- The body `window.location.reload();`. -/
  | reloadPage
  /-- The body `isCreatingPortfolio = false;` in `createPortfolio`. -/
  | resetCreatingFlag
  /-- The callback of `deletePortfolio` that collapses the deleted card and
  then schedules its removal from the document. -/
  | collapsePortfolioCard
  deriving DecidableEq, Repr

/-- An observable effect. -/
inductive Event where
  /-- A call of `fetch`. -/
  | fetch (req : Request)
  /-- A call `updateUploadProgress(percent, message)`. -/
  | progress (percent : Nat) (message : String)
  /-- A call `showToast(message, type)`. -/
  | toast (type : ToastType) (message : String)
  /-- A call `setTimeout(action, delay)`. -/
  | setTimeout (action : TimerAction) (delay : Nat)
  /-- A direct call `loadDocuments()`. -/
  | loadDocuments
  /-- A call `alert(message)`. -/
  | alert (message : String)
  /-- A direct call `window.location.reload()`. -/
  | reload
  deriving DecidableEq, Repr

/-- The setup routines that `initPortfolioSystem` calls. -/
inductive SetupRoutine where
  | setupToastSystem
  | setupModals
  | setupUploadSystem
  | initPortfolioDetailsPage
  | initPortfolioMainPage
  deriving DecidableEq, Repr

/-- The elements of the create-portfolio form that `createPortfolio` looks up;
a field is `none` when the element is not found. -/
structure CreateForm where
  /-- The `value` of `#portfolioName`. -/
  portfolioName : Option String := none
  /-- The `value` of `#portfolioDescription`. -/
  portfolioDescription : Option String := none
  /-- The `value` of `#portfolioType`. -/
  portfolioType : Option String := none
  /-- The element `.btn-primary` inside `#createPortfolioModal`. -/
  submitBtn : Option Button := none
  deriving DecidableEq, Repr

/-- The page during a run: the global state, the document, and the effects so
far, oldest first. -/
structure World where
  state : PortfolioState
  dom : Dom
  trace : List Event
  /-- The module variable `isCreatingPortfolio`. -/
  isCreatingPortfolio : Bool := false
  /-- The create-portfolio form. -/
  createForm : CreateForm := {}
  /-- The setup routines that were called so far, oldest first. -/
  setupCalls : List SetupRoutine := []
  deriving DecidableEq, Repr

/-- The requests of a trace, in order. -/
def requests : List Event → List Request
  | [] => []
  | .fetch r :: es => r :: requests es
  | _ :: es => requests es

/-- The calls of `updateUploadProgress` of a trace, in order. -/
def progressReports : List Event → List (Nat × String)
  | [] => []
  | .progress p m :: es => (p, m) :: progressReports es
  | _ :: es => progressReports es

/-- The calls of `showToast` of a trace, in order. -/
def toasts : List Event → List (ToastType × String)
  | [] => []
  | .toast t m :: es => (t, m) :: toasts es
  | _ :: es => toasts es

/-- Adds one effect to the trace. -/
def World.emit (w : World) (e : Event) : World := { w with trace := w.trace ++ [e] }

/-- The expression `await fetch(...)`: the request is recorded and answered by
the network according to how many requests were issued before it. -/
def fetch (net : Network) (req : Request) (w : World) : World × FetchOutcome :=
  (w.emit (.fetch req), net (requests w.trace).length)

/-- The function `showToast(message, type)`, as a recorded call; the toast
element and its timers are not part of this model. -/
def showToast (message : String) (type : ToastType) (w : World) : World :=
  w.emit (.toast type message)

/-- The function `showSuccess(message)`. -/
def showSuccess (message : String) (w : World) : World := showToast message .success w

/-- The function `showError(message)`. -/
def showError (message : String) (w : World) : World := showToast message .error w

/-- The function `showWarning(message)`. -/
def showWarning (message : String) (w : World) : World := showToast message .warning w

/-- The function `setTimeout(action, delay)`, as a recorded call. -/
def setTimeout (action : TimerAction) (delay : Nat) (w : World) : World :=
  w.emit (.setTimeout action delay)

/-- The function `updateUploadProgress(percent, message)`. -/
def updateUploadProgress (percent : Nat) (message : String) (w : World) : World :=
  { w with
    dom := { w.dom with
      uploadProgressBar := w.dom.uploadProgressBar.map (fun _ => toString percent ++ "%")
      uploadStatus := w.dom.uploadStatus.map (fun _ => message) }
    trace := w.trace ++ [.progress percent message] }

/-- Whether a string or `null` is truthy: present and non-empty. -/
def truthy : Option String → Bool
  | some s => s != ""
  | none => false

/-- The expression `x || fallback` for a string-or-absent `x`. -/
def orElse (x : Option String) (fallback : String) : String :=
  match x with
  | some s => if s != "" then s else fallback
  | none => fallback

/-- The text of an interpolated string-or-`undefined` value. -/
def interpolate : Option String → String
  | some s => s
  | none => "undefined"

/-! ## The upload functions -/

/-- The function `uploadToPortfolio()`: the world after the run, and the
resolved value or the message of the thrown `Error`. -/
def uploadToPortfolio (net : Network) (w : World) : World × Except String Body :=
  match w.dom.uploadPortfolio with
  | none => (showError "Please select a portfolio" w, .error "No portfolio selected")
  | some portfolioId =>
    if portfolioId = "" then
      (showError "Please select a portfolio" w, .error "No portfolio selected")
    else
      let w1 := updateUploadProgress 10 "Preparing upload..." w
      let files := w1.state.selectedFiles.map (fun f => ("file", FormValue.file f))
      let folder :=
        if w1.state.isDetailsPage && truthy w1.state.currentFolderId then
          [("folderId", FormValue.text (interpolate w1.state.currentFolderId))]
        else []
      let formData := files ++ [("portfolioId", FormValue.text portfolioId)] ++ folder
      let w2 := updateUploadProgress 30 "Uploading files to server..." w1
      let (w3, outcome) := fetch net { method := "POST", url := "/portfolio/upload", body := formData } w2
      let tried : World × Except String Body :=
        match outcome with
        | .rejected message => (w3, .error message)
        | .response status text json =>
          if !(FetchOutcome.ok status) then
            (w3, .error ("Server error: " ++ toString status ++ " - " ++ text))
          else
            match json with
            | .threw message => (w3, .error message)
            | .null message =>
              (updateUploadProgress 70 "Processing files..." w3, .error message)
            | .value result =>
              let w4 := updateUploadProgress 70 "Processing files..." w3
              if result.success then
                let w5 := updateUploadProgress 100 "Upload complete!" w4
                let w6 := showSuccess (orElse result.message "Files uploaded successfully!") w5
                let w7 := setTimeout .closeUploadModalAndClear 1000 w6
                let w8 :=
                  if w7.state.isDetailsPage then setTimeout .reloadPage 1500 w7
                  else if w7.dom.documentsActive then w7.emit .loadDocuments
                  else w7
                (w8, .ok result)
              else
                (w4, .error (orElse result.message "Upload failed"))
      match tried with
      | (w9, .ok result) => (w9, .ok result)
      | (w9, .error message) => (updateUploadProgress 0 "Upload failed" w9, .error message)

/-- The variables of the loop of `uploadToDocuments`, with the world. -/
structure LoopState where
  successCount : Nat
  failCount : Nat
  errors : List String
  world : World
  deriving DecidableEq, Repr

/-- The request that `uploadToDocuments` builds for one file. -/
def documentRequest (category : String) (file : File) : Request :=
  { method := "POST"
    url := "/portfolio/api/upload-to-documents"
    body := [("file", .file file), ("category", .text category)] }

/-- The `catch` branch and the `else` branch of the loop body: one more
failure, with its error text. -/
def LoopState.fail (s : LoopState) (w : World) (file : File) (message : String) : LoopState :=
  { successCount := s.successCount
    failCount := s.failCount + 1
    errors := s.errors ++ [file.name ++ ": " ++ message]
    world := w }

/-- The status text of one iteration:
the template `Uploading ${i + 1} of ${selectedFiles.length}: ${file.name}`. -/
def progressMessage (i total : Nat) (file : File) : String :=
  "Uploading " ++ toString (i + 1) ++ " of " ++ toString total ++ ": " ++ file.name

/-- One iteration of the `for` loop of `uploadToDocuments`, for the file at
index `i` of `total` selected files. -/
def uploadStep (net : Network) (category : String) (total i : Nat) (file : File)
    (s : LoopState) : LoopState :=
  let w1 := updateUploadProgress (progressPercent i total) (progressMessage i total file) s.world
  let (w2, outcome) := fetch net (documentRequest category file) w1
  match outcome with
  | .rejected message => s.fail w2 file message
  | .response status _ json =>
    if !(FetchOutcome.ok status) then s.fail w2 file ("HTTP " ++ toString status)
    else
      match json with
      | .threw message => s.fail w2 file message
      | .null message => s.fail w2 file message
      | .value result =>
        if result.success then { s with successCount := s.successCount + 1, world := w2 }
        else s.fail w2 file (interpolate result.message)

/-- The `for` loop of `uploadToDocuments` from index `i` on, over the files
`selectedFiles[i], selectedFiles[i+1], ...` that remain. -/
def uploadLoop (net : Network) (category : String) (total : Nat) :
    Nat → List File → LoopState → LoopState
  | _, [], s => s
  | i, file :: rest, s =>
    uploadLoop net category total (i + 1) rest (uploadStep net category total i file s)

/-- The constant `category` of `uploadToDocuments`:
`categorySelect ? categorySelect.value : 'personal'`. -/
def selectedCategory (w : World) : String :=
  match w.dom.documentCategory with
  | some value => value
  | none => "personal"

/-- The state of `uploadToDocuments` when its loop has finished. -/
def uploadToDocumentsLoop (net : Network) (w : World) : LoopState :=
  uploadLoop net (selectedCategory w) w.state.selectedFiles.length 0 w.state.selectedFiles
    { successCount := 0, failCount := 0, errors := [], world := w }

/-- The statements of `uploadToDocuments` that follow its loop. -/
def uploadToDocumentsReport (s : LoopState) : World :=
  let w1 := updateUploadProgress 100 "Upload complete!" s.world
  let w2 :=
    if s.successCount > 0 then
      let a := showSuccess
        ("Successfully uploaded " ++ toString s.successCount ++ " file(s) to documents") w1
      let b := setTimeout .closeUploadModalAndClear 1000 a
      if b.dom.documentsActive then setTimeout .loadDocuments 1500 b else b
    else w1
  if s.failCount > 0 then
    showWarning (toString s.failCount ++ " file(s) failed to upload")
      (s.errors.foldl (fun w error => showError error w) w2)
  else w2

/-- The function `uploadToDocuments()`. -/
def uploadToDocuments (net : Network) (w : World) : World :=
  uploadToDocumentsReport (uploadToDocumentsLoop net w)

/-- The function `uploadFiles()`. -/
def uploadFiles (net : Network) (w : World) : World :=
  if w.state.selectedFiles.length = 0 then showError "Please select files to upload" w
  else
    match w.dom.uploadBtn with
    | none => w
    | some uploadBtn =>
      let originalText := uploadBtn.innerHTML
      let w1 : World := { w with dom := { w.dom with
        uploadBtn := some
          { innerHTML := "<i class=\"fas fa-spinner fa-spin\"></i> Uploading...", disabled := true } } }
      let w2 : World :=
        if w1.dom.uploadProgressBar.isSome && w1.dom.uploadProgress.isSome
            && w1.dom.uploadStatus.isSome then
          { w1 with dom := { w1.dom with
            uploadProgress := some "block"
            uploadProgressBar := some "0%"
            uploadStatus := some "Starting upload..." } }
        else w1
      let tried : World × Except String Unit :=
        if w2.state.uploadDestination = "portfolio" then
          match uploadToPortfolio net w2 with
          | (w3, .ok _) => (w3, .ok ())
          | (w3, .error message) => (w3, .error message)
        else (uploadToDocuments net w2, .ok ())
      match tried with
      | (w3, .ok _) => w3
      | (w3, .error message) =>
        let w4 := showError ("Upload failed: " ++ message) w3
        { w4 with dom := { w4.dom with
          uploadBtn := some { innerHTML := originalText, disabled := false }
          uploadProgress := w4.dom.uploadProgress.map (fun _ => "none") } }

/-! ## Modal and upload-form functions -/

/-- The calls of `setTimeout` of a trace, in order. -/
def scheduled : List Event → List (TimerAction × Nat)
  | [] => []
  | .setTimeout action delay :: es => (action, delay) :: scheduled es
  | _ :: es => scheduled es

/-- The function `updateUploadButton()`. -/
def updateUploadButton (w : World) : World :=
  match w.dom.uploadBtn with
  | none => w
  | some _ =>
    let hasFiles := decide (w.state.selectedFiles.length > 0)
    let count := toString w.state.selectedFiles.length
    let button : Button :=
      if w.state.uploadDestination = "portfolio" then
        let hasPortfolio := truthy w.dom.uploadPortfolio
        { disabled := !(hasPortfolio && hasFiles)
          innerHTML :=
            if hasPortfolio && hasFiles then
              "<i class=\"fas fa-upload\"></i> Upload " ++ count ++ " File(s) to Portfolio"
            else "<i class=\"fas fa-upload\"></i> Upload Files" }
      else
        { disabled := !hasFiles
          innerHTML :=
            if hasFiles then
              "<i class=\"fas fa-upload\"></i> Upload " ++ count ++ " File(s) to Documents"
            else "<i class=\"fas fa-upload\"></i> Upload Files" }
    { w with dom := { w.dom with uploadBtn := some button } }

/-- The function `clearUploadForm()`. -/
def clearUploadForm (w : World) : World :=
  updateUploadButton
    { w with
      dom := { w.dom with
        fileInput := w.dom.fileInput.map (fun _ => "")
        uploadPreview := w.dom.uploadPreview.map (fun _ => [])
        uploadProgress := w.dom.uploadProgress.map (fun _ => "none") }
      state := { w.state with selectedFiles := [] } }

/-- The function `closeModal(modalId)`. -/
def closeModal (modalId : String) (w : World) : World :=
  if w.dom.modals.any (fun m => m.1 == modalId) then
    let w1 : World := { w with dom := { w.dom with
      modals := w.dom.modals.map (fun m => if m.1 == modalId then (m.1, false) else m)
      bodyOverflow := "auto" } }
    if modalId = "uploadModal" then clearUploadForm w1 else w1
  else w

/-- The callback that both upload strategies schedule after a success:
`closeModal('uploadModal'); clearUploadForm();`. -/
def closeUploadModalAndClear (w : World) : World :=
  clearUploadForm (closeModal "uploadModal" w)

/-! ## Vocabulary of the specification -/

/-- Specification: the request "returned 2xx with success=true". -/
def FetchOutcome.succeeded : FetchOutcome → Bool
  | .response status _ (.value body) => FetchOutcome.ok status && body.success
  | _ => false

/-- Specification: the message of a failed request, which is the thrown
error's message (`HTTP <status>` for a non-2xx response) or the `message` of a
body whose `success` is false. -/
def FetchOutcome.failureMessage : FetchOutcome → String
  | .rejected message => message
  | .response status _ json =>
    if FetchOutcome.ok status then
      match json with
      | .threw message => message
      | .null message => message
      | .value body => interpolate body.message
    else "HTTP " ++ toString status

/-- Specification: the outcomes of the requests for `n` files, when `k`
requests were issued before the first of them. -/
def outcomesFrom (net : Network) (k n : Nat) : List FetchOutcome :=
  (List.range n).map (fun i => net (k + i))

/-- Specification: the (file name, message) entry of a file, when it failed. -/
def errorEntry (p : File × FetchOutcome) : Option String :=
  if p.2.succeeded then none else some (p.1.name ++ ": " ++ p.2.failureMessage)

/-- The two effects of one loop iteration of `uploadToDocuments`: the progress
report, then the request. -/
def stepEvents (category : String) (total : Nat) (p : Nat × File) : List Event :=
  [.progress (progressPercent p.1 total) (progressMessage p.1 total p.2),
   .fetch (documentRequest category p.2)]

/-- The effects of the statements that follow the loop of `uploadToDocuments`. -/
def reportEvents (s : LoopState) : List Event :=
  [Event.progress 100 "Upload complete!"]
  ++ (if 0 < s.successCount then
        [Event.toast .success
          ("Successfully uploaded " ++ toString s.successCount ++ " file(s) to documents"),
         Event.setTimeout .closeUploadModalAndClear 1000]
        ++ (if s.world.dom.documentsActive then [Event.setTimeout .loadDocuments 1500] else [])
      else [])
  ++ (if 0 < s.failCount then
        s.errors.map (fun error => Event.toast .error error)
        ++ [Event.toast .warning (toString s.failCount ++ " file(s) failed to upload")]
      else [])

/-! ## Sample pages and networks -/

/-- A sample server: the second request of a run is answered with status 500,
every other request with status 200 and a body whose `success` is true. -/
def sampleNetwork : Network := fun k =>
  if k = 1 then .response 500 "Internal Server Error" (.threw "Unexpected token I in JSON")
  else .response 200 "" (.value { success := true, message := some "Uploaded" })

/-- A sample page: three valid files are selected, the destination is
`portfolio`, the select `#uploadPortfolio` exists with the empty value, and
the upload button and progress elements exist. -/
def samplePage : World :=
  { state :=
      { currentPortfolioId := none
        currentFolderId := none
        selectedFiles :=
          [{ name := "cv.pdf", size := 120000, type := "application/pdf" },
           { name := "photo.png", size := 340000, type := "image/png" },
           { name := "notes.txt", size := 900, type := "text/plain" }]
        userRole := some "STUDENT"
        userId := some "7"
        uploadDestination := "portfolio"
        isInitialized := true
        isInitializing := false
        isDetailsPage := false }
    dom :=
      { uploadBtn := some
          { innerHTML := "<i class=\"fas fa-upload\"></i> Upload Files", disabled := false }
        uploadPortfolio := some ""
        documentCategory := some "work"
        uploadProgressBar := some "0%"
        uploadProgress := some "none"
        uploadStatus := some ""
        documentsActive := true }
    trace := [] }

/-- The sample page with the destination switched to `documents`. -/
def sampleDocumentsPage : World :=
  { samplePage with state := { samplePage.state with uploadDestination := "documents" } }

/-- The sample page without the element `#uploadBtn`. -/
def samplePageWithoutButton : World :=
  { samplePage with dom := { samplePage.dom with uploadBtn := none } }

/-- A sample page for the documents destination with fifty selected files. -/
def sampleFiftyPage : World :=
  { sampleDocumentsPage with
    state := { sampleDocumentsPage.state with
      selectedFiles := (List.range 50).map (fun k =>
        { name := "scan" ++ toString k ++ ".png", size := 204800, type := "image/png" }) } }

/-! ## Vocabulary for the portfolio-destination strategy -/

/-- The request that `uploadToPortfolio` builds: every selected file under the
name `file`, then `portfolioId`, then `folderId` in a sub-folder context. -/
def portfolioRequest (w : World) (portfolioId : String) : Request :=
  { method := "POST"
    url := "/portfolio/upload"
    body := w.state.selectedFiles.map (fun f => ("file", FormValue.file f))
      ++ [("portfolioId", FormValue.text portfolioId)]
      ++ (if w.state.isDetailsPage && truthy w.state.currentFolderId then
            [("folderId", FormValue.text (interpolate w.state.currentFolderId))]
          else []) }

/-- Specification: the message of the `Error` with which `uploadToPortfolio`
ends, for an outcome that is not a 2xx response with success=true. -/
def portfolioFailureMessage : FetchOutcome → String
  | .rejected message => message
  | .response status text json =>
    if FetchOutcome.ok status then
      match json with
      | .threw message => message
      | .null message => message
      | .value body => orElse body.message "Upload failed"
    else "Server error: " ++ toString status ++ " - " ++ text

/-- The statements of `uploadFiles` between the lookup of the button and the
`try` block: the button shows the spinner and is disabled, and the progress
elements are reset when all three exist. -/
def uploadFilesPrepare (w : World) : World :=
  let w1 : World := { w with dom := { w.dom with
    uploadBtn := some
      { innerHTML := "<i class=\"fas fa-spinner fa-spin\"></i> Uploading...", disabled := true } } }
  if w1.dom.uploadProgressBar.isSome && w1.dom.uploadProgress.isSome
      && w1.dom.uploadStatus.isSome then
    { w1 with dom := { w1.dom with
      uploadProgress := some "block"
      uploadProgressBar := some "0%"
      uploadStatus := some "Starting upload..." } }
  else w1

/-- The `catch` block of `uploadFiles`, for an error with the given message
and the button text saved before the upload. -/
def uploadFilesCatch (originalText message : String) (w : World) : World :=
  let w4 := showError ("Upload failed: " ++ message) w
  { w4 with dom := { w4.dom with
    uploadBtn := some { innerHTML := originalText, disabled := false }
    uploadProgress := w4.dom.uploadProgress.map (fun _ => "none") } }

/-- The sample page with the portfolio `12` selected in `#uploadPortfolio`. -/
def samplePortfolioPage : World :=
  { samplePage with dom := { samplePage.dom with uploadPortfolio := some "12" } }

/-- A sample server that answers every request with status 200 and a body
whose `success` is false and whose `message` is `Storage quota exceeded`. -/
def sampleRefusingNetwork : Network := fun _ =>
  .response 200 "" (.value { success := false, message := some "Storage quota exceeded" })

/-- A sample server that answers every request with status 413 and the text
`Payload Too Large`. -/
def sampleTooLargeNetwork : Network := fun _ =>
  .response 413 "Payload Too Large" (.threw "Unexpected token P in JSON")

/-- A sample server that answers every request with status 200 and a body
whose `success` is true. -/
def sampleAcceptingNetwork : Network := fun _ =>
  .response 200 "" (.value { success := true, message := some "Uploaded" })

/-- A sample server that answers every request with status 200 and the body
`null`. -/
def sampleNullNetwork : Network := fun _ =>
  .response 200 "null" (.null "Cannot read properties of null (reading 'success')")

/-- The sample page with the upload modal open. -/
def sampleModalPage : World :=
  { sampleDocumentsPage with dom := { sampleDocumentsPage.dom with
    modals := [("createPortfolioModal", false), ("uploadModal", true)]
    bodyOverflow := "hidden"
    fileInput := some "C:\\fakepath\\cv.pdf"
    uploadPreview := some ["cv.pdf", "photo.png", "notes.txt"] } }

/-! ## Page initialization -/

/-- The test `s.includes(sub)` over the characters of two strings. -/
def includesChars : List Char → List Char → Bool
  | [], sub => sub.isEmpty
  | c :: cs, sub => sub.isPrefixOf (c :: cs) || includesChars cs sub

/-- The method `s.includes(sub)` on strings. -/
def stringIncludes (s sub : String) : Bool := includesChars s.data sub.data

/-- What a call of `initPortfolioSystem` reads from outside `portfolioState`:
the path of the page and the globals that the page template sets on
`window`. -/
structure InitEnv where
  pathname : String
  currentUserRole : Option String := none
  currentUserId : Option String := none
  currentPortfolioId : Option String := none
  currentFolderId : Option String := none

/-- The initial value of the global object `portfolioState`. -/
def initialState : PortfolioState :=
  { currentPortfolioId := none
    currentFolderId := none
    selectedFiles := []
    userRole := none
    userId := none
    uploadDestination := "portfolio"
    isInitialized := false
    isInitializing := false
    isDetailsPage := false }

/-- The function `detectPageType()`. -/
def detectPageType (env : InitEnv) (w : World) : World :=
  { w with state := { w.state with isDetailsPage := stringIncludes env.pathname "/details/" } }

/-- A call of one setup routine: the call is recorded and the routine returns
normally, with `none` for the error that the `try` block would catch.  None
of the five routines has a statement that throws: `setupToastSystem` appends
a style element to `document.head`, `setupModals` and the two page
initializers add listeners to the document and to the elements they find,
`setupUploadSystem` works on `#uploadArea` and `#fileInput` only when both
exist, and the loaders are started with `setTimeout` or as `async` calls that
are not awaited, so that a failed request does not reach the `try` block.
What the routines do to the document is not modelled. -/
def callSetup (_env : InitEnv) (routine : SetupRoutine) (w : World) : World × Option String :=
  ({ w with setupCalls := w.setupCalls ++ [routine] }, none)

/-- The calls of the setup routines inside the `try` block, in order, up to the
first one that throws. -/
def runSetup (env : InitEnv) : List SetupRoutine → World → World × Option String
  | [], w => (w, none)
  | routine :: rest, w =>
    match callSetup env routine w with
    | (w1, some message) => (w1, some message)
    | (w1, none) => runSetup env rest w1

/-- The value `x || null` for a string-or-absent `x`. -/
def orNull (x : Option String) : Option String := if truthy x then x else none

/-- The function `initPortfolioSystem()`. -/
def initPortfolioSystem (env : InitEnv) (w : World) : World :=
  let w0 := detectPageType env w
  if w0.state.isInitialized || w0.state.isInitializing then w0
  else
    let w1 : World := { w0 with state := { w0.state with isInitializing := true } }
    let w2 : World := { w1 with state := { w1.state with
      userRole := some (orElse env.currentUserRole "GUEST")
      userId := some (orElse env.currentUserId "0")
      currentPortfolioId := orNull env.currentPortfolioId
      currentFolderId := orNull env.currentFolderId } }
    let pageInitializer :=
      if w2.state.isDetailsPage then SetupRoutine.initPortfolioDetailsPage
      else SetupRoutine.initPortfolioMainPage
    match runSetup env
        [.setupToastSystem, .setupModals, .setupUploadSystem, pageInitializer] w2 with
    | (w3, none) =>
      { w3 with state := { w3.state with isInitialized := true, isInitializing := false } }
    | (w3, some message) =>
      let w4 := showError ("Failed to initialize portfolio system: " ++ message) w3
      { w4 with state := { w4.state with isInitializing := false } }

/-- A sequence of calls of `initPortfolioSystem`, one environment per call. -/
def initCalls (envs : List InitEnv) (w : World) : World :=
  envs.foldl (fun page env => initPortfolioSystem env page) w

/-- The page inside the `try` block of a call of `initPortfolioSystem` that
passed the guard: `detectPageType` has run and `isInitializing` is set. -/
def initPortfolioSystemEntered (env : InitEnv) (w : World) : World :=
  let w0 := detectPageType env w
  { w0 with state := { w0.state with isInitializing := true } }

/-- The pages that a call of `initPortfolioSystem` can meet within one page
load at the path `path`.  The page starts with the initial `portfolioState`;
a call of `initPortfolioSystem` returns; a call passes the guard and is inside
its `try` block; or other code of the page runs.  The fields `isInitialized`,
`isInitializing` and `isDetailsPage` are assigned only in `detectPageType`
and `initPortfolioSystem`, and `detectPageType` is called only there, so
other code leaves the three fields as they are.  The path is the same for
every call: the source changes it only by assigning `window.location.href`,
which loads a new page. -/
inductive ReachablePage (path : String) : World → Prop where
  | loaded (w : World) (hstate : w.state = initialState) : ReachablePage path w
  | returned (env : InitEnv) (w : World) (hpath : env.pathname = path)
      (h : ReachablePage path w) : ReachablePage path (initPortfolioSystem env w)
  | entered (env : InitEnv) (w : World) (hpath : env.pathname = path)
      (h : ReachablePage path w)
      (hflags : w.state.isInitialized = false ∧ w.state.isInitializing = false) :
      ReachablePage path (initPortfolioSystemEntered env w)
  | other (w after : World) (h : ReachablePage path w)
      (hinitialized : after.state.isInitialized = w.state.isInitialized)
      (hinitializing : after.state.isInitializing = w.state.isInitializing)
      (hdetails : after.state.isDetailsPage = w.state.isDetailsPage) :
      ReachablePage path after

/-- Specification: the setup logic of one call, in call order. -/
def setupRoutines (env : InitEnv) : List SetupRoutine :=
  [.setupToastSystem, .setupModals, .setupUploadSystem,
   if stringIncludes env.pathname "/details/" then .initPortfolioDetailsPage
   else .initPortfolioMainPage]

/-- The page right after it was loaded: the initial `portfolioState`, no
effects, no setup routine called. -/
def freshPage : World :=
  { state := initialState
    dom := samplePage.dom
    trace := [] }

/-- A sample environment of the main page. -/
def sampleMainEnv : InitEnv :=
  { pathname := "/portfolio", currentUserRole := some "STUDENT", currentUserId := some "7" }

/-- A sample environment of a details page. -/
def sampleDetailsEnv : InitEnv :=
  { pathname := "/portfolio/details/5", currentUserRole := some "STUDENT",
    currentUserId := some "7", currentPortfolioId := some "5" }

/-! ## Portfolio creation -/

/-- The white space and line terminator characters that `trim()` removes. -/
def isJsWhitespace (c : Char) : Bool :=
  decide (c.toNat ∈ [9, 10, 11, 12, 13, 32, 160, 5760, 8192, 8193, 8194, 8195, 8196, 8197, 8198,
    8199, 8200, 8201, 8202, 8232, 8233, 8239, 8287, 12288, 65279])

/-- The method `trim()`. -/
def trim (s : String) : String :=
  ⟨((s.data.dropWhile isJsWhitespace).reverse.dropWhile isJsWhitespace).reverse⟩

/-- What `createPortfolio` holds while it awaits the response: the button text
saved before the request. -/
structure CreatePending where
  originalText : String
  deriving DecidableEq, Repr

/-- The request that `createPortfolio` builds from the three form values. -/
def createRequest (name description type : String) : Request :=
  { method := "POST"
    url := "/portfolio/create"
    body := [("name", .text name), ("description", .text description), ("type", .text type)]
    headers := [("Content-Type", "application/x-www-form-urlencoded")] }

/-- The function `createPortfolio()` up to its `await fetch(...)`: the guard,
the validation of the form, and the sending of the request.  The result is
`none` when the call has returned, and the saved constants when the call is
suspended at the `await`. -/
def createPortfolioStart (w : World) : World × Option CreatePending :=
  if w.isCreatingPortfolio then (w, none)
  else
    let w1 : World := { w with isCreatingPortfolio := true }
    match w1.createForm.portfolioName, w1.createForm.portfolioType with
    | some nameValue, some typeValue =>
      let name := trim nameValue
      let description :=
        match w1.createForm.portfolioDescription with
        | some value => trim value
        | none => ""
      if name = "" then
        ({ showError "Please enter portfolio name" w1 with isCreatingPortfolio := false }, none)
      else if typeValue = "" then
        ({ showError "Please select portfolio type" w1 with isCreatingPortfolio := false }, none)
      else
        let originalText :=
          match w1.createForm.submitBtn with
          | some button => button.innerHTML
          | none => "Create"
        let w2 : World := { w1 with createForm := { w1.createForm with
          submitBtn := w1.createForm.submitBtn.map (fun _ =>
            { innerHTML := "<i class=\"fas fa-spinner fa-spin\"></i> Creating...",
              disabled := true }) } }
        (w2.emit (.fetch (createRequest name description typeValue)),
          some { originalText := originalText })
    | _, _ =>
      ({ showError "Form elements not found" w1 with isCreatingPortfolio := false }, none)

/-- The function `createPortfolio()` from the moment `fetch` settles: the
handling of the outcome, then the `finally` block, which restores the button
and schedules the reset of the flag after 2000 ms. -/
def createPortfolioResume (pending : CreatePending) (outcome : FetchOutcome) (w : World) :
    World :=
  let networkError := "Network error. Please check your connection and try again."
  let handled : World :=
    match outcome with
    | .rejected _ => showError networkError w
    | .response status _ json =>
      if !(FetchOutcome.ok status) then showError networkError w
      else
        match json with
        | .threw _ => showError networkError w
        | .null _ => showError networkError w
        | .value result =>
          if result.success then
            let a := showSuccess "Portfolio created successfully!" w
            let b := closeModal "createPortfolioModal" a
            let c : World := { b with createForm := { b.createForm with
              portfolioName := b.createForm.portfolioName.map (fun _ => "")
              portfolioDescription := b.createForm.portfolioDescription.map (fun _ => "")
              portfolioType := b.createForm.portfolioType.map (fun _ => "") } }
            setTimeout .reloadPage 1500 c
          else showError (orElse result.message "Failed to create portfolio") w
  let restored : World := { handled with createForm := { handled.createForm with
    submitBtn := handled.createForm.submitBtn.map (fun _ =>
      { innerHTML := pending.originalText, disabled := false }) } }
  setTimeout .resetCreatingFlag 2000 restored

/-- The function `createPortfolio()` run without another handler in between. -/
def createPortfolio (net : Network) (w : World) : World :=
  match createPortfolioStart w with
  | (w1, none) => w1
  | (w1, some pending) => createPortfolioResume pending (net (requests w.trace).length) w1

/-- The callback that `createPortfolio` schedules in its `finally` block:
`isCreatingPortfolio = false;`. -/
def resetCreatingFlag (w : World) : World := { w with isCreatingPortfolio := false }

/-- The sample page with the create-portfolio form filled in. -/
def sampleCreatePage : World :=
  { samplePage with
    dom := { samplePage.dom with modals := [("createPortfolioModal", true)] }
    createForm :=
      { portfolioName := some "  Thesis  "
        portfolioDescription := some "Drafts and figures"
        portfolioType := some "PERSONAL"
        submitBtn := some { innerHTML := "Create", disabled := false } } }

/-- The sample page with the create-portfolio form left empty. -/
def sampleEmptyCreatePage : World :=
  { sampleCreatePage with createForm := { sampleCreatePage.createForm with
    portfolioName := some "   " } }

/-! ## Toast elements and their timers

The function `showToast` above records a call.  Here the toast elements in the
document and the timers that `showToast` registers are modelled, with a clock
in milliseconds: a timer registered with delay `d` runs when the clock reaches
the time of registration plus `d`, timers due at the same time run in the
order of registration. -/

/-- An element of class `toast` in the document; `shown` is the class `show`. -/
structure ToastElement where
  id : Nat
  type : ToastType
  message : String
  shown : Bool
  deriving DecidableEq, Repr

/-- The callbacks that `showToast` passes to `setTimeout`. -/
inductive ToastCallback where
  /-- The body `toast.classList.add('show')`. -/
  | addShow (id : Nat)
  /-- The body `toast.remove()`. -/
  | remove (id : Nat)
  /-- The body `toast.classList.remove('show'); setTimeout(() => toast.remove(), 300);`. -/
  | dismiss (id : Nat)
  deriving DecidableEq, Repr

/-- A registered timer: the time at which it is due, and its callback. -/
structure ToastTimer where
  due : Nat
  callback : ToastCallback
  deriving DecidableEq, Repr

/-- The toasts of the page: the clock, the number of toast elements created so
far, the toast elements in the document in document order, and the pending
timers in the order in which they will run. -/
structure ToastPage where
  now : Nat
  created : Nat
  toasts : List ToastElement
  timers : List ToastTimer
  deriving DecidableEq, Repr

namespace ToastPage

/-- Puts a timer behind every pending timer that is due no later than it. -/
def insertTimer (timer : ToastTimer) : List ToastTimer → List ToastTimer
  | [] => [timer]
  | next :: rest =>
    if timer.due < next.due then timer :: next :: rest else next :: insertTimer timer rest

/-- The function `setTimeout(callback, delay)`. -/
def setTimeout (callback : ToastCallback) (delay : Nat) (p : ToastPage) : ToastPage :=
  { p with timers := insertTimer { due := p.now + delay, callback := callback } p.timers }

/-- The assignment of the class `show` of the toast `id`, if it is in the
document. -/
def setShown (id : Nat) (value : Bool) (p : ToastPage) : ToastPage :=
  { p with toasts := p.toasts.map (fun t => if t.id = id then { t with shown := value } else t) }

/-- The run of one timer callback. -/
def run : ToastCallback → ToastPage → ToastPage
  | .addShow id, p => setShown id true p
  | .remove id, p => { p with toasts := p.toasts.filter (fun t => t.id != id) }
  | .dismiss id, p => setTimeout (.remove id) 300 (setShown id false p)

/-- The function `showToast(message, type, duration)`. -/
def showToast (message : String) (type : ToastType) (duration : Nat) (p : ToastPage) :
    ToastPage :=
  let p1 := p.toasts.foldl
    (fun page existing => setTimeout (.remove existing.id) 300 (setShown existing.id false page)) p
  let toast : ToastElement :=
    { id := p1.created, type := type, message := message, shown := false }
  let p2 : ToastPage := { p1 with toasts := p1.toasts ++ [toast], created := p1.created + 1 }
  let p3 := setTimeout (.addShow toast.id) 10 p2
  setTimeout (.dismiss toast.id) duration p3

/-- The passing of time up to `target`: the pending timers that are due by
then run in order, each at its due time.  The first argument bounds the number
of timers run. -/
def advance : Nat → Nat → ToastPage → ToastPage
  | 0, target, p => { p with now := target }
  | fuel + 1, target, p =>
    match p.timers with
    | [] => { p with now := target }
    | timer :: rest =>
      if timer.due ≤ target then
        advance fuel target (run timer.callback { p with now := timer.due, timers := rest })
      else { p with now := target }

/-- The passing of `delay` milliseconds.  Every timer run registers at most one
further timer, and only a `dismiss` does, so twice the number of pending timers
bounds the number of timers run. -/
def elapse (delay : Nat) (p : ToastPage) : ToastPage :=
  advance (2 * p.timers.length + 1) (p.now + delay) p

/-- The toasts that carry the class `show`. -/
def visible (p : ToastPage) : List ToastElement := p.toasts.filter (fun t => t.shown)

/-- The calls of `showToast` of a run, made one after the other without the
clock moving, each with the default duration of 5000 ms. -/
def showAll (calls : List (ToastType × String)) (p : ToastPage) : ToastPage :=
  calls.foldl (fun page call => showToast call.2 call.1 5000 page) p

/-- A page without toasts. -/
def empty : ToastPage := { now := 0, created := 0, toasts := [], timers := [] }

end ToastPage

/-! ## Deleting portfolios, items and documents -/

/-- The portfolio card around a delete button, as `deletePortfolio` reads and
changes it: the `textContent` of its `h3` (`none` when it has none) and two
properties of its `style`. -/
structure PortfolioCard where
  heading : Option String
  opacity : String
  transform : String
  deriving DecidableEq, Repr

/-- The `event` argument of `deletePortfolio`, as far as it is read: the
results of `event.target.closest('.portfolio-card')` and of
`event.target.closest('button')` before the request, each `none` when nothing
is found, and whether replacing the content of the button takes the target
out of the card (the target is an element inside the button, such as its
icon, and the card is around the button). -/
structure ClickEvent where
  card : Option PortfolioCard
  button : Option Button
  detachedBySpinner : Bool := false
  deriving DecidableEq, Repr

/-- The request that `deletePortfolio` builds. -/
def deletePortfolioRequest (portfolioId : String) : Request :=
  { method := "DELETE"
    url := "/portfolio/" ++ portfolioId
    body := []
    headers := [("Accept", "application/json")] }

/-- The function `deletePortfolio(portfolioId, event)`, with the answer of the
user to `confirm(message)` as `confirm message`: the world after the run and
the elements of the event.  An id is given by its text, and an id that is
falsy (`undefined`, `null`, `0`, the empty string) by `none` or `""`. -/
def deletePortfolio (net : Network) (confirm : String → Bool) (portfolioId : Option String)
    (event : Option ClickEvent) (w : World) : World × Option ClickEvent :=
  if !(truthy portfolioId) then (showError "No portfolio ID provided" w, event)
  else
    let portfolioCard := event.bind (fun e => e.card)
    let portfolioName :=
      match portfolioCard.bind (fun card => card.heading) with
      | some text => "\"" ++ trim text ++ "\""
      | none => "this portfolio"
    let confirmed := confirm ("Are you sure you want to delete " ++ portfolioName
      ++ "?\n\nThis action cannot be undone. All files and folders will be permanently deleted.")
    if !confirmed then (w, event)
    else
      let deleteBtn := event.bind (fun e => e.button)
      let originalText :=
        match deleteBtn with
        | some button => button.innerHTML
        | none => "undefined"
      let spinning := event.map (fun e => { e with
        button := e.button.map (fun _ =>
          { innerHTML := "<i class=\"fas fa-spinner fa-spin\"></i>", disabled := true }) })
      let restored := event.map (fun e => { e with
        button := e.button.map (fun _ => { innerHTML := originalText, disabled := false }) })
      let (w1, outcome) := fetch net (deletePortfolioRequest (interpolate portfolioId)) w
      let caught : World × Option ClickEvent :=
        (showError "Network error. Please try again." w1, restored)
      match outcome with
      | .rejected _ => caught
      | .response status _ json =>
        if !(FetchOutcome.ok status) then caught
        else
          match json with
          | .threw _ => caught
          | .null _ => caught
          | .value result =>
            if result.success then
              let w2 := showSuccess "Portfolio deleted successfully!" w1
              let cardAfter := event.bind (fun e =>
                if e.button.isSome && e.detachedBySpinner then none else e.card)
              match cardAfter with
              | some _ =>
                (setTimeout .collapsePortfolioCard 100 w2,
                  spinning.map (fun e => { e with
                    card := e.card.map (fun card =>
                      { card with opacity := "0.5", transform := "scale(0.95)" }) }))
              | none => (setTimeout .reloadPage 1500 w2, spinning)
            else
              (showError (orElse result.message "Failed to delete portfolio") w1, restored)

/-- The request that `deleteItem` builds. -/
def deleteItemRequest (itemId : String) : Request :=
  { method := "DELETE"
    url := "/portfolio/delete-item/" ++ itemId
    body := []
    headers := [("Accept", "application/json")] }

/-- The function `deleteItem(itemId, event)`, with the answer of the user to
`confirm(message)` as `confirm message`. -/
def deleteItem (net : Network) (confirm : String → Bool) (itemId : Option String) (w : World) :
    World :=
  if !(confirm "Are you sure you want to delete this item?") then w
  else
    let (w1, outcome) := fetch net (deleteItemRequest (interpolate itemId)) w
    let caught := w1.emit (.alert "Network error. Please try again.")
    match outcome with
    | .rejected _ => caught
    | .response status _ json =>
      if !(FetchOutcome.ok status) then caught
      else
        match json with
        | .threw _ => caught
        | .null _ => caught
        | .value result =>
          if result.success then (w1.emit (.alert "Item deleted successfully")).emit .reload
          else w1.emit (.alert (orElse result.message "Failed to delete item"))

/-- The request that `deleteDocument` builds, in `portfolio.js` and in
`document.js`. -/
def deleteDocumentRequest (documentId : String) : Request :=
  { method := "DELETE"
    url := "/portfolio/api/delete-document/" ++ documentId
    body := [] }

/-- The function `deleteDocument(documentId)` of `portfolio.js`. -/
def deleteDocument (net : Network) (confirm : String → Bool) (documentId : Option String)
    (w : World) : World :=
  if !(confirm "Are you sure you want to delete this document?") then w
  else
    let (w1, outcome) := fetch net (deleteDocumentRequest (interpolate documentId)) w
    let caught := showError "Network error. Please try again." w1
    match outcome with
    | .rejected _ => caught
    | .response status _ json =>
      if !(FetchOutcome.ok status) then caught
      else
        match json with
        | .threw _ => caught
        | .null _ => caught
        | .value result =>
          if result.success then
            (showSuccess "Document deleted successfully" w1).emit .loadDocuments
          else showError (orElse result.message "Failed to delete document") w1

/-- The function `deleteDocument(documentId)` of `document.js`, which does not
look at the status of the response. -/
def DocumentJs.deleteDocument (net : Network) (confirm : String → Bool)
    (documentId : Option String) (w : World) : World :=
  if !(confirm "Are you sure you want to delete this document?") then w
  else
    let (w1, outcome) := fetch net (deleteDocumentRequest (interpolate documentId)) w
    let caught := showError "Network error. Please try again." w1
    match outcome with
    | .rejected _ => caught
    | .response _ _ json =>
      match json with
      | .threw _ => caught
      | .null _ => caught
      | .value result =>
        if result.success then
          (showSuccess "Document deleted successfully" w1).emit .loadDocuments
        else showError (orElse result.message "Failed to delete document") w1

/-- Specification: whether a request carries the CSRF pair of the page
metadata, that is a header whose name is the content of
`meta[name="_csrf_header"]` and whose value is the content of
`meta[name="_csrf"]`. -/
def carriesCsrf (dom : Dom) (request : Request) : Bool :=
  match dom.csrfHeaderMeta, dom.csrfMeta with
  | some header, some token => request.headers.contains (header, token)
  | _, _ => false

/-- The sample page with the portfolio `12` selected and a CSRF pair in its
metadata. -/
def sampleCsrfPage : World :=
  { samplePortfolioPage with
    dom := { samplePortfolioPage.dom with
      csrfMeta := some "5f1d2c9a-77aa-4c0e-9b1e-2f6d8e0a4b13"
      csrfHeaderMeta := some "X-CSRF-TOKEN" }
    createForm := sampleCreatePage.createForm }

/-- The answer `OK` to every confirmation dialog. -/
def confirmAll : String → Bool := fun _ => true

/-- A click on the delete button of the card of the portfolio `Thesis`. -/
def sampleClick : ClickEvent :=
  { card := some { heading := some " Thesis ", opacity := "", transform := "" }
    button := some { innerHTML := "<i class=\"fas fa-trash\"></i>", disabled := false } }

/-- A click on the icon inside the delete button of the same card. -/
def sampleIconClick : ClickEvent := { sampleClick with detachedBySpinner := true }

/-- Specification: the requests sent between two moments of a run, the trace
of the later one extending the trace of the earlier one. -/
def sentBetween (before after : World) : List Request :=
  (requests after.trace).drop (requests before.trace).length

/-! ## Lower-casing by the rules of the Unicode standard

The function `toLowerCase` above maps each letter by itself.  The method of
JavaScript follows the Unicode standard, whose one rule that looks at the
neighbours of a letter is the rule for the Greek capital sigma.  The functions
of the documents list lower-case a text after it was escaped, which changes
the neighbours of a letter, so they are given the model below. -/

namespace Unicode

/-- The property `Cased` on the ASCII characters and the Greek letters from
alpha to omega: the letters. -/
def isCased (c : Char) : Bool :=
  (decide (65 ≤ c.toNat) && decide (c.toNat ≤ 90))
    || (decide (97 ≤ c.toNat) && decide (c.toNat ≤ 122))
    || (decide (913 ≤ c.toNat) && decide (c.toNat ≤ 929))
    || (decide (931 ≤ c.toNat) && decide (c.toNat ≤ 937))
    || (decide (945 ≤ c.toNat) && decide (c.toNat ≤ 969))

/-- The property `Case_Ignorable` on the same characters: the apostrophe, the
full stop, the colon, the circumflex accent and the grave accent. -/
def isCaseIgnorable (c : Char) : Bool := decide (c.toNat ∈ [39, 46, 58, 94, 96])

/-- Whether a text starts with zero or more case-ignorable characters and
then a cased letter. -/
def reachesCased : List Char → Bool
  | [] => false
  | c :: cs => isCased c || (isCaseIgnorable c && reachesCased cs)

/-- The lower-case mapping of one character: the capitals A to Z and the
Greek capitals alpha to omega go to their small letters. -/
def lowerChar (c : Char) : Char :=
  if (913 ≤ c.toNat ∧ c.toNat ≤ 929) ∨ (931 ≤ c.toNat ∧ c.toNat ≤ 937) then
    Char.ofNat (c.toNat + 32)
  else c.toLower

/-- The lower-casing of the rest of a text, given the characters before it,
nearest first.  A capital sigma becomes the final small sigma when it is
preceded by a cased letter and then zero or more case-ignorable characters,
and is not followed by zero or more case-ignorable characters and then a
cased letter (the condition `Final_Sigma` of the standard); otherwise it
becomes the small sigma. -/
def lowerFrom : List Char → List Char → List Char
  | _, [] => []
  | before, c :: cs =>
    (if c = 'Σ' then (if reachesCased before && !reachesCased cs then 'ς' else 'σ')
      else lowerChar c) :: lowerFrom (c :: before) cs

/-- The method `toLowerCase()`, exact on the texts of ASCII characters and
Greek letters from alpha to omega (the texts of `covered` characters); a
capital letter outside this range is kept as it is. -/
def toLowerCase (s : String) : String := ⟨lowerFrom [] s.data⟩

/-- The characters on which the model of `toLowerCase()` is exact: the ASCII
characters, the Greek capitals from alpha to omega and the Greek small
letters from alpha to omega. -/
def covered (c : Char) : Bool :=
  decide (c.toNat ≤ 127)
    || (decide (913 ≤ c.toNat) && decide (c.toNat ≤ 929))
    || (decide (931 ≤ c.toNat) && decide (c.toNat ≤ 937))
    || (decide (945 ≤ c.toNat) && decide (c.toNat ≤ 969))

end Unicode

/-! ## The documents list -/

/-- The replacement of one character by `escapeHtml`. -/
def escapeChar (c : Char) : List Char :=
  if c = '&' then "&amp;".data
  else if c = '<' then "&lt;".data
  else if c = '>' then "&gt;".data
  else if c = '"' then "&quot;".data
  else if c = '\'' then "&#039;".data
  else [c]

/-- The function `escapeHtml(text)` on a string; the empty string, which is
falsy, is returned as it is. -/
def escapeHtml (text : String) : String := ⟨text.data.flatMap escapeChar⟩

/-- The character reference at the start of a text, among the five that
`escapeHtml` writes: its character and its length. -/
def characterReference (cs : List Char) : Option (Char × Nat) :=
  if "&amp;".data.isPrefixOf cs then some ('&', 5)
  else if "&lt;".data.isPrefixOf cs then some ('<', 4)
  else if "&gt;".data.isPrefixOf cs then some ('>', 4)
  else if "&quot;".data.isPrefixOf cs then some ('"', 6)
  else if "&#039;".data.isPrefixOf cs then some ('\'', 6)
  else none

/-- The reading of an attribute value from left to right; the first argument
is the number of characters that are still part of the reference read last. -/
def decodeFrom : Nat → List Char → List Char
  | _, [] => []
  | skip + 1, _ :: rest => decodeFrom skip rest
  | 0, c :: rest =>
    match characterReference (c :: rest) with
    | some (character, length) => character :: decodeFrom (length - 1) rest
    | none => c :: decodeFrom 0 rest

/-- The value that the HTML parser gives to an attribute written between
double quotes, for a text in which every `&` starts one of the five character
references that `escapeHtml` writes, as in every text that `escapeHtml`
returns: each reference is replaced by its character. -/
def decodeAttribute (cs : List Char) : List Char := decodeFrom 0 cs

/-- A document of the list that the server returns, as far as the cards of
`renderDocuments` and their filters depend on it. -/
structure Document where
  name : String
  category : Option String
  deriving DecidableEq, Repr

/-- An element of class `document-card`: its two data attributes and its
`style.display`. -/
structure DocumentCard where
  dataCategory : String
  dataName : String
  display : String
  deriving DecidableEq, Repr

/-- The content of the documents container: the `value` of `#documentSearch`
(`none` when the element does not exist) and the document cards in order. -/
structure DocumentsView where
  documentSearch : Option String
  cards : List DocumentCard
  /-- The elements of class `filter-btn` in order, each with whether it carries
  the class `active`. -/
  filterButtons : List Bool := []
  deriving DecidableEq, Repr

/-- The function `renderDocuments(documents, container)`: the content that the
assignment to `container.innerHTML` gives the container.  Each card carries
the attribute `data-name` that the parser reads from
`escapeHtml(doc.name).toLowerCase()`.  The values that the source writes into
the markup without escaping them (category, icon, id, size) are taken to hold
no markup characters, so that the markup has one card per document. -/
def renderDocuments (documents : List Document) : DocumentsView :=
  { documentSearch := some ""
    cards := documents.map (fun doc =>
      { dataCategory := orElse doc.category "personal"
        dataName := ⟨decodeAttribute (Unicode.toLowerCase (escapeHtml doc.name)).data⟩
        display := "" })
    filterButtons := [true, false, false, false] }

/-- The function `searchDocuments()`. -/
def searchDocuments (view : DocumentsView) : DocumentsView :=
  let searchTerm := orElse (view.documentSearch.map Unicode.toLowerCase) ""
  { view with cards := view.cards.map (fun card =>
      if stringIncludes card.dataName searchTerm then { card with display := "flex" }
      else { card with display := "none" }) }

/-- The documents of the example of the specification. -/
def sampleDocuments : List Document :=
  [{ name := "Report.pdf", category := some "work" },
   { name := "invoice.pdf", category := none }]

/-- A document whose name has a capital sigma before an apostrophe. -/
def sampleGreekDocuments : List Document :=
  [{ name := "ΑΣ'Α.pdf", category := some "personal" }]

/-- The typing of a search term into `#documentSearch`. -/
def typeSearchTerm (term : String) (view : DocumentsView) : DocumentsView :=
  { view with documentSearch := view.documentSearch.map (fun _ => term) }

/-! ## Vocabulary for the toasts -/

/-- Specification: only the toast `b` can be visible.  Every toast that
carries the class `show` has the id `b`, at most one toast of the document has
that id, and every pending timer that adds the class `show` is for `b` or for
a toast that is no longer in the document. -/
def ToastPage.OnlyVisible (b : Nat) (p : ToastPage) : Prop :=
  (∀ t ∈ p.toasts, t.shown = true → t.id = b) ∧
  (p.toasts.filter (fun t => t.id == b)).length ≤ 1 ∧
  (∀ timer ∈ p.timers, ∀ id, timer.callback = .addShow id →
    id = b ∨ ∀ t ∈ p.toasts, t.id ≠ id)

/-! ## Vocabulary for the contents of a request -/

/-- Specification: the files among the entries of a request body, in order. -/
def Request.files (r : Request) : List File :=
  r.body.filterMap (fun entry =>
    match entry.2 with
    | .file f => some f
    | .text _ => none)

/-- Specification: the text values that a request body holds under a name, in
order. -/
def Request.texts (name : String) (r : Request) : List String :=
  r.body.filterMap (fun entry =>
    match entry.2 with
    | .text s => if entry.1 = name then some s else none
    | .file _ => none)



/-! ## The selection of files -/

/-- The function `handleFiles(files)`: without the element `#uploadPreview`
nothing happens; otherwise the selection and the preview are emptied, every
file is validated in turn, a file that fails is reported with `showError`, a
file that passes is pushed onto `selectedFiles` and gets a preview item, and
the button is updated. -/
def handleFiles (files : List File) (w : World) : World :=
  match w.dom.uploadPreview with
  | none => w
  | some _ =>
    let w1 : World := { w with
      state := { w.state with selectedFiles := [] }
      dom := { w.dom with uploadPreview := some [] } }
    let looped : World × Bool := files.foldl (fun (acc : World × Bool) file =>
      let validation := validateFile file
      if !validation.valid then (showError (interpolate validation.message) acc.1, true)
      else
        ({ acc.1 with
            state := { acc.1.state with selectedFiles := acc.1.state.selectedFiles ++ [file] }
            dom := { acc.1.dom with
              uploadPreview := acc.1.dom.uploadPreview.map (fun items => items ++ [file.name]) } },
          acc.2)) (w1, false)
    let w2 := updateUploadButton looped.1
    if looped.2 && decide (w2.state.selectedFiles.length > 0) then
      showWarning "Some files were rejected" w2
    else w2

/-- The characters that do not stand for themselves inside a double-quoted
CSS string: the double quote ends the string, the backslash starts an escape,
a line feed, carriage return or form feed makes the string a bad string, and
U+0000 is replaced by U+FFFD before the selector is read. -/
def selectorSpecial (c : Char) : Bool :=
  c == '"' || c == '\\' || c == '\n' || c == '\r' || c == Char.ofNat 12 || c == Char.ofNat 0

/-- The selector that `removeFilePreview` builds: the template
`.preview-item[data-file-name="${fileName}"]`, the name being pasted in as it
is. -/
def previewSelector (fileName : String) : String :=
  ".preview-item[data-file-name=\"" ++ fileName ++ "\"]"

/-- The selector engine of the browser on a selector that is not a plain
attribute test: `engine selector dom` is `none` when
`document.querySelector(selector)` throws a `SyntaxError`, and otherwise the
document after `if (previewItem) previewItem.remove()`, which is `dom` itself
when no element is found. -/
abbrev SelectorEngine := String → Dom → Option Dom

/-- The function `removeFilePreview(fileName)`: every selected file with that
name is dropped; then the preview item is looked up with the selector
`previewSelector fileName` and removed, and the button is updated.  For a
name without a character of `selectorSpecial` the selector is the class test
with one attribute test whose value is the name, and it finds the first
preview item of that name (the preview items are the only elements of the
class `preview-item`).  For any other name the outcome of the lookup is that
of the selector engine; when the lookup throws, the function ends there, with
the selection filtered and the preview and the button as they were. -/
def removeFilePreview (engine : SelectorEngine) (fileName : String) (w : World) : World :=
  let w1 : World := { w with
    state := { w.state with
      selectedFiles := w.state.selectedFiles.filter (fun file => file.name != fileName) } }
  if fileName.data.any selectorSpecial then
    match engine (previewSelector fileName) w1.dom with
    | none => w1
    | some dom => updateUploadButton { w1 with dom := dom }
  else
    updateUploadButton
      { w1 with
        dom := { w1.dom with uploadPreview := w1.dom.uploadPreview.map (fun items =>
          items.erase fileName) } }

/-- A call of one of the three functions that write `selectedFiles`. -/
inductive FormAction where
  | handleFiles (files : List File)
  | removeFilePreview (fileName : String)
  | clearUploadForm
  deriving DecidableEq, Repr

/-- The run of one call. -/
def FormAction.run (engine : SelectorEngine) : FormAction → World → World
  | .handleFiles files, w => FPMS.handleFiles files w
  | .removeFilePreview fileName, w => FPMS.removeFilePreview engine fileName w
  | .clearUploadForm, w => FPMS.clearUploadForm w

/-- The run of a sequence of calls, first to last. -/
def runFormActions (engine : SelectorEngine) (actions : List FormAction) (w : World) : World :=
  actions.foldl (fun page action => action.run engine page) w

/-- A selector engine that reports a syntax error for every selector it is
asked about, as a browser does for `.preview-item[data-file-name="a"b.pdf"]`. -/
def strictEngine : SelectorEngine := fun _ _ => none

/-- A selection with one valid file whose name has a double quote. -/
def sampleQuotedSelection : List File :=
  [{ name := "a\"b.pdf", size := 1000, type := "application/pdf" }]

/-- The sample page with the upload form shown and nothing selected. -/
def sampleFormPage : World :=
  { samplePage with
    state := { samplePage.state with selectedFiles := [] }
    dom := { samplePage.dom with uploadPreview := some [], fileInput := some "" } }

/-- A selection with two valid files of the same name, from two folders, and a
video between them. -/
def sampleSelection : List File :=
  [{ name := "cv.pdf", size := 120000, type := "application/pdf" },
   { name := "talk.mp4", size := 900000, type := "video/mp4" },
   { name := "cv.pdf", size := 450000, type := "application/pdf" }]

/-! ## The copy of `escapeHtml` in `document.js` -/

/-- The object `map` of `escapeHtml` in `document.js`. -/
def DocumentJs.escapeMap : List (Char × String) :=
  [('&', "&amp;"), ('<', "&lt;"), ('>', "&gt;"), ('"', "&quot;"), ('\'', "&#039;")]

/-- The function `escapeHtml(text)` of `document.js` on a string:
`text.replace(/[&<>"']/g, m => map[m])`, every character that has an entry in
`map` being replaced by it. -/
def DocumentJs.escapeHtml (text : String) : String :=
  ⟨text.data.flatMap (fun c =>
    match DocumentJs.escapeMap.lookup c with
    | some entity => entity.data
    | none => [c])⟩

/-- Specification: the five character references that `escapeHtml` writes,
without their first character `&`. -/
def referenceTails : List (List Char) :=
  ["amp;".data, "lt;".data, "gt;".data, "quot;".data, "#039;".data]

/-! ## The category filter of the documents list -/

/-- The function `filterDocuments(category)`.  It reads the global `event`:
the second argument is `none` when there is no current event, and otherwise
the position of the element that `event.target.closest('.filter-btn')` finds
among the filter buttons (`none` when it finds nothing).  The result is the
content afterwards and whether the call threw: without a current event the
call throws a `TypeError` after it has taken the class `active` off every
filter button, and leaves the cards as they are. -/
def filterDocuments (category : String) (event : Option (Option Nat)) (view : DocumentsView) :
    DocumentsView × Bool :=
  let cleared : DocumentsView := { view with filterButtons := view.filterButtons.map (fun _ => false) }
  match event with
  | none => (cleared, true)
  | some clickedBtn =>
    let marked : DocumentsView :=
      match clickedBtn with
      | some position => { cleared with filterButtons := cleared.filterButtons.set position true }
      | none => cleared
    ({ marked with cards := marked.cards.map (fun card =>
        if category = "all" || card.dataCategory = category then { card with display := "flex" }
        else { card with display := "none" }) }, false)

/-- Specification: the visibility of the cards, in order. -/
def DocumentsView.visibility (view : DocumentsView) : List String :=
  view.cards.map (fun card => card.display)

/-- Three documents in two categories. -/
def sampleCategorizedDocuments : List Document :=
  [{ name := "Report.pdf", category := some "work" },
   { name := "invoice.pdf", category := none },
   { name := "Minutes.docx", category := some "work" }]

/-! ## The display of a file size

The function `formatFileSize` calls `Math.log`, whose values the language
leaves to the implementation.  The logarithm is therefore a parameter of the
model: `log n` is the double that `Math.log(n)` returns for the integer `n`,
in units of `2^-1074` like every double here.  The power `Math.pow(1024, i)` is
taken to be the exact power of two. -/

/-- The array `sizes` of `formatFileSize`. -/
def sizes : List String := ["Bytes", "KB", "MB", "GB"]

/-- The constant `i` of `formatFileSize`:
`Math.floor(Math.log(bytes) / Math.log(k))` with `k = 1024`, for a positive
integer `bytes`. -/
def unitIndex (log : Nat → Nat) (bytes : Nat) : Nat :=
  Double.floor (Double.div (log bytes) (log 1024))

/-- The text `(bytes / Math.pow(k, i)).toFixed(2)` as a number of hundredths:
the quotient is exact for `bytes` below `2^53`, and `toFixed(2)` takes the
nearest multiple of one hundredth, the larger one of two that are equally
near. -/
def scaledHundredths (bytes i : Nat) : Nat := (200 * bytes + 1024 ^ i) / (2 * 1024 ^ i)

/-- The text of the number `parseFloat(text)` for a text of `toFixed(2)`, given
in hundredths: the decimal without trailing zeros. -/
def renderHundredths (n : Nat) : String :=
  if n % 100 = 0 then toString (n / 100)
  else if n % 10 = 0 then toString (n / 100) ++ "." ++ toString (n % 100 / 10)
  else if n % 100 < 10 then toString (n / 100) ++ ".0" ++ toString (n % 100)
  else toString (n / 100) ++ "." ++ toString (n % 100)

/-- The function `formatFileSize(bytes)` of `portfolio.js`, for a size that is
absent (`none`) or a non-negative integer. -/
def formatFileSize (log : Nat → Nat) (bytes : Option Nat) : String :=
  match bytes with
  | none => "0 Bytes"
  | some 0 => "0 Bytes"
  | some (n + 1) =>
    let i := unitIndex log (n + 1)
    renderHundredths (scaledHundredths (n + 1) i) ++ " " ++ interpolate (sizes.get? i)

/-- The function `formatFileSize(bytes)` of `document.js`. -/
def DocumentJs.formatFileSize (log : Nat → Nat) (bytes : Option Nat) : String :=
  match bytes with
  | none => "0 Bytes"
  | some 0 => "0 Bytes"
  | some (n + 1) =>
    let i := unitIndex log (n + 1)
    renderHundredths (scaledHundredths (n + 1) i) ++ " " ++ interpolate (sizes.get? i)

/-- A coarse logarithm that has the properties asked of `Math.log` below: the
number of binary digits after the first, as a double. -/
def sampleLog (n : Nat) : Nat := Double.ofNat (Nat.log 2 n)

/-! ## Lemmas on the string primitives -/

theorem splitDot_ne_nil (cs : List Char) : splitDot cs ≠ [] := by
  cases cs with
  | nil => simp [splitDot]
  | cons c cs =>
    unfold splitDot
    split
    · simp
    · split <;> simp

theorem splitDot_append_dot (pre ext : List Char) :
    splitDot (pre ++ '.' :: ext) = splitDot pre ++ splitDot ext := by
  induction pre with
  | nil => simp [splitDot]
  | cons c cs ih =>
    by_cases hc : c = '.'
    · simp [splitDot, hc, ih]
    · have hne := splitDot_ne_nil cs
      cases hcs : splitDot cs with
      | nil => exact absurd hcs hne
      | cons seg segs => simp [splitDot, hc, ih, hcs]

theorem splitDot_of_no_dot (cs : List Char) (h : '.' ∉ cs) : splitDot cs = [cs] := by
  induction cs with
  | nil => rfl
  | cons c cs ih =>
    have hc : c ≠ '.' := fun e => h (by simp [e])
    have hcs : '.' ∉ cs := fun e => h (by simp [e])
    simp [splitDot, hc, ih hcs]

theorem pop_append (xs ys : List (List Char)) (h : ys ≠ []) : pop (xs ++ ys) = pop ys := by
  induction xs with
  | nil => rfl
  | cons x xs ih =>
    cases hxy : xs ++ ys with
    | nil => simp [h] at hxy
    | cons z zs =>
      have : (x :: xs) ++ ys = x :: z :: zs := by simp [hxy]
      rw [this, pop, ← hxy, ih]

/-- The element popped from `name.split('.')` is the part after the last dot. -/
theorem pop_splitDot_after_last_dot (pre ext : List Char) (h : '.' ∉ ext) :
    pop (splitDot (pre ++ '.' :: ext)) = ext := by
  rw [splitDot_append_dot, pop_append _ _ (splitDot_ne_nil ext), splitDot_of_no_dot ext h]
  rfl

theorem fileExtension_of_name (pre ext : String) (h : '.' ∉ ext.data) :
    fileExtension (pre ++ "." ++ ext) = "." ++ toLowerCase ext := by
  have hd : (pre ++ "." ++ ext).data = pre.data ++ '.' :: ext.data := by
    simp [String.data_append]
  simp only [fileExtension, hd, pop_splitDot_after_last_dot _ _ h]

theorem dot_append_injective (a b : String) (h : "." ++ a = "." ++ b) : a = b := by
  have := congrArg String.data h
  simp [String.data_append] at this
  exact String.ext this

theorem allowedExtensions_eq : allowedExtensions = allowedNames.map (fun e => "." ++ e) := by
  decide

theorem includes_dot_append (e : String) :
    includes allowedExtensions ("." ++ e) = true ↔ e ∈ allowedNames := by
  rw [allowedExtensions_eq]
  simp only [includes, List.contains, List.elem_iff, List.mem_map]
  constructor
  · rintro ⟨a, ha, hae⟩
    rw [dot_append_injective a e hae] at ha
    exact ha
  · intro h
    exact ⟨e, h, rfl⟩

theorem startsWith_iff (s p : String) : startsWith s p = true ↔ p.data <+: s.data := by
  simp [startsWith]

/-! ## Validation (C1 - C5) -/

/-- C1: every file larger than 50*1024*1024 bytes is rejected, whatever its
MIME type and name are, and the message returned names the 50MB limit. -/
theorem validateFile_rejects_oversize (file : File) (h : file.size > 50 * 1024 * 1024) :
    (validateFile file).valid = false ∧
    (validateFile file).message = some ("File \"" ++ file.name ++ "\" exceeds 50MB limit") ∧
    ∃ m, (validateFile file).message = some m ∧ "50MB".data <:+: m.data := by
  have hv : validateFile file =
      { valid := false, message := some ("File \"" ++ file.name ++ "\" exceeds 50MB limit") } := by
    simp [validateFile, maxSize, h]
  refine ⟨by rw [hv], by rw [hv], _, by rw [hv], ?_⟩
  refine ⟨("File \"" ++ file.name ++ "\" exceeds ").data, " limit".data, ?_⟩
  simp [String.data_append]

theorem validateFile_rejects_oversize_witness :
    (validateFile { name := "thesis.pdf", size := 52428801, type := "application/pdf" }).valid
      = false ∧
    (validateFile { name := "thesis.pdf", size := 52428801, type := "application/pdf" }).message
      = some "File \"thesis.pdf\" exceeds 50MB limit" :=
  ⟨(validateFile_rejects_oversize
      { name := "thesis.pdf", size := 52428801, type := "application/pdf" } (by decide)).1,
   (validateFile_rejects_oversize
      { name := "thesis.pdf", size := 52428801, type := "application/pdf" } (by decide)).2.1⟩

/-- C2: every file whose MIME type starts with `video/` is rejected, also when
its size is within the limit and its extension is in the allow-list. -/
theorem validateFile_rejects_video (file : File) (h : "video/".data <+: file.type.data) :
    (validateFile file).valid = false := by
  have hs : startsWith file.type "video/" = true := (startsWith_iff _ _).2 h
  unfold validateFile
  split
  · rfl
  · simp [hs]

theorem validateFile_rejects_video_witness :
    (validateFile { name := "lecture.pdf", size := 1024, type := "video/mp4" }).valid = false :=
  validateFile_rejects_video { name := "lecture.pdf", size := 1024, type := "video/mp4" }
    ⟨"mp4".data, rfl⟩

/-- C3: a file of at most 50*1024*1024 bytes, whose MIME type does not start
with `video/`, and whose name ends, after its last dot, in an extension that
is in the allow-list when lower-cased, is accepted. -/
theorem validateFile_accepts_allowed (file : File) (stem ext : String)
    (hsize : file.size ≤ 50 * 1024 * 1024)
    (htype : ¬ "video/".data <+: file.type.data)
    (hname : file.name = stem ++ "." ++ ext) (hext : '.' ∉ ext.data)
    (hallowed : toLowerCase ext ∈
      ["pdf", "doc", "docx", "xls", "xlsx", "ppt", "pptx", "jpg", "jpeg", "png", "gif", "txt",
       "zip", "rar"]) :
    validateFile file = { valid := true, message := none } := by
  have hs : startsWith file.type "video/" = false := by
    rw [Bool.eq_false_iff]
    exact fun e => htype ((startsWith_iff _ _).1 e)
  have hsz : ¬ file.size > maxSize := by
    simp only [maxSize]
    omega
  have hin : includes allowedExtensions (fileExtension file.name) = true := by
    rw [hname, fileExtension_of_name _ _ hext, includes_dot_append]
    exact hallowed
  simp [validateFile, hsz, hs, hin]

theorem validateFile_accepts_allowed_witness :
    validateFile { name := "annual.report.PdF", size := 52428800, type := "application/pdf" }
      = { valid := true, message := none } :=
  validateFile_accepts_allowed
    { name := "annual.report.PdF", size := 52428800, type := "application/pdf" }
    "annual.report" "PdF" (by decide) (by decide) (by decide) (by decide) (by decide)

theorem validateFile_of_checks_passed (file : File) (stem ext : String)
    (hsize : file.size ≤ 50 * 1024 * 1024)
    (htype : ¬ "video/".data <+: file.type.data)
    (hname : file.name = stem ++ "." ++ ext) (hext : '.' ∉ ext.data) :
    validateFile file =
      if toLowerCase ext ∈ allowedNames then { valid := true, message := none }
      else
        { valid := false
          message := some ("File type not allowed: \"" ++ file.name ++ "\". Allowed: "
            ++ join ", " allowedExtensions) } := by
  have hs : startsWith file.type "video/" = false := by
    rw [Bool.eq_false_iff]
    exact fun e => htype ((startsWith_iff _ _).1 e)
  have hsz : ¬ file.size > maxSize := by
    simp only [maxSize]
    omega
  have hin : includes allowedExtensions (fileExtension file.name) = true ↔
      toLowerCase ext ∈ allowedNames := by
    rw [hname, fileExtension_of_name _ _ hext, includes_dot_append]
  by_cases hmem : toLowerCase ext ∈ allowedNames
  · simp [validateFile, hsz, hs, hin.2 hmem, hmem]
  · have hfalse : includes allowedExtensions (fileExtension file.name) = false := by
      rw [Bool.eq_false_iff]
      exact fun e => hmem (hin.1 e)
    simp [validateFile, hsz, hs, hfalse, hmem]

theorem join_allowedExtensions : join ", " allowedExtensions =
    ".pdf, .doc, .docx, .xls, .xlsx, .ppt, .pptx, .jpg, .jpeg, .png, .gif, .txt, .zip, .rar" := by
  decide

/-- C4: a file that passes the size and video checks is rejected exactly when
the lower-cased part of its name after the last dot is not in the allow-list
of 14 extensions; the message then lists the whole allow-list; and the
decision is the same for any other such file whose extension differs only in
the case of its letters. -/
theorem validateFile_extension_rule (file : File) (stem ext : String)
    (hsize : file.size ≤ 50 * 1024 * 1024)
    (htype : ¬ "video/".data <+: file.type.data)
    (hname : file.name = stem ++ "." ++ ext) (hext : '.' ∉ ext.data) :
    allowedExtensions.length = 14 ∧
    ((validateFile file).valid = false ↔
      toLowerCase ext ∉
        ["pdf", "doc", "docx", "xls", "xlsx", "ppt", "pptx", "jpg", "jpeg", "png", "gif",
         "txt", "zip", "rar"]) ∧
    ((validateFile file).valid = false →
      (validateFile file).message = some ("File type not allowed: \"" ++ file.name ++
        "\". Allowed: .pdf, .doc, .docx, .xls, .xlsx, .ppt, .pptx, .jpg, .jpeg, .png, .gif, .txt, .zip, .rar")) ∧
    (∀ (other : File) (stem2 ext2 : String),
      other.size ≤ 50 * 1024 * 1024 → ¬ "video/".data <+: other.type.data →
      other.name = stem2 ++ "." ++ ext2 → '.' ∉ ext2.data →
      ext2.data.map Char.toLower = ext.data.map Char.toLower →
      (validateFile other).valid = (validateFile file).valid) := by
  have hv := validateFile_of_checks_passed file stem ext hsize htype hname hext
  refine ⟨by decide, ?_, ?_, ?_⟩
  · rw [hv]
    by_cases hmem : toLowerCase ext ∈ allowedNames
    · simp only [hmem, if_true]
      constructor
      · intro h
        cases h
      · intro h
        exact absurd hmem h
    · simp only [hmem, if_false, true_iff]
      exact hmem
  · rw [hv]
    by_cases hmem : toLowerCase ext ∈ allowedNames
    · simp only [hmem, if_true]
      intro h
      cases h
    · simp only [hmem, if_false, join_allowedExtensions]
      intro _
      simp [String.append_assoc]
  · intro other stem2 ext2 hsize2 htype2 hname2 hext2 hcase
    rw [hv, validateFile_of_checks_passed other stem2 ext2 hsize2 htype2 hname2 hext2]
    have hl : toLowerCase ext2 = toLowerCase ext := by
      simp only [toLowerCase, hcase]
    rw [hl]
    split <;> rfl

theorem validateFile_extension_rule_witness :
    (validateFile { name := "setup.tar.EXE", size := 2048, type := "application/octet-stream" }).message
      = some ("File type not allowed: \"" ++ "setup.tar.EXE" ++
        "\". Allowed: .pdf, .doc, .docx, .xls, .xlsx, .ppt, .pptx, .jpg, .jpeg, .png, .gif, .txt, .zip, .rar") ∧
    (validateFile { name := "scan.jpeg", size := 2048, type := "image/jpeg" }).valid
      = (validateFile { name := "scan.JPEG", size := 2048, type := "image/jpeg" }).valid :=
  ⟨(validateFile_extension_rule
      { name := "setup.tar.EXE", size := 2048, type := "application/octet-stream" }
      "setup.tar" "EXE" (by decide) (by decide) (by decide) (by decide)).2.2.1 (by decide),
   (validateFile_extension_rule
      { name := "scan.JPEG", size := 2048, type := "image/jpeg" } "scan" "JPEG"
      (by decide) (by decide) (by decide) (by decide)).2.2.2
      { name := "scan.jpeg", size := 2048, type := "image/jpeg" } "scan" "jpeg"
      (by decide) (by decide) (by decide) (by decide) (by decide)⟩

/-- C5: the three rules are checked in the order size, video type, extension,
and only the first that fails is reported: an oversize file gets the size
message also when it is a video, a video within the size limit gets the video
message also when its extension is not allowed, and the extension message is
given only to a file that passes both earlier checks. -/
theorem validateFile_first_failure_wins (file : File) :
    (file.size > 50 * 1024 * 1024 →
      (validateFile file).message
        = some ("File \"" ++ file.name ++ "\" exceeds 50MB limit")) ∧
    (file.size ≤ 50 * 1024 * 1024 → "video/".data <+: file.type.data →
      (validateFile file).message
        = some ("Video files are not allowed: \"" ++ file.name ++ "\"")) ∧
    (∀ stem ext : String, file.size ≤ 50 * 1024 * 1024 → ¬ "video/".data <+: file.type.data →
      file.name = stem ++ "." ++ ext → '.' ∉ ext.data →
      toLowerCase ext ∉
        ["pdf", "doc", "docx", "xls", "xlsx", "ppt", "pptx", "jpg", "jpeg", "png", "gif",
         "txt", "zip", "rar"] →
      (validateFile file).message = some ("File type not allowed: \"" ++ file.name ++
        "\". Allowed: " ++ join ", " allowedExtensions)) := by
  refine ⟨?_, ?_, ?_⟩
  · intro h
    simp [validateFile, maxSize, h]
  · intro hsize hvideo
    have hs : startsWith file.type "video/" = true := (startsWith_iff _ _).2 hvideo
    have hsz : ¬ file.size > maxSize := by
      simp only [maxSize]
      omega
    simp [validateFile, hsz, hs]
  · intro stem ext hsize htype hname hext hnot
    rw [validateFile_of_checks_passed file stem ext hsize htype hname hext]
    have hmem : toLowerCase ext ∉ allowedNames := hnot
    simp [hmem]

theorem validateFile_first_failure_wins_witness :
    (validateFile { name := "holiday.mov", size := 52428801, type := "video/quicktime" }).message
      = some "File \"holiday.mov\" exceeds 50MB limit" ∧
    (validateFile { name := "holiday.mov", size := 52428800, type := "video/quicktime" }).message
      = some "Video files are not allowed: \"holiday.mov\"" :=
  ⟨(validateFile_first_failure_wins
      { name := "holiday.mov", size := 52428801, type := "video/quicktime" }).1 (by decide),
   (validateFile_first_failure_wins
      { name := "holiday.mov", size := 52428800, type := "video/quicktime" }).2.1
      (by decide) ⟨"quicktime".data, rfl⟩⟩

/-! ## Lemmas on traces and on the upload loop -/

theorem requests_append (a b : List Event) : requests (a ++ b) = requests a ++ requests b := by
  induction a with
  | nil => rfl
  | cons e es ih => cases e <;> simp [requests, ih]

theorem toasts_append (a b : List Event) : toasts (a ++ b) = toasts a ++ toasts b := by
  induction a with
  | nil => rfl
  | cons e es ih => cases e <;> simp [toasts, ih]

theorem progressReports_append (a b : List Event) :
    progressReports (a ++ b) = progressReports a ++ progressReports b := by
  induction a with
  | nil => rfl
  | cons e es ih => cases e <;> simp [progressReports, ih]

theorem outcomesFrom_succ (net : Network) (k n : Nat) :
    outcomesFrom net k (n + 1) = net k :: outcomesFrom net (k + 1) n := by
  simp only [outcomesFrom, List.range_succ_eq_map, List.map_cons, List.map_map, Nat.add_zero]
  congr 1
  apply List.map_congr_left
  intro i _
  simp only [Function.comp, Nat.succ_eq_add_one]
  congr 1
  omega

/-- One iteration: its two effects are appended to the trace, the state of the
page is kept, and exactly one counter moves, according to the outcome. -/
theorem uploadStep_spec (net : Network) (category : String) (total i : Nat) (file : File)
    (s : LoopState) :
    (uploadStep net category total i file s).world.trace
        = s.world.trace ++ stepEvents category total (i, file) ∧
    (uploadStep net category total i file s).world.state = s.world.state ∧
    (uploadStep net category total i file s).successCount
        = s.successCount + [net (requests s.world.trace).length].countP FetchOutcome.succeeded ∧
    (uploadStep net category total i file s).failCount
        = s.failCount + [net (requests s.world.trace).length].countP (fun o => !o.succeeded) ∧
    (uploadStep net category total i file s).errors
        = s.errors ++ [(file, net (requests s.world.trace).length)].filterMap errorEntry := by
  have hreq : (requests (updateUploadProgress (progressPercent i total)
      (progressMessage i total file) s.world).trace).length = (requests s.world.trace).length := by
    simp [updateUploadProgress, requests_append, requests]
  simp only [uploadStep, fetch, hreq]
  cases hout : net (requests s.world.trace).length with
  | rejected message =>
    simp [LoopState.fail, World.emit, updateUploadProgress, stepEvents, errorEntry,
      FetchOutcome.succeeded, FetchOutcome.failureMessage, List.countP_cons]
  | response status text json =>
    cases json with
    | threw message =>
      cases hok : FetchOutcome.ok status <;>
        simp [LoopState.fail, World.emit, updateUploadProgress, stepEvents, errorEntry,
          FetchOutcome.succeeded, FetchOutcome.failureMessage, List.countP_cons, hok]
    | null message =>
      cases hok : FetchOutcome.ok status <;>
        simp [LoopState.fail, World.emit, updateUploadProgress, stepEvents, errorEntry,
          FetchOutcome.succeeded, FetchOutcome.failureMessage, List.countP_cons, hok]
    | value body =>
      cases hok : FetchOutcome.ok status <;> cases hb : body.success <;>
        simp [LoopState.fail, World.emit, updateUploadProgress, stepEvents, errorEntry,
          FetchOutcome.succeeded, FetchOutcome.failureMessage, List.countP_cons, hok, hb]

theorem requests_stepEvents (category : String) (total : Nat) (p : Nat × File) :
    requests (stepEvents category total p) = [documentRequest category p.2] := rfl

/-- The loop from index `i` over the remaining files. -/
theorem uploadLoop_spec (net : Network) (category : String) (total : Nat) (files : List File) :
    ∀ (i : Nat) (s : LoopState),
    (uploadLoop net category total i files s).world.trace
        = s.world.trace ++ (files.enumFrom i).flatMap (stepEvents category total) ∧
    (uploadLoop net category total i files s).world.state = s.world.state ∧
    (uploadLoop net category total i files s).successCount
        = s.successCount
          + (outcomesFrom net (requests s.world.trace).length files.length).countP
              FetchOutcome.succeeded ∧
    (uploadLoop net category total i files s).failCount
        = s.failCount
          + (outcomesFrom net (requests s.world.trace).length files.length).countP
              (fun o => !o.succeeded) ∧
    (uploadLoop net category total i files s).errors
        = s.errors ++ (files.zip
            (outcomesFrom net (requests s.world.trace).length files.length)).filterMap
              errorEntry := by
  induction files with
  | nil =>
    intro i s
    simp [uploadLoop, outcomesFrom]
  | cons file rest ih =>
    intro i s
    obtain ⟨ht, hs, hsc, hfc, he⟩ := uploadStep_spec net category total i file s
    obtain ⟨ht2, hs2, hsc2, hfc2, he2⟩ := ih (i + 1) (uploadStep net category total i file s)
    have hlen : (requests (uploadStep net category total i file s).world.trace).length
        = (requests s.world.trace).length + 1 := by
      rw [ht, requests_append, requests_stepEvents]
      simp
    rw [hlen] at hsc2 hfc2 he2
    simp only [uploadLoop, List.length_cons, outcomesFrom_succ, List.enumFrom_cons,
      List.flatMap_cons, List.zip_cons_cons]
    refine ⟨?_, ?_, ?_, ?_, ?_⟩
    · rw [ht2, ht, List.append_assoc]
    · rw [hs2, hs]
    · rw [hsc2, hsc]
      simp only [List.countP_cons, List.countP_nil]
      omega
    · rw [hfc2, hfc]
      simp only [List.countP_cons, List.countP_nil]
      omega
    · rw [he2, he, List.append_assoc]
      cases hentry : errorEntry (file, net (requests s.world.trace).length) <;>
        simp [List.filterMap_cons, hentry]

theorem countP_add_countP_not (os : List FetchOutcome) :
    os.countP FetchOutcome.succeeded + os.countP (fun o => !o.succeeded) = os.length := by
  induction os with
  | nil => rfl
  | cons o os ih =>
    simp only [List.countP_cons, List.length_cons]
    cases o.succeeded <;> simp <;> omega

theorem requests_flatMap_stepEvents (category : String) (total : Nat) (files : List File) :
    ∀ i, requests ((files.enumFrom i).flatMap (stepEvents category total))
      = files.map (documentRequest category) := by
  induction files with
  | nil => intro i; rfl
  | cons file rest ih =>
    intro i
    simp only [List.enumFrom_cons, List.flatMap_cons, requests_append, requests_stepEvents,
      ih (i + 1), List.map_cons, List.singleton_append]

theorem toasts_flatMap_stepEvents (category : String) (total : Nat) (files : List File) :
    ∀ i, toasts ((files.enumFrom i).flatMap (stepEvents category total)) = [] := by
  induction files with
  | nil => intro i; rfl
  | cons file rest ih =>
    intro i
    simp only [List.enumFrom_cons, List.flatMap_cons, toasts_append, ih (i + 1)]
    rfl

theorem foldl_showError (errors : List String) :
    ∀ w : World, (errors.foldl (fun w error => showError error w) w).trace
        = w.trace ++ errors.map (fun error => Event.toast .error error) ∧
      (errors.foldl (fun w error => showError error w) w).dom = w.dom ∧
      (errors.foldl (fun w error => showError error w) w).state = w.state := by
  induction errors with
  | nil => intro w; simp
  | cons e es ih =>
    intro w
    obtain ⟨h1, h2, h3⟩ := ih (showError e w)
    simp only [List.foldl_cons, h1, h2, h3, List.map_cons]
    simp [showError, showToast, World.emit]

theorem uploadToDocumentsReport_trace (s : LoopState) :
    (uploadToDocumentsReport s).trace = s.world.trace ++ reportEvents s := by
  unfold uploadToDocumentsReport reportEvents
  by_cases hs : 0 < s.successCount <;> by_cases hf : 0 < s.failCount <;>
    by_cases hd : s.world.dom.documentsActive = true <;>
    simp [hs, hf, hd, (foldl_showError s.errors _).1, showWarning, showSuccess, showToast,
      setTimeout, World.emit, updateUploadProgress]

theorem requests_reportEvents (s : LoopState) : requests (reportEvents s) = [] := by
  have hmap : ∀ errors : List String,
      requests (errors.map (fun error => Event.toast .error error)) = [] := by
    intro errors
    induction errors with
    | nil => rfl
    | cons e es ih => simpa [requests] using ih
  unfold reportEvents
  by_cases hs : 0 < s.successCount <;> by_cases hf : 0 < s.failCount <;>
    by_cases hd : s.world.dom.documentsActive = true <;>
    simp [hs, hf, hd, requests_append, requests, hmap]

theorem toasts_reportEvents (s : LoopState) :
    toasts (reportEvents s) =
      (if 0 < s.successCount then
        [(ToastType.success,
          "Successfully uploaded " ++ toString s.successCount ++ " file(s) to documents")]
       else [])
      ++ (if 0 < s.failCount then
            s.errors.map (fun error => (ToastType.error, error))
            ++ [(ToastType.warning, toString s.failCount ++ " file(s) failed to upload")]
          else []) := by
  have hmap : ∀ errors : List String,
      toasts (errors.map (fun error => Event.toast .error error))
        = errors.map (fun error => (ToastType.error, error)) := by
    intro errors
    induction errors with
    | nil => rfl
    | cons e es ih => simpa [toasts] using ih
  unfold reportEvents
  by_cases hs : 0 < s.successCount <;> by_cases hf : 0 < s.failCount <;>
    by_cases hd : s.world.dom.documentsActive = true <;>
    simp [hs, hf, hd, toasts_append, toasts, hmap]

/-! ## The documents-destination strategy (C6, C7, C10) -/

/-- C6: in `uploadToDocuments`, for every list of selected files and every
assignment of outcomes to the requests, the requests issued are exactly one
per selected file, in selection order, each a POST to
`/portfolio/api/upload-to-documents` whose form data holds that one file and
the category; no outcome of an earlier request removes a later one. -/
theorem uploadToDocuments_one_request_per_file (net : Network) (w : World) :
    requests (uploadToDocuments net w).trace
      = requests w.trace ++ w.state.selectedFiles.map (fun file =>
          { method := "POST"
            url := "/portfolio/api/upload-to-documents"
            body := [("file", FormValue.file file),
                     ("category", FormValue.text (selectedCategory w))] }) := by
  unfold uploadToDocuments uploadToDocumentsLoop
  rw [uploadToDocumentsReport_trace, requests_append, requests_reportEvents,
    (uploadLoop_spec net _ _ _ 0 _).1, requests_append, requests_flatMap_stepEvents]
  simp only [List.append_nil]
  rfl

/-- C7: after the loop of `uploadToDocuments` over n selected files,
`successCount` is the number of files whose request returned 2xx with
success=true, `failCount` is the number of all other files, their sum is n,
the error list has one `name: message` entry per failed file in selection
order, and every file was attempted; in particular, with three files of which
only the second fails, the counts are 2 and 1 and all three requests were
issued in order. -/
theorem uploadToDocuments_counts (net : Network) (w : World) :
    (uploadToDocumentsLoop net w).successCount
      = (outcomesFrom net (requests w.trace).length w.state.selectedFiles.length).countP
          FetchOutcome.succeeded ∧
    (uploadToDocumentsLoop net w).failCount
      = (outcomesFrom net (requests w.trace).length w.state.selectedFiles.length).countP
          (fun o => !o.succeeded) ∧
    (uploadToDocumentsLoop net w).successCount + (uploadToDocumentsLoop net w).failCount
      = w.state.selectedFiles.length ∧
    (uploadToDocumentsLoop net w).errors
      = (w.state.selectedFiles.zip
          (outcomesFrom net (requests w.trace).length w.state.selectedFiles.length)).filterMap
            errorEntry ∧
    requests (uploadToDocumentsLoop net w).world.trace
      = requests w.trace ++ w.state.selectedFiles.map (documentRequest (selectedCategory w)) ∧
    (∀ f1 f2 f3 : File, w.state.selectedFiles = [f1, f2, f3] →
      (net (requests w.trace).length).succeeded = true →
      (net ((requests w.trace).length + 1)).succeeded = false →
      (net ((requests w.trace).length + 2)).succeeded = true →
      (uploadToDocumentsLoop net w).successCount = 2 ∧
      (uploadToDocumentsLoop net w).failCount = 1 ∧
      (uploadToDocumentsLoop net w).errors
        = [f2.name ++ ": " ++ (net ((requests w.trace).length + 1)).failureMessage] ∧
      requests (uploadToDocumentsLoop net w).world.trace
        = requests w.trace ++ [documentRequest (selectedCategory w) f1,
            documentRequest (selectedCategory w) f2, documentRequest (selectedCategory w) f3]) := by
  obtain ⟨ht, _, hsc, hfc, he⟩ := uploadLoop_spec net (selectedCategory w)
    w.state.selectedFiles.length w.state.selectedFiles 0
    { successCount := 0, failCount := 0, errors := [], world := w }
  simp only [Nat.zero_add, List.nil_append] at hsc hfc he
  have hreq : requests (uploadToDocumentsLoop net w).world.trace
      = requests w.trace ++ w.state.selectedFiles.map (documentRequest (selectedCategory w)) := by
    unfold uploadToDocumentsLoop
    rw [ht, requests_append, requests_flatMap_stepEvents]
  have hlen : (outcomesFrom net (requests w.trace).length w.state.selectedFiles.length).length
      = w.state.selectedFiles.length := by
    simp [outcomesFrom]
  refine ⟨hsc, hfc, ?_, he, hreq, ?_⟩
  · unfold uploadToDocumentsLoop
    rw [hsc, hfc, countP_add_countP_not, hlen]
  · intro f1 f2 f3 hfiles h1 h2 h3
    have hsc2 : (uploadToDocumentsLoop net w).successCount = _ := hsc
    have hfc2 : (uploadToDocumentsLoop net w).failCount = _ := hfc
    have he2 : (uploadToDocumentsLoop net w).errors = _ := he
    rw [hreq, hsc2, hfc2, he2, hfiles]
    simp [outcomesFrom, List.range_succ, List.countP_cons, errorEntry, h1, h2, h3]

theorem uploadToDocuments_counts_witness :
    (uploadToDocumentsLoop sampleNetwork sampleDocumentsPage).successCount = 2 ∧
    (uploadToDocumentsLoop sampleNetwork sampleDocumentsPage).failCount = 1 ∧
    (uploadToDocumentsLoop sampleNetwork sampleDocumentsPage).errors = ["photo.png: HTTP 500"] ∧
    requests (uploadToDocumentsLoop sampleNetwork sampleDocumentsPage).world.trace
      = [documentRequest "work" { name := "cv.pdf", size := 120000, type := "application/pdf" },
         documentRequest "work" { name := "photo.png", size := 340000, type := "image/png" },
         documentRequest "work" { name := "notes.txt", size := 900, type := "text/plain" }] :=
  (uploadToDocuments_counts sampleNetwork sampleDocumentsPage).2.2.2.2.2
    { name := "cv.pdf", size := 120000, type := "application/pdf" }
    { name := "photo.png", size := 340000, type := "image/png" }
    { name := "notes.txt", size := 900, type := "text/plain" }
    rfl (by decide) (by decide) (by decide)

/-- C10: after the loop of `uploadToDocuments`, the notifications issued are:
one aggregate success notification exactly when `successCount > 0`; then,
exactly when `failCount > 0`, one error notification per accumulated error, in
order, followed by one warning whose text starts with `failCount`.  When both
counts are positive both groups are issued, the success notification first. -/
theorem uploadToDocuments_notifications (net : Network) (w : World) :
    toasts (uploadToDocuments net w).trace
      = toasts w.trace
        ++ (if 0 < (uploadToDocumentsLoop net w).successCount then
              [(ToastType.success,
                "Successfully uploaded " ++ toString (uploadToDocumentsLoop net w).successCount
                  ++ " file(s) to documents")]
            else [])
        ++ (if 0 < (uploadToDocumentsLoop net w).failCount then
              (uploadToDocumentsLoop net w).errors.map (fun error => (ToastType.error, error))
              ++ [(ToastType.warning,
                    toString (uploadToDocumentsLoop net w).failCount
                      ++ " file(s) failed to upload")]
            else []) := by
  have hloop : toasts (uploadToDocumentsLoop net w).world.trace = toasts w.trace := by
    unfold uploadToDocumentsLoop
    rw [(uploadLoop_spec net _ _ _ 0 _).1, toasts_append, toasts_flatMap_stepEvents]
    simp
  unfold uploadToDocuments
  rw [uploadToDocumentsReport_trace, toasts_append, toasts_reportEvents, hloop,
    List.append_assoc]

/-! ## The portfolio destination without a selected portfolio (C8) -/

/-- The run of `uploadFiles` for the portfolio destination when the button
exists and no portfolio is selected: two error toasts and nothing else. -/
theorem uploadFiles_unselected_trace (net : Network) (w : World) (btn : Button)
    (hfiles : w.state.selectedFiles ≠ [])
    (hdest : w.state.uploadDestination = "portfolio")
    (hselect : w.dom.uploadPortfolio = none ∨ w.dom.uploadPortfolio = some "")
    (hbtn : w.dom.uploadBtn = some btn) :
    (uploadFiles net w).trace
      = w.trace ++ [Event.toast .error "Please select a portfolio",
          Event.toast .error "Upload failed: No portfolio selected"] := by
  have hlen : ¬ w.state.selectedFiles.length = 0 := by
    intro h
    exact hfiles (List.length_eq_zero.1 h)
  cases hp : (w.dom.uploadProgressBar.isSome && w.dom.uploadProgress.isSome
      && w.dom.uploadStatus.isSome) <;>
    rcases hselect with h | h <;>
    simp [uploadFiles, hlen, hbtn, hdest, hp, h, uploadToPortfolio, showError, showToast,
      World.emit]

/-- C8, as stated, fails: with the upload button present the run surfaces two
error notifications (one from `uploadToPortfolio`, one from the `catch` of
`uploadFiles`), and with the upload button absent it surfaces none. -/
theorem uploadFiles_no_portfolio_counterexample :
    samplePage.state.selectedFiles ≠ [] ∧
    samplePage.state.uploadDestination = "portfolio" ∧
    samplePage.dom.uploadPortfolio = some "" ∧
    toasts (uploadFiles sampleNetwork samplePage).trace
      = [(ToastType.error, "Please select a portfolio"),
         (ToastType.error, "Upload failed: No portfolio selected")] ∧
    (toasts (uploadFiles sampleNetwork samplePage).trace).length ≠ 1 ∧
    (toasts (uploadFiles sampleNetwork samplePageWithoutButton).trace).length ≠ 1 := by
  decide

/-- C8, amended: when `uploadFiles` runs with at least one selected file, the
destination `portfolio` and no portfolio selected (the select is missing or
its value is empty), no network request is issued; if the upload button is
absent the page is left unchanged and nothing is surfaced; if it is present,
the error `Please select a portfolio` is surfaced first and every further
notification of the run is an error notification. -/
theorem uploadFiles_no_portfolio (net : Network) (w : World)
    (hfiles : w.state.selectedFiles ≠ [])
    (hdest : w.state.uploadDestination = "portfolio")
    (hselect : w.dom.uploadPortfolio = none ∨ w.dom.uploadPortfolio = some "") :
    requests (uploadFiles net w).trace = requests w.trace ∧
    (w.dom.uploadBtn = none → uploadFiles net w = w) ∧
    (w.dom.uploadBtn ≠ none →
      ∃ rest, toasts (uploadFiles net w).trace
          = toasts w.trace ++ (ToastType.error, "Please select a portfolio") :: rest ∧
        ∀ t ∈ rest, t.1 = ToastType.error) := by
  have hlen : ¬ w.state.selectedFiles.length = 0 := by
    intro h
    exact hfiles (List.length_eq_zero.1 h)
  cases hbtn : w.dom.uploadBtn with
  | none =>
    simp [uploadFiles, hlen, hbtn]
  | some btn =>
    have ht := uploadFiles_unselected_trace net w btn hfiles hdest hselect hbtn
    refine ⟨?_, by simp, fun _ =>
      ⟨[(ToastType.error, "Upload failed: No portfolio selected")], ?_, by simp⟩⟩
    · rw [ht, requests_append]
      simp [requests]
    · rw [ht, toasts_append]
      simp [toasts]

theorem uploadFiles_no_portfolio_witness :
    requests (uploadFiles sampleNetwork samplePage).trace = [] ∧
    ∃ rest, toasts (uploadFiles sampleNetwork samplePage).trace
        = (ToastType.error, "Please select a portfolio") :: rest ∧
      ∀ t ∈ rest, t.1 = ToastType.error :=
  ⟨(uploadFiles_no_portfolio sampleNetwork samplePage (by decide) (by decide)
      (Or.inr rfl)).1,
   (uploadFiles_no_portfolio sampleNetwork samplePage (by decide) (by decide)
      (Or.inr rfl)).2.2 (by decide)⟩

/-! ## Lemmas on double-precision rounding -/

theorem roundHalfEven_mono (a a2 b : Nat) (h : a ≤ a2) :
    roundHalfEven a b ≤ roundHalfEven a2 b := by
  have hq : a / b ≤ a2 / b := Nat.div_le_div_right h
  have e1 := Nat.div_add_mod a b
  have e2 := Nat.div_add_mod a2 b
  have hr : a / b = a2 / b → a % b ≤ a2 % b := by
    intro e
    rw [e] at e1
    omega
  unfold roundHalfEven
  split_ifs <;> omega

theorem roundHalfEven_mul_self (k b : Nat) (hb : 0 < b) : roundHalfEven (k * b) b = k := by
  simp [roundHalfEven, Nat.mul_div_cancel _ hb, hb]

theorem roundHalfEven_mul_right (a b c : Nat) (hc : 0 < c) :
    roundHalfEven (a * c) (b * c) = roundHalfEven a b := by
  have h1 : a * c / (b * c) = a / b := Nat.mul_div_mul_right a b hc
  have h2 : a * c % (b * c) = a % b * c := Nat.mul_mod_mul_right c a b
  have h3 : (2 * (a % b * c) < b * c) ↔ (2 * (a % b) < b) := by
    rw [← Nat.mul_assoc]
    exact Nat.mul_lt_mul_right hc
  have h4 : (b * c < 2 * (a % b * c)) ↔ (b < 2 * (a % b)) := by
    rw [← Nat.mul_assoc]
    exact Nat.mul_lt_mul_right hc
  simp only [roundHalfEven, h1, h2, h3, h4]

theorem ulpExp_spec : ∀ (fuel q : Nat), q ≤ fuel →
    q < 2 ^ 53 * 2 ^ ulpExp fuel q ∧ (0 < ulpExp fuel q → 2 ^ 52 * 2 ^ ulpExp fuel q ≤ q) := by
  intro fuel
  induction fuel with
  | zero =>
    intro q hq
    have hz : ulpExp 0 q = 0 := rfl
    rw [hz]
    omega
  | succ fuel ih =>
    intro q hq
    by_cases hlt : q < 2 ^ 53
    · have hz : ulpExp (fuel + 1) q = 0 := by
        rw [ulpExp]
        exact if_pos hlt
      rw [hz]
      omega
    · obtain ⟨h1, h2⟩ := ih (q / 2) (by omega)
      have hs : ulpExp (fuel + 1) q = ulpExp fuel (q / 2) + 1 := by
        rw [ulpExp]
        exact if_neg hlt
      have hp : 2 ^ (ulpExp fuel (q / 2) + 1) = 2 ^ ulpExp fuel (q / 2) * 2 := pow_succ 2 _
      rw [hs, hp]
      by_cases h0 : 0 < ulpExp fuel (q / 2)
      · have h3 := h2 h0
        generalize 2 ^ ulpExp fuel (q / 2) = P at h1 h3 ⊢
        refine ⟨by omega, fun _ => by omega⟩
      · have hz : ulpExp fuel (q / 2) = 0 := by omega
        rw [hz] at h1 ⊢
        refine ⟨by omega, fun _ => by omega⟩

theorem ulpExp_mono (q q2 : Nat) (h : q ≤ q2) : ulpExp q q ≤ ulpExp q2 q2 := by
  obtain ⟨_, h2⟩ := ulpExp_spec q q (Nat.le_refl q)
  obtain ⟨h3, _⟩ := ulpExp_spec q2 q2 (Nat.le_refl q2)
  by_contra hlt
  have hu : ulpExp q2 q2 + 1 ≤ ulpExp q q := by omega
  have hpow : 2 ^ (ulpExp q2 q2 + 1) ≤ 2 ^ ulpExp q q := Nat.pow_le_pow_right (by decide) hu
  have h5 := h2 (by omega)
  rw [show 2 ^ (ulpExp q2 q2 + 1) = 2 ^ ulpExp q2 q2 * 2 from pow_succ 2 _] at hpow
  generalize 2 ^ ulpExp q2 q2 = P at h3 hpow
  generalize 2 ^ ulpExp q q = Q at h5 hpow
  omega

/-- Rounding is monotone in the numerator. -/
theorem Double.round_mono (a a2 b : Nat) (hb : 0 < b) (h : a ≤ a2) :
    Double.round a b ≤ Double.round a2 b := by
  have hq : a / b ≤ a2 / b := Nat.div_le_div_right h
  have hu := ulpExp_mono _ _ hq
  obtain ⟨h1, _⟩ := ulpExp_spec (a / b) (a / b) (Nat.le_refl _)
  obtain ⟨_, h4⟩ := ulpExp_spec (a2 / b) (a2 / b) (Nat.le_refl _)
  simp only [Double.round, Nat.shiftLeft_eq]
  rcases Nat.eq_or_lt_of_le hu with he | hlt
  · rw [← he]
    exact Nat.mul_le_mul_right _ (roundHalfEven_mono _ _ _ h)
  · have hpos : 0 < 2 ^ ulpExp (a / b) (a / b) := Nat.two_pow_pos _
    have hpos2 : 0 < 2 ^ ulpExp (a2 / b) (a2 / b) := Nat.two_pow_pos _
    have hA : a ≤ 2 ^ 53 * (b * 2 ^ ulpExp (a / b) (a / b)) := by
      have : a < (2 ^ 53 * 2 ^ ulpExp (a / b) (a / b)) * b := (Nat.div_lt_iff_lt_mul hb).1 h1
      calc a ≤ (2 ^ 53 * 2 ^ ulpExp (a / b) (a / b)) * b := Nat.le_of_lt this
        _ = 2 ^ 53 * (b * 2 ^ ulpExp (a / b) (a / b)) := by ring
    have hlow : roundHalfEven a (b * 2 ^ ulpExp (a / b) (a / b)) ≤ 2 ^ 53 := by
      have := roundHalfEven_mono _ _ (b * 2 ^ ulpExp (a / b) (a / b)) hA
      rwa [roundHalfEven_mul_self _ _ (Nat.mul_pos hb hpos)] at this
    have hB : 2 ^ 52 * (b * 2 ^ ulpExp (a2 / b) (a2 / b)) ≤ a2 := by
      have h5 := h4 (by omega)
      have : (2 ^ 52 * 2 ^ ulpExp (a2 / b) (a2 / b)) * b ≤ a2 := (Nat.le_div_iff_mul_le hb).1 h5
      calc 2 ^ 52 * (b * 2 ^ ulpExp (a2 / b) (a2 / b))
          = (2 ^ 52 * 2 ^ ulpExp (a2 / b) (a2 / b)) * b := by ring
        _ ≤ a2 := this
    have hhigh : 2 ^ 52 ≤ roundHalfEven a2 (b * 2 ^ ulpExp (a2 / b) (a2 / b)) := by
      have := roundHalfEven_mono _ _ (b * 2 ^ ulpExp (a2 / b) (a2 / b)) hB
      rwa [roundHalfEven_mul_self _ _ (Nat.mul_pos hb hpos2)] at this
    have hpow : 2 ^ (ulpExp (a / b) (a / b) + 1) ≤ 2 ^ ulpExp (a2 / b) (a2 / b) :=
      Nat.pow_le_pow_right (by decide) hlt
    rw [show 2 ^ (ulpExp (a / b) (a / b) + 1) = 2 ^ ulpExp (a / b) (a / b) * 2
      from pow_succ 2 _] at hpow
    calc roundHalfEven a (b * 2 ^ ulpExp (a / b) (a / b)) * 2 ^ ulpExp (a / b) (a / b)
        ≤ 2 ^ 53 * 2 ^ ulpExp (a / b) (a / b) := Nat.mul_le_mul_right _ hlow
      _ = 2 ^ 52 * (2 ^ ulpExp (a / b) (a / b) * 2) := by ring
      _ ≤ 2 ^ 52 * 2 ^ ulpExp (a2 / b) (a2 / b) := Nat.mul_le_mul_left _ hpow
      _ ≤ roundHalfEven a2 (b * 2 ^ ulpExp (a2 / b) (a2 / b)) * 2 ^ ulpExp (a2 / b) (a2 / b) :=
          Nat.mul_le_mul_right _ hhigh

/-- Rounding `k * b / b` is rounding `k`. -/
theorem Double.round_mul_self (k b : Nat) (hb : 0 < b) :
    Double.round (k * b) b = Double.round k 1 := by
  have h1 : k * b / b = k := Nat.mul_div_cancel _ hb
  simp only [Double.round, h1, Nat.div_one, Nat.shiftLeft_eq, Nat.one_mul]
  congr 1
  rw [Nat.mul_comm b, Nat.mul_comm k b, Nat.mul_comm b k]
  have := roundHalfEven_mul_right k (2 ^ ulpExp k k) b hb
  rw [this]

theorem Double.one_pos : 0 < Double.one := by
  decide

theorem Double.div_mono (x x2 y : Nat) (hy : 0 < y) (h : x ≤ x2) :
    Double.div x y ≤ Double.div x2 y :=
  Double.round_mono _ _ _ hy (Nat.mul_le_mul_right _ h)

theorem Double.mul_mono (x x2 y : Nat) (h : x ≤ x2) : Double.mul x y ≤ Double.mul x2 y :=
  Double.round_mono _ _ _ Double.one_pos (Nat.mul_le_mul_right _ h)

theorem Double.floor_mono (x x2 : Nat) (h : x ≤ x2) : Double.floor x ≤ Double.floor x2 :=
  Nat.div_le_div_right h

/-- The percent grows with the index. -/
theorem progressPercent_mono (i j total : Nat) (ht : 0 < total) (h : i ≤ j) :
    progressPercent i total ≤ progressPercent j total := by
  unfold progressPercent
  apply Double.floor_mono
  apply Double.mul_mono
  apply Double.div_mono _ _ _ (Nat.mul_pos ht Double.one_pos)
  exact Nat.mul_le_mul_right _ h

set_option maxRecDepth 100000 in
theorem Double.round_belowOne : Double.round Double.belowOne 1 = Double.belowOne := by
  decide

set_option maxRecDepth 100000 in
theorem Double.floor_mul_belowOne :
    Double.floor (Double.mul Double.belowOne (Double.ofNat 100)) = 99 := by
  decide

theorem Double.div_le_belowOne (i total : Nat) (hi : i < total) (ht : total ≤ 2 ^ 32) :
    Double.div (Double.ofNat i) (Double.ofNat total) ≤ Double.belowOne := by
  have hone : Double.one = 2 ^ 32 * (1 <<< 1042) := by decide
  have hU : Double.belowOne = (2 ^ 32 - 1) * (1 <<< 1042) := by decide
  have hpos : 0 < Double.ofNat total := Nat.mul_pos (by omega) Double.one_pos
  have hnum : Double.ofNat i * Double.one ≤ Double.belowOne * Double.ofNat total := by
    have h1 : i * 2 ^ 32 ≤ (2 ^ 32 - 1) * total := by
      have : i + 1 ≤ total := hi
      have h2 : (2 : Nat) ^ 32 = 4294967296 := by norm_num
      rw [h2] at ht ⊢
      omega
    have h3 : i * Double.one ≤ Double.belowOne * total := by
      rw [hone, hU]
      calc i * (2 ^ 32 * 1 <<< 1042) = (i * 2 ^ 32) * 1 <<< 1042 := by ring
        _ ≤ ((2 ^ 32 - 1) * total) * 1 <<< 1042 := Nat.mul_le_mul_right _ h1
        _ = (2 ^ 32 - 1) * 1 <<< 1042 * total := by ring
    calc Double.ofNat i * Double.one = (i * Double.one) * Double.one := rfl
      _ ≤ (Double.belowOne * total) * Double.one := Nat.mul_le_mul_right _ h3
      _ = Double.belowOne * Double.ofNat total := by
        unfold Double.ofNat
        ring
  calc Double.div (Double.ofNat i) (Double.ofNat total)
      ≤ Double.round (Double.belowOne * Double.ofNat total) (Double.ofNat total) :=
        Double.round_mono _ _ _ hpos hnum
    _ = Double.round Double.belowOne 1 := Double.round_mul_self _ _ hpos
    _ = Double.belowOne := Double.round_belowOne

/-- Inside the loop the percent stays below 100. -/
theorem progressPercent_lt_100 (i total : Nat) (hi : i < total) (ht : total ≤ 2 ^ 32) :
    progressPercent i total < 100 := by
  have h := Double.floor_mono _ _
    (Double.mul_mono _ _ (Double.ofNat 100) (Double.div_le_belowOne i total hi ht))
  rw [Double.floor_mul_belowOne] at h
  unfold progressPercent
  omega


theorem roundHalfEven_error (a c : Nat) (hc : 0 < c) :
    2 * (roundHalfEven a c * c) ≤ 2 * a + c ∧ 2 * a ≤ 2 * (roundHalfEven a c * c) + c := by
  have e := Nat.div_add_mod a c
  have hr := Nat.mod_lt a hc
  have h1 : (a / c + 1) * c = c * (a / c) + c := by ring
  have h2 : a / c * c = c * (a / c) := Nat.mul_comm _ _
  unfold roundHalfEven
  split_ifs <;> simp only [h1, h2] <;> omega

/-- In the normal range the relative error of rounding is at most `2^-53`. -/
theorem Double.round_error (a b : Nat) (hb : 0 < b) (hq : 2 ^ 53 ≤ a / b) :
    2 ^ 53 * (b * Double.round a b) ≤ (2 ^ 53 + 1) * a ∧
    (2 ^ 53 - 1) * a ≤ 2 ^ 53 * (b * Double.round a b) := by
  obtain ⟨h1, h2⟩ := ulpExp_spec (a / b) (a / b) (Nat.le_refl _)
  have hu : 0 < ulpExp (a / b) (a / b) := by
    by_contra h0
    have hz : ulpExp (a / b) (a / b) = 0 := by omega
    rw [hz] at h1
    omega
  have h3 : 2 ^ 52 * 2 ^ ulpExp (a / b) (a / b) * b ≤ a := (Nat.le_div_iff_mul_le hb).1 (h2 hu)
  have hc : 0 < b * 2 ^ ulpExp (a / b) (a / b) := Nat.mul_pos hb (Nat.two_pow_pos _)
  obtain ⟨e1, e2⟩ := roundHalfEven_error a _ hc
  have h4 : b * Double.round a b
      = roundHalfEven a (b * 2 ^ ulpExp (a / b) (a / b)) * (b * 2 ^ ulpExp (a / b) (a / b)) := by
    simp only [Double.round, Nat.shiftLeft_eq]
    ring
  have h5 : 2 ^ 52 * 2 ^ ulpExp (a / b) (a / b) * b
      = 2 ^ 52 * (b * 2 ^ ulpExp (a / b) (a / b)) := by ring
  rw [h5] at h3
  rw [h4]
  generalize roundHalfEven a (b * 2 ^ ulpExp (a / b) (a / b)) * (b * 2 ^ ulpExp (a / b) (a / b))
    = mc at e1 e2 ⊢
  generalize b * 2 ^ ulpExp (a / b) (a / b) = c at e1 e2 h3
  omega

theorem Double.round_zero (b : Nat) (hb : 0 < b) : Double.round 0 b = 0 := by
  simp [Double.round, roundHalfEven, ulpExp, hb]

theorem progressPercent_zero (total : Nat) (ht : 0 < total) : progressPercent 0 total = 0 := by
  have h1 : Double.div (Double.ofNat 0) (Double.ofNat total) = 0 := by
    simp only [Double.div, Double.ofNat, Nat.zero_mul]
    exact Double.round_zero _ (Nat.mul_pos ht Double.one_pos)
  have h2 : Double.mul 0 (Double.ofNat 100) = 0 := by
    simp only [Double.mul, Nat.zero_mul]
    exact Double.round_zero _ Double.one_pos
  simp only [progressPercent, h1, h2, Double.floor, Nat.zero_div]

set_option maxRecDepth 100000 in
theorem Double.round_two_pow_53 : Double.round (2 ^ 53) 1 = 2 ^ 53 := by
  decide

/-- The two roundings of `(i / total) * 100`, with the unit cancelled: each is
off by a factor of at most `1 ± 2^-53`. -/
theorem progressPercent_roundings (i total : Nat) (hi : i < total) (hpos : 0 < i)
    (ht : total ≤ 2 ^ 32) :
    ∃ x y, progressPercent i total = y / Double.one ∧
      2 ^ 53 * (total * x) ≤ (2 ^ 53 + 1) * (i * Double.one) ∧
      (2 ^ 53 - 1) * (i * Double.one) ≤ 2 ^ 53 * (total * x) ∧
      2 ^ 53 * y ≤ (2 ^ 53 + 1) * (100 * x) ∧
      (2 ^ 53 - 1) * (100 * x) ≤ 2 ^ 53 * y := by
  have hO := Double.one_pos
  have hB : 0 < Double.ofNat total := Nat.mul_pos (by omega) hO
  have hone : 2 ^ 53 * 2 ^ 32 ≤ Double.one := by decide
  have hnum : 2 ^ 53 * Double.ofNat total ≤ Double.ofNat i * Double.one := by
    have h1 : 2 ^ 53 * total ≤ i * Double.one :=
      calc 2 ^ 53 * total ≤ 2 ^ 53 * 2 ^ 32 := Nat.mul_le_mul_left _ ht
        _ ≤ Double.one := hone
        _ ≤ i * Double.one := Nat.le_mul_of_pos_left _ hpos
    calc 2 ^ 53 * Double.ofNat total = (2 ^ 53 * total) * Double.one := by
          unfold Double.ofNat
          ring
      _ ≤ (i * Double.one) * Double.one := Nat.mul_le_mul_right _ h1
  have hq1 : 2 ^ 53 ≤ Double.ofNat i * Double.one / Double.ofNat total :=
    (Nat.le_div_iff_mul_le hB).2 hnum
  obtain ⟨x1, x2⟩ := Double.round_error _ _ hB hq1
  have hxlow : 2 ^ 53 ≤ Double.div (Double.ofNat i) (Double.ofNat total) :=
    calc 2 ^ 53 = Double.round (2 ^ 53) 1 := Double.round_two_pow_53.symm
      _ = Double.round (2 ^ 53 * Double.ofNat total) (Double.ofNat total) :=
          (Double.round_mul_self _ _ hB).symm
      _ ≤ Double.round (Double.ofNat i * Double.one) (Double.ofNat total) :=
          Double.round_mono _ _ _ hB hnum
  have hq2 : 2 ^ 53 ≤
      Double.div (Double.ofNat i) (Double.ofNat total) * Double.ofNat 100 / Double.one := by
    apply (Nat.le_div_iff_mul_le hO).2
    calc 2 ^ 53 * Double.one
        ≤ Double.div (Double.ofNat i) (Double.ofNat total) * Double.one :=
          Nat.mul_le_mul_right _ hxlow
      _ ≤ Double.div (Double.ofNat i) (Double.ofNat total) * Double.ofNat 100 := by
          apply Nat.mul_le_mul_left
          unfold Double.ofNat
          omega
  obtain ⟨y1, y2⟩ := Double.round_error _ _ hO hq2
  refine ⟨Double.div (Double.ofNat i) (Double.ofNat total),
    Double.mul (Double.div (Double.ofNat i) (Double.ofNat total)) (Double.ofNat 100), rfl,
    ?_, ?_, ?_, ?_⟩
  · apply Nat.le_of_mul_le_mul_right _ hO
    calc 2 ^ 53 * (total * Double.div (Double.ofNat i) (Double.ofNat total)) * Double.one
        = 2 ^ 53 * (Double.ofNat total * Double.round (Double.ofNat i * Double.one)
            (Double.ofNat total)) := by
          unfold Double.div Double.ofNat
          ring
      _ ≤ (2 ^ 53 + 1) * (Double.ofNat i * Double.one) := x1
      _ = (2 ^ 53 + 1) * (i * Double.one) * Double.one := by
          unfold Double.ofNat
          ring
  · apply Nat.le_of_mul_le_mul_right _ hO
    calc (2 ^ 53 - 1) * (i * Double.one) * Double.one
        = (2 ^ 53 - 1) * (Double.ofNat i * Double.one) := by
          unfold Double.ofNat
          ring
      _ ≤ 2 ^ 53 * (Double.ofNat total * Double.round (Double.ofNat i * Double.one)
            (Double.ofNat total)) := x2
      _ = 2 ^ 53 * (total * Double.div (Double.ofNat i) (Double.ofNat total)) * Double.one := by
          unfold Double.div Double.ofNat
          ring
  · apply Nat.le_of_mul_le_mul_right _ hO
    calc 2 ^ 53 * Double.mul (Double.div (Double.ofNat i) (Double.ofNat total))
          (Double.ofNat 100) * Double.one
        = 2 ^ 53 * (Double.one * Double.round
            (Double.div (Double.ofNat i) (Double.ofNat total) * Double.ofNat 100)
            Double.one) := by
          unfold Double.mul
          ring
      _ ≤ (2 ^ 53 + 1) *
            (Double.div (Double.ofNat i) (Double.ofNat total) * Double.ofNat 100) := y1
      _ = (2 ^ 53 + 1) * (100 * Double.div (Double.ofNat i) (Double.ofNat total))
            * Double.one := by
          unfold Double.ofNat
          ring
  · apply Nat.le_of_mul_le_mul_right _ hO
    calc (2 ^ 53 - 1) * (100 * Double.div (Double.ofNat i) (Double.ofNat total)) * Double.one
        = (2 ^ 53 - 1) *
            (Double.div (Double.ofNat i) (Double.ofNat total) * Double.ofNat 100) := by
          unfold Double.ofNat
          ring
      _ ≤ 2 ^ 53 * (Double.one * Double.round
            (Double.div (Double.ofNat i) (Double.ofNat total) * Double.ofNat 100)
            Double.one) := y2
      _ = 2 ^ 53 * Double.mul (Double.div (Double.ofNat i) (Double.ofNat total))
          (Double.ofNat 100) * Double.one := by
          unfold Double.mul
          ring

/-- The percent computed in double precision is the exact `floor(100 * i / total)`
or one less. -/
theorem progressPercent_accuracy (i total : Nat) (hi : i < total) (ht : total ≤ 2 ^ 32) :
    progressPercent i total ≤ 100 * i / total ∧
    100 * i / total ≤ progressPercent i total + 1 := by
  have hn : 0 < total := by omega
  rcases Nat.eq_zero_or_pos i with h0 | hpos
  · subst h0
    simp [progressPercent_zero total hn]
  · obtain ⟨x, y, hp, a1, a2, a3, a4⟩ := progressPercent_roundings i total hi hpos ht
    have hO := Double.one_pos
    have hE1 : total * (100 * i / total) ≤ 100 * i := Nat.mul_div_le _ _
    have hE2 : 100 * i < total * (100 * i / total + 1) := Nat.lt_mul_div_succ _ hn
    have h32 : (2 : Nat) ^ 32 = 4294967296 := by norm_num
    have h53 : (2 : Nat) ^ 53 = 9007199254740992 := by norm_num
    rw [h32] at ht
    rw [h53] at a1 a2 a3 a4
    rw [hp]
    constructor
    · by_contra hcon
      have h1 : (100 * i / total + 1) * Double.one ≤ y :=
        (Nat.le_div_iff_mul_le hO).1 (by omega)
      have h2 : 9007199254740992 * 9007199254740992 * (total * (100 * i / total + 1))
          ≤ 9007199254740993 * 9007199254740993 * (100 * i) := by
        apply Nat.le_of_mul_le_mul_right _ hO
        calc 9007199254740992 * 9007199254740992 * (total * (100 * i / total + 1)) * Double.one
            = 9007199254740992 * total
                * (9007199254740992 * ((100 * i / total + 1) * Double.one)) := by ring
          _ ≤ 9007199254740992 * total * (9007199254740992 * y) :=
              Nat.mul_le_mul_left _ (Nat.mul_le_mul_left _ h1)
          _ ≤ 9007199254740992 * total * ((9007199254740992 + 1) * (100 * x)) :=
              Nat.mul_le_mul_left _ a3
          _ = (9007199254740993 * 100) * (9007199254740992 * (total * x)) := by ring
          _ ≤ (9007199254740993 * 100) * ((9007199254740992 + 1) * (i * Double.one)) :=
              Nat.mul_le_mul_left _ a1
          _ = 9007199254740993 * 9007199254740993 * (100 * i) * Double.one := by ring
      have h3 : total * (100 * i / total + 1) = total * (100 * i / total) + total := by ring
      rw [h3] at h2 hE2
      omega
    · by_contra hcon
      have hE : 2 ≤ 100 * i / total := by omega
      have h1 : y < (100 * i / total - 1) * Double.one :=
        (Nat.div_lt_iff_lt_mul hO).1 (by omega)
      have h2 : 9007199254740991 * 9007199254740991 * (100 * i)
          ≤ 9007199254740992 * 9007199254740992 * (total * (100 * i / total - 1)) := by
        apply Nat.le_of_mul_le_mul_right _ hO
        calc 9007199254740991 * 9007199254740991 * (100 * i) * Double.one
            = (9007199254740991 * 100) * ((9007199254740992 - 1) * (i * Double.one)) := by ring
          _ ≤ (9007199254740991 * 100) * (9007199254740992 * (total * x)) :=
              Nat.mul_le_mul_left _ a2
          _ = 9007199254740992 * total * ((9007199254740992 - 1) * (100 * x)) := by ring
          _ ≤ 9007199254740992 * total * (9007199254740992 * y) :=
              Nat.mul_le_mul_left _ a4
          _ ≤ 9007199254740992 * total
                * (9007199254740992 * ((100 * i / total - 1) * Double.one)) :=
              Nat.mul_le_mul_left _ (Nat.mul_le_mul_left _ (Nat.le_of_lt h1))
          _ = 9007199254740992 * 9007199254740992 * (total * (100 * i / total - 1))
                * Double.one := by ring
      have h3 : total * (100 * i / total - 1) = total * (100 * i / total) - total := by
        rw [Nat.mul_sub, Nat.mul_one]
      rw [h3] at h2
      omega

/-! ## Progress reports of the documents-destination strategy (C9) -/

theorem progressReports_flatMap_stepEvents (category : String) (total : Nat)
    (files : List File) :
    ∀ i, progressReports ((files.enumFrom i).flatMap (stepEvents category total))
      = (files.enumFrom i).map (fun p =>
          (progressPercent p.1 total, progressMessage p.1 total p.2)) := by
  induction files with
  | nil => intro i; rfl
  | cons file rest ih =>
    intro i
    simp only [List.enumFrom_cons, List.flatMap_cons, progressReports_append, ih (i + 1),
      List.map_cons]
    rfl

theorem progressReports_reportEvents (s : LoopState) :
    progressReports (reportEvents s) = [(100, "Upload complete!")] := by
  have hmap : ∀ errors : List String,
      progressReports (errors.map (fun error => Event.toast .error error)) = [] := by
    intro errors
    induction errors with
    | nil => rfl
    | cons e es ih => simpa [progressReports] using ih
  unfold reportEvents
  by_cases hs : 0 < s.successCount <;> by_cases hf : 0 < s.failCount <;>
    by_cases hd : s.world.dom.documentsActive = true <;>
    simp [hs, hf, hd, progressReports_append, progressReports, hmap]

/-- The progress reports of a run of `uploadToDocuments`: one per file, then
the final one. -/
theorem progressReports_uploadToDocuments (net : Network) (w : World) :
    progressReports (uploadToDocuments net w).trace
      = progressReports w.trace
        ++ w.state.selectedFiles.enum.map (fun p =>
            (progressPercent p.1 w.state.selectedFiles.length,
             progressMessage p.1 w.state.selectedFiles.length p.2))
        ++ [(100, "Upload complete!")] := by
  unfold uploadToDocuments uploadToDocumentsLoop
  rw [uploadToDocumentsReport_trace, progressReports_append, progressReports_reportEvents,
    (uploadLoop_spec net _ _ _ 0 _).1, progressReports_append,
    progressReports_flatMap_stepEvents]
  rfl

set_option maxRecDepth 100000 in
/-- C9, as stated, fails: with fifty selected files the percent reported
before the request for the file at index 29 is 57, while
`floor(29 / 50 * 100)` is 58. -/
theorem uploadToDocuments_progress_counterexample :
    (progressReports (uploadToDocuments sampleNetwork sampleFiftyPage).trace)[29]?
      = some (57, "Uploading 30 of 50: scan29.png") ∧
    ⌊(29 : ℚ) / 50 * 100⌋ = 58 := by
  constructor
  · rw [progressReports_uploadToDocuments]
    decide
  · norm_num

/-- C9, amended: in `uploadToDocuments` with n selected files (fewer than
2^32, as in every JavaScript array), each iteration reports its progress and
then issues its request; the percent reported for the file at index i is
`Math.floor((i / n) * 100)` evaluated in double precision, which is the exact
`floor(100 * i / n)` or one less; every such in-loop report is strictly below
100 and the sequence is non-decreasing; the value 100 is reported once, as the
last report, after the loop has finished. -/
theorem uploadToDocuments_progress (net : Network) (w : World)
    (hlen : w.state.selectedFiles.length < 2 ^ 32) :
    (uploadToDocumentsLoop net w).world.trace
      = w.trace ++ w.state.selectedFiles.enum.flatMap (fun p =>
          [Event.progress (progressPercent p.1 w.state.selectedFiles.length)
             (progressMessage p.1 w.state.selectedFiles.length p.2),
           Event.fetch (documentRequest (selectedCategory w) p.2)]) ∧
    progressReports (uploadToDocuments net w).trace
      = progressReports w.trace
        ++ w.state.selectedFiles.enum.map (fun p =>
            (progressPercent p.1 w.state.selectedFiles.length,
             progressMessage p.1 w.state.selectedFiles.length p.2))
        ++ [(100, "Upload complete!")] ∧
    (∀ i, i < w.state.selectedFiles.length →
      progressPercent i w.state.selectedFiles.length < 100 ∧
      progressPercent i w.state.selectedFiles.length
        ≤ 100 * i / w.state.selectedFiles.length ∧
      100 * i / w.state.selectedFiles.length
        ≤ progressPercent i w.state.selectedFiles.length + 1) ∧
    (∀ i j, i ≤ j → j < w.state.selectedFiles.length →
      progressPercent i w.state.selectedFiles.length
        ≤ progressPercent j w.state.selectedFiles.length) := by
  refine ⟨?_, progressReports_uploadToDocuments net w, ?_, ?_⟩
  · unfold uploadToDocumentsLoop
    rw [(uploadLoop_spec net _ _ _ 0 _).1]
    rfl
  · intro i hi
    have hle : w.state.selectedFiles.length ≤ 2 ^ 32 := Nat.le_of_lt hlen
    exact ⟨progressPercent_lt_100 i _ hi hle, progressPercent_accuracy i _ hi hle⟩
  · intro i j hij hj
    exact progressPercent_mono i j _ (by omega) hij

set_option maxRecDepth 100000 in
theorem uploadToDocuments_progress_witness :
    progressReports (uploadToDocuments sampleNetwork sampleDocumentsPage).trace
      = [(0, "Uploading 1 of 3: cv.pdf"), (33, "Uploading 2 of 3: photo.png"),
         (66, "Uploading 3 of 3: notes.txt"), (100, "Upload complete!")] :=
  (uploadToDocuments_progress sampleNetwork sampleDocumentsPage (by decide)).2.1.trans
    (by decide)

/-! ## Lemmas on `uploadFiles` and the portfolio-destination strategy -/

theorem scheduled_append (a b : List Event) :
    scheduled (a ++ b) = scheduled a ++ scheduled b := by
  induction a with
  | nil => rfl
  | cons e es ih => cases e <;> simp [scheduled, ih]

theorem uploadFilesPrepare_spec (w : World) :
    (uploadFilesPrepare w).state = w.state ∧
    (uploadFilesPrepare w).trace = w.trace ∧
    (uploadFilesPrepare w).dom.uploadPortfolio = w.dom.uploadPortfolio ∧
    (uploadFilesPrepare w).dom.documentCategory = w.dom.documentCategory ∧
    (uploadFilesPrepare w).dom.documentsActive = w.dom.documentsActive ∧
    (uploadFilesPrepare w).dom.uploadBtn = some
      { innerHTML := "<i class=\"fas fa-spinner fa-spin\"></i> Uploading...", disabled := true } := by
  unfold uploadFilesPrepare
  simp only []
  split <;> simp

/-- The run of `uploadFiles` for the portfolio destination, when the strategy
throws: the `catch` block runs on the world the strategy left. -/
theorem uploadFiles_portfolio_error (net : Network) (w w3 : World) (btn : Button)
    (message : String)
    (hfiles : w.state.selectedFiles ≠ []) (hbtn : w.dom.uploadBtn = some btn)
    (hdest : w.state.uploadDestination = "portfolio")
    (hrun : uploadToPortfolio net (uploadFilesPrepare w) = (w3, .error message)) :
    uploadFiles net w = uploadFilesCatch btn.innerHTML message w3 := by
  have hlen : ¬ w.state.selectedFiles.length = 0 := by
    intro h
    exact hfiles (List.length_eq_zero.1 h)
  have hd : (uploadFilesPrepare w).state.uploadDestination = "portfolio" := by
    rw [(uploadFilesPrepare_spec w).1]
    exact hdest
  unfold uploadFiles
  rw [if_neg hlen]
  simp only [hbtn]
  unfold uploadFilesPrepare at hrun hd
  simp only [] at hrun hd
  simp only [hd, if_true, hrun]
  rfl

/-- The run of `uploadFiles` for the portfolio destination, when the strategy
returns: nothing further is done. -/
theorem uploadFiles_portfolio_ok (net : Network) (w w3 : World) (btn : Button) (result : Body)
    (hfiles : w.state.selectedFiles ≠ []) (hbtn : w.dom.uploadBtn = some btn)
    (hdest : w.state.uploadDestination = "portfolio")
    (hrun : uploadToPortfolio net (uploadFilesPrepare w) = (w3, .ok result)) :
    uploadFiles net w = w3 := by
  have hlen : ¬ w.state.selectedFiles.length = 0 := by
    intro h
    exact hfiles (List.length_eq_zero.1 h)
  have hd : (uploadFilesPrepare w).state.uploadDestination = "portfolio" := by
    rw [(uploadFilesPrepare_spec w).1]
    exact hdest
  unfold uploadFiles
  rw [if_neg hlen]
  simp only [hbtn]
  unfold uploadFilesPrepare at hrun hd
  simp only [] at hrun hd
  simp only [hd, if_true, hrun]

/-- The run of `uploadFiles` for the documents destination. -/
theorem uploadFiles_documents (net : Network) (w : World) (btn : Button)
    (hfiles : w.state.selectedFiles ≠ []) (hbtn : w.dom.uploadBtn = some btn)
    (hdest : w.state.uploadDestination ≠ "portfolio") :
    uploadFiles net w = uploadToDocuments net (uploadFilesPrepare w) := by
  have hlen : ¬ w.state.selectedFiles.length = 0 := by
    intro h
    exact hfiles (List.length_eq_zero.1 h)
  have hd : ¬ (uploadFilesPrepare w).state.uploadDestination = "portfolio" := by
    rw [(uploadFilesPrepare_spec w).1]
    exact hdest
  unfold uploadFiles
  rw [if_neg hlen]
  simp only [hbtn]
  unfold uploadFilesPrepare at hd ⊢
  simp only [] at hd ⊢
  simp only [hd, if_false]

/-- The run of `uploadToPortfolio` with a portfolio selected, when the request
does not come back as a 2xx response with success=true: the trace gets the
two progress reports, the request, the report `Processing files...` when a
body was parsed, and the report `Upload failed`; the function throws. -/
theorem uploadToPortfolio_failure (net : Network) (w : World) (portfolioId : String)
    (hsel : w.dom.uploadPortfolio = some portfolioId) (hne : portfolioId ≠ "")
    (hfail : (net (requests w.trace).length).succeeded = false) :
    (uploadToPortfolio net w).2
      = .error (portfolioFailureMessage (net (requests w.trace).length)) ∧
    (uploadToPortfolio net w).1.state = w.state ∧
    (uploadToPortfolio net w).1.dom.uploadBtn = w.dom.uploadBtn ∧
    requests (uploadToPortfolio net w).1.trace
      = requests w.trace ++ [portfolioRequest w portfolioId] ∧
    toasts (uploadToPortfolio net w).1.trace = toasts w.trace ∧
    scheduled (uploadToPortfolio net w).1.trace = scheduled w.trace := by
  have hreq : (requests (updateUploadProgress 30 "Uploading files to server..."
      (updateUploadProgress 10 "Preparing upload..." w)).trace).length
        = (requests w.trace).length := by
    simp [updateUploadProgress, requests_append, requests]
  unfold uploadToPortfolio
  simp only [hsel, hne, if_false, fetch, hreq]
  cases hout : net (requests w.trace).length with
  | rejected message =>
    simp [World.emit, updateUploadProgress, portfolioFailureMessage, portfolioRequest,
      requests_append, requests, toasts_append, toasts, scheduled_append, scheduled]
  | response status text json =>
    cases json with
    | threw message =>
      cases hok : FetchOutcome.ok status <;>
        simp [World.emit, updateUploadProgress, portfolioFailureMessage, portfolioRequest,
          requests_append, requests, toasts_append, toasts, scheduled_append, scheduled, hok]
    | null message =>
      cases hok : FetchOutcome.ok status <;>
        simp [World.emit, updateUploadProgress, portfolioFailureMessage, portfolioRequest,
          requests_append, requests, toasts_append, toasts, scheduled_append, scheduled, hok]
    | value body =>
      cases hok : FetchOutcome.ok status <;> cases hb : body.success <;>
        simp [World.emit, updateUploadProgress, portfolioFailureMessage, portfolioRequest,
          requests_append, requests, toasts_append, toasts, scheduled_append, scheduled, hok,
          hb]
      rw [hout] at hfail
      simp [FetchOutcome.succeeded, hok, hb] at hfail

/-- The run of `uploadToPortfolio` with a portfolio selected, when the request
comes back as a 2xx response with success=true. -/
theorem uploadToPortfolio_success (net : Network) (w : World) (portfolioId : String)
    (hsel : w.dom.uploadPortfolio = some portfolioId) (hne : portfolioId ≠ "")
    (hsucc : (net (requests w.trace).length).succeeded = true) :
    (∃ result, (uploadToPortfolio net w).2 = .ok result) ∧
    (uploadToPortfolio net w).1.state = w.state ∧
    requests (uploadToPortfolio net w).1.trace
      = requests w.trace ++ [portfolioRequest w portfolioId] ∧
    progressReports (uploadToPortfolio net w).1.trace
      = progressReports w.trace ++ [(10, "Preparing upload..."),
          (30, "Uploading files to server..."), (70, "Processing files..."),
          (100, "Upload complete!")] ∧
    (∃ message, toasts (uploadToPortfolio net w).1.trace
      = toasts w.trace ++ [(ToastType.success, message)]) ∧
    scheduled (uploadToPortfolio net w).1.trace
      = scheduled w.trace ++ (TimerAction.closeUploadModalAndClear, 1000)
          :: (if w.state.isDetailsPage then [(TimerAction.reloadPage, 1500)] else []) := by
  have hreq : (requests (updateUploadProgress 30 "Uploading files to server..."
      (updateUploadProgress 10 "Preparing upload..." w)).trace).length
        = (requests w.trace).length := by
    simp [updateUploadProgress, requests_append, requests]
  unfold uploadToPortfolio
  simp only [hsel, hne, if_false, fetch, hreq]
  cases hout : net (requests w.trace).length with
  | rejected message =>
    rw [hout] at hsucc
    simp [FetchOutcome.succeeded] at hsucc
  | response status text json =>
    cases json with
    | threw message =>
      rw [hout] at hsucc
      simp [FetchOutcome.succeeded] at hsucc
    | null message =>
      rw [hout] at hsucc
      simp [FetchOutcome.succeeded] at hsucc
    | value body =>
      rw [hout] at hsucc
      simp only [FetchOutcome.succeeded, Bool.and_eq_true] at hsucc
      obtain ⟨hok, hb⟩ := hsucc
      by_cases hd : w.state.isDetailsPage = true <;>
        by_cases ha : w.dom.documentsActive = true <;>
        simp [World.emit, updateUploadProgress, portfolioRequest, showSuccess, showToast,
          setTimeout, requests_append, requests, toasts_append, toasts, scheduled_append,
          scheduled, progressReports_append, progressReports, hok, hb, hd, ha]

theorem uploadToPortfolio_unselected (net : Network) (w : World)
    (hselect : w.dom.uploadPortfolio = none ∨ w.dom.uploadPortfolio = some "") :
    uploadToPortfolio net w
      = (showError "Please select a portfolio" w, .error "No portfolio selected") := by
  rcases hselect with h | h <;> simp [uploadToPortfolio, h]

theorem scheduled_showError (message : String) (w : World) :
    scheduled (showError message w).trace = scheduled w.trace ∧
    (showError message w).state = w.state := by
  simp [showError, showToast, World.emit, scheduled_append, scheduled]

/-- The strategy `uploadToPortfolio` never writes to `portfolioState`, and when
it throws it has scheduled nothing. -/
theorem uploadToPortfolio_state (net : Network) (w : World) :
    (uploadToPortfolio net w).1.state = w.state ∧
    (∀ message, (uploadToPortfolio net w).2 = .error message →
      scheduled (uploadToPortfolio net w).1.trace = scheduled w.trace) := by
  cases hsel : w.dom.uploadPortfolio with
  | none =>
    rw [uploadToPortfolio_unselected net w (Or.inl hsel)]
    exact ⟨(scheduled_showError _ w).2, fun _ _ => (scheduled_showError _ w).1⟩
  | some portfolioId =>
    by_cases hne : portfolioId = ""
    · rw [uploadToPortfolio_unselected net w (Or.inr (by rw [hsel, hne]))]
      exact ⟨(scheduled_showError _ w).2, fun _ _ => (scheduled_showError _ w).1⟩
    · cases hs : (net (requests w.trace).length).succeeded with
      | false =>
        obtain ⟨_, h2, _, _, _, h6⟩ := uploadToPortfolio_failure net w portfolioId hsel hne hs
        exact ⟨h2, fun _ _ => h6⟩
      | true =>
        obtain ⟨⟨result, h1⟩, h2, _⟩ := uploadToPortfolio_success net w portfolioId hsel hne hs
        refine ⟨h2, fun message hm => ?_⟩
        rw [h1] at hm
        cases hm

theorem scheduled_flatMap_stepEvents (category : String) (total : Nat) (files : List File) :
    ∀ i, scheduled ((files.enumFrom i).flatMap (stepEvents category total)) = [] := by
  induction files with
  | nil => intro i; rfl
  | cons file rest ih =>
    intro i
    simp only [List.enumFrom_cons, List.flatMap_cons, scheduled_append, ih (i + 1)]
    rfl

theorem scheduled_reportEvents (s : LoopState) :
    scheduled (reportEvents s) =
      if 0 < s.successCount then
        (TimerAction.closeUploadModalAndClear, 1000)
          :: (if s.world.dom.documentsActive then [(TimerAction.loadDocuments, 1500)] else [])
      else [] := by
  have hmap : ∀ errors : List String,
      scheduled (errors.map (fun error => Event.toast .error error)) = [] := by
    intro errors
    induction errors with
    | nil => rfl
    | cons e es ih => simpa [scheduled] using ih
  unfold reportEvents
  by_cases hs : 0 < s.successCount <;> by_cases hf : 0 < s.failCount <;>
    by_cases hd : s.world.dom.documentsActive = true <;>
    simp [hs, hf, hd, scheduled_append, scheduled, hmap]

theorem uploadToDocumentsReport_state (s : LoopState) :
    (uploadToDocumentsReport s).state = s.world.state := by
  unfold uploadToDocumentsReport
  by_cases hs : 0 < s.successCount <;> by_cases hf : 0 < s.failCount <;>
    by_cases hd : s.world.dom.documentsActive = true <;>
    simp [hs, hf, hd, (foldl_showError s.errors _).2.2, showWarning, showSuccess, showToast,
      setTimeout, World.emit, updateUploadProgress]

/-- The strategy `uploadToDocuments` never writes to `portfolioState`, and it
schedules the closing of the modal exactly when a file succeeded. -/
theorem uploadToDocuments_state (net : Network) (w : World) :
    (uploadToDocuments net w).state = w.state ∧
    scheduled (uploadToDocuments net w).trace
      = scheduled w.trace ++
        (if 0 < (uploadToDocumentsLoop net w).successCount then
          (TimerAction.closeUploadModalAndClear, 1000)
            :: (if (uploadToDocumentsLoop net w).world.dom.documentsActive then
                  [(TimerAction.loadDocuments, 1500)] else [])
        else []) := by
  constructor
  · unfold uploadToDocuments
    rw [uploadToDocumentsReport_state]
    unfold uploadToDocumentsLoop
    rw [(uploadLoop_spec net _ _ _ 0 _).2.1]
  · have hloop : scheduled (uploadToDocumentsLoop net w).world.trace = scheduled w.trace := by
      unfold uploadToDocumentsLoop
      rw [(uploadLoop_spec net _ _ _ 0 _).1, scheduled_append, scheduled_flatMap_stepEvents]
      simp
    unfold uploadToDocuments
    rw [uploadToDocumentsReport_trace, scheduled_append, scheduled_reportEvents, hloop]

theorem uploadFilesCatch_spec (originalText message : String) (w : World) :
    (uploadFilesCatch originalText message w).state = w.state ∧
    (uploadFilesCatch originalText message w).trace
      = w.trace ++ [Event.toast .error ("Upload failed: " ++ message)] ∧
    (uploadFilesCatch originalText message w).dom.uploadBtn
      = some { innerHTML := originalText, disabled := false } := by
  simp [uploadFilesCatch, showError, showToast, World.emit]

/-- The function `uploadFiles` never writes to `portfolioState`. -/
theorem uploadFiles_state (net : Network) (w : World) :
    (uploadFiles net w).state = w.state := by
  by_cases hfiles : w.state.selectedFiles = []
  · simp [uploadFiles, hfiles, showError, showToast, World.emit]
  · cases hbtn : w.dom.uploadBtn with
    | none =>
      have hlen : ¬ w.state.selectedFiles.length = 0 := by
        intro h
        exact hfiles (List.length_eq_zero.1 h)
      simp [uploadFiles, hlen, hbtn]
    | some btn =>
      by_cases hdest : w.state.uploadDestination = "portfolio"
      · cases hrun : uploadToPortfolio net (uploadFilesPrepare w) with
        | mk w3 r =>
          have hst := (uploadToPortfolio_state net (uploadFilesPrepare w)).1
          rw [hrun] at hst
          cases r with
          | error message =>
            rw [uploadFiles_portfolio_error net w w3 btn message hfiles hbtn hdest hrun,
              (uploadFilesCatch_spec _ _ _).1]
            exact hst.trans (uploadFilesPrepare_spec w).1
          | ok result =>
            rw [uploadFiles_portfolio_ok net w w3 btn result hfiles hbtn hdest hrun]
            exact hst.trans (uploadFilesPrepare_spec w).1
      · rw [uploadFiles_documents net w btn hfiles hbtn hdest,
          (uploadToDocuments_state net _).1, (uploadFilesPrepare_spec w).1]

theorem clearUploadForm_selectedFiles (w : World) :
    (clearUploadForm w).state.selectedFiles = [] := by
  unfold clearUploadForm updateUploadButton
  simp only []
  split <;> rfl

theorem updateUploadButton_state (w : World) : (updateUploadButton w).state = w.state := by
  unfold updateUploadButton
  split <;> rfl

/-! ## Failure and success of an upload (C11, C12, C13) and the modal (C18) -/

/-- C11, as stated, fails: the text shown is not the server-supplied message
itself.  For a 2xx body with success=false and the message
`Storage quota exceeded` the toast reads `Upload failed: Storage quota
exceeded`; for a 413 response it reads `Upload failed: Server error: 413 - `
followed by the raw response text. -/
theorem uploadFiles_portfolio_failure_text_counterexample :
    toasts (uploadFiles sampleRefusingNetwork samplePortfolioPage).trace
      = [(ToastType.error, "Upload failed: Storage quota exceeded")] ∧
    "Upload failed: Storage quota exceeded" ≠ "Storage quota exceeded" ∧
    toasts (uploadFiles sampleTooLargeNetwork samplePortfolioPage).trace
      = [(ToastType.error, "Upload failed: Server error: 413 - Payload Too Large")] := by
  decide

/-- C11, amended: in the portfolio-destination strategy, with files selected,
the button present and a portfolio selected, a non-2xx response and a 2xx
response whose body has success=false both end `uploadToPortfolio` with an
exception, without a success notification and without scheduling the closing
of the modal; `uploadFiles` then shows exactly one error, whose text is
`Upload failed: ` followed, for a non-2xx response, by
`Server error: <status> - <response text>`, and for a success=false body by
the server's `message` verbatim when it is non-empty and by `Upload failed`
otherwise. -/
theorem uploadFiles_portfolio_failure_text (net : Network) (w : World) (btn : Button)
    (portfolioId : String)
    (hfiles : w.state.selectedFiles ≠ []) (hbtn : w.dom.uploadBtn = some btn)
    (hdest : w.state.uploadDestination = "portfolio")
    (hsel : w.dom.uploadPortfolio = some portfolioId) (hne : portfolioId ≠ "") :
    (∀ status text json, net (requests w.trace).length = .response status text json →
      FetchOutcome.ok status = false →
      (uploadToPortfolio net (uploadFilesPrepare w)).2
        = .error ("Server error: " ++ toString status ++ " - " ++ text) ∧
      toasts (uploadFiles net w).trace = toasts w.trace ++
        [(ToastType.error,
          "Upload failed: " ++ ("Server error: " ++ toString status ++ " - " ++ text))] ∧
      scheduled (uploadFiles net w).trace = scheduled w.trace) ∧
    (∀ status text body, net (requests w.trace).length = .response status text (.value body) →
      FetchOutcome.ok status = true → body.success = false →
      (uploadToPortfolio net (uploadFilesPrepare w)).2
        = .error (orElse body.message "Upload failed") ∧
      toasts (uploadFiles net w).trace = toasts w.trace ++
        [(ToastType.error, "Upload failed: " ++ orElse body.message "Upload failed")] ∧
      scheduled (uploadFiles net w).trace = scheduled w.trace) ∧
    (∀ message, orElse (some message) "Upload failed"
      = if message = "" then "Upload failed" else message) ∧
    orElse none "Upload failed" = "Upload failed" := by
  obtain ⟨hps, hpt, hpsel, _⟩ := uploadFilesPrepare_spec w
  have hsel2 : (uploadFilesPrepare w).dom.uploadPortfolio = some portfolioId := by
    rw [hpsel, hsel]
  have key : ∀ o, net (requests w.trace).length = o → o.succeeded = false →
      (uploadToPortfolio net (uploadFilesPrepare w)).2 = .error (portfolioFailureMessage o) ∧
      toasts (uploadFiles net w).trace = toasts w.trace ++
        [(ToastType.error, "Upload failed: " ++ portfolioFailureMessage o)] ∧
      scheduled (uploadFiles net w).trace = scheduled w.trace := by
    intro o ho hfail
    have hfail2 : (net (requests (uploadFilesPrepare w).trace).length).succeeded = false := by
      rw [hpt, ho]
      exact hfail
    obtain ⟨h1, _, _, _, h5, h6⟩ :=
      uploadToPortfolio_failure net (uploadFilesPrepare w) portfolioId hsel2 hne hfail2
    rw [hpt, ho] at h1
    rw [hpt] at h5 h6
    cases hrun : uploadToPortfolio net (uploadFilesPrepare w) with
    | mk w3 r =>
      rw [hrun] at h1 h5 h6
      simp only at h1 h5 h6
      subst h1
      rw [uploadFiles_portfolio_error net w w3 btn _ hfiles hbtn hdest hrun,
        (uploadFilesCatch_spec _ _ _).2.1, toasts_append, scheduled_append, h5, h6]
      exact ⟨rfl, rfl, by simp [scheduled]⟩
  refine ⟨?_, ?_, ?_, rfl⟩
  · intro status text json ho hok
    have := key _ ho (by cases json <;> simp [FetchOutcome.succeeded, hok])
    simpa [portfolioFailureMessage, hok] using this
  · intro status text body ho hok hb
    have := key _ ho (by simp [FetchOutcome.succeeded, hok, hb])
    simpa [portfolioFailureMessage, hok] using this
  · intro message
    by_cases h : message = "" <;> simp [orElse, h]

theorem uploadFiles_portfolio_failure_text_witness :
    toasts (uploadFiles sampleRefusingNetwork samplePortfolioPage).trace
      = [(ToastType.error, "Upload failed: Storage quota exceeded")] ∧
    scheduled (uploadFiles sampleRefusingNetwork samplePortfolioPage).trace = [] :=
  ((uploadFiles_portfolio_failure_text sampleRefusingNetwork samplePortfolioPage
    { innerHTML := "<i class=\"fas fa-upload\"></i> Upload Files", disabled := false } "12"
    (by decide) rfl rfl rfl (by decide)).2.1 200 ""
    { success := false, message := some "Storage quota exceeded" } rfl rfl rfl).2

/-- C12: when an upload started by `uploadFiles` ends in failure (the
portfolio strategy throws, or no file of the documents strategy succeeds),
`portfolioState.selectedFiles` is the same list as before the call, and the
run has scheduled nothing that would clear it later. -/
theorem uploadFiles_failure_keeps_selection (net : Network) (w : World) (btn : Button)
    (hfiles : w.state.selectedFiles ≠ []) (hbtn : w.dom.uploadBtn = some btn)
    (hfailure :
      (w.state.uploadDestination = "portfolio" ∧
        ∃ message, (uploadToPortfolio net (uploadFilesPrepare w)).2 = .error message) ∨
      (w.state.uploadDestination ≠ "portfolio" ∧
        (uploadToDocumentsLoop net (uploadFilesPrepare w)).successCount = 0)) :
    (uploadFiles net w).state.selectedFiles = w.state.selectedFiles ∧
    scheduled (uploadFiles net w).trace = scheduled w.trace := by
  refine ⟨by rw [uploadFiles_state], ?_⟩
  obtain ⟨_, hpt, _⟩ := uploadFilesPrepare_spec w
  rcases hfailure with ⟨hdest, message, hm⟩ | ⟨hdest, hzero⟩
  · have hsch := (uploadToPortfolio_state net (uploadFilesPrepare w)).2 message hm
    cases hrun : uploadToPortfolio net (uploadFilesPrepare w) with
    | mk w3 r =>
      rw [hrun] at hm hsch
      simp only at hm hsch
      subst hm
      rw [uploadFiles_portfolio_error net w w3 btn _ hfiles hbtn hdest hrun,
        (uploadFilesCatch_spec _ _ _).2.1, scheduled_append, hsch, hpt]
      simp [scheduled]
  · rw [uploadFiles_documents net w btn hfiles hbtn hdest,
      (uploadToDocuments_state net _).2, hzero, hpt]
    simp

theorem uploadFiles_failure_keeps_selection_witness :
    (uploadFiles sampleTooLargeNetwork samplePortfolioPage).state.selectedFiles
      = samplePortfolioPage.state.selectedFiles ∧
    scheduled (uploadFiles sampleTooLargeNetwork samplePortfolioPage).trace = [] :=
  uploadFiles_failure_keeps_selection sampleTooLargeNetwork samplePortfolioPage
    { innerHTML := "<i class=\"fas fa-upload\"></i> Upload Files", disabled := false }
    (by decide) rfl (Or.inl ⟨rfl, "Server error: 413 - Payload Too Large", rfl⟩)

/-- C13: when an upload ends in success (the portfolio strategy gets a 2xx
response with success=true) or in success or partial failure of the documents
strategy (at least one file succeeds), the run schedules the callback
`closeModal('uploadModal'); clearUploadForm();` after 1000 ms, and that
callback, whenever it runs, leaves `portfolioState.selectedFiles` empty. -/
theorem uploadFiles_success_clears (net : Network) (w : World) (btn : Button)
    (hfiles : w.state.selectedFiles ≠ []) (hbtn : w.dom.uploadBtn = some btn)
    (hsuccess :
      (w.state.uploadDestination = "portfolio" ∧
        (∃ portfolioId, w.dom.uploadPortfolio = some portfolioId ∧ portfolioId ≠ "") ∧
        (net (requests w.trace).length).succeeded = true) ∨
      (w.state.uploadDestination ≠ "portfolio" ∧
        0 < (uploadToDocumentsLoop net (uploadFilesPrepare w)).successCount)) :
    (∃ rest, scheduled (uploadFiles net w).trace
      = scheduled w.trace ++ (TimerAction.closeUploadModalAndClear, 1000) :: rest) ∧
    (∀ later : World, (closeUploadModalAndClear later).state.selectedFiles = []) := by
  refine ⟨?_, fun later => clearUploadForm_selectedFiles _⟩
  obtain ⟨_, hpt, hpsel, _⟩ := uploadFilesPrepare_spec w
  rcases hsuccess with ⟨hdest, ⟨portfolioId, hsel, hne⟩, hs⟩ | ⟨hdest, hpos⟩
  · have hsel2 : (uploadFilesPrepare w).dom.uploadPortfolio = some portfolioId := by
      rw [hpsel, hsel]
    have hs2 : (net (requests (uploadFilesPrepare w).trace).length).succeeded = true := by
      rw [hpt]
      exact hs
    obtain ⟨⟨result, h1⟩, _, _, _, _, h6⟩ :=
      uploadToPortfolio_success net (uploadFilesPrepare w) portfolioId hsel2 hne hs2
    cases hrun : uploadToPortfolio net (uploadFilesPrepare w) with
    | mk w3 r =>
      rw [hrun] at h1 h6
      simp only at h1 h6
      subst h1
      rw [uploadFiles_portfolio_ok net w w3 btn result hfiles hbtn hdest hrun, h6, hpt]
      exact ⟨_, rfl⟩
  · rw [uploadFiles_documents net w btn hfiles hbtn hdest,
      (uploadToDocuments_state net _).2, if_pos hpos, hpt]
    exact ⟨_, rfl⟩

theorem uploadFiles_success_clears_witness :
    (∃ rest, scheduled (uploadFiles sampleNetwork sampleDocumentsPage).trace
      = (TimerAction.closeUploadModalAndClear, 1000) :: rest) ∧
    (closeUploadModalAndClear (uploadFiles sampleNetwork sampleDocumentsPage)).state.selectedFiles
      = [] :=
  ⟨(uploadFiles_success_clears sampleNetwork sampleDocumentsPage
      { innerHTML := "<i class=\"fas fa-upload\"></i> Upload Files", disabled := false }
      (by decide) rfl (Or.inr ⟨by decide, by decide⟩)).1,
   (uploadFiles_success_clears sampleNetwork sampleDocumentsPage
      { innerHTML := "<i class=\"fas fa-upload\"></i> Upload Files", disabled := false }
      (by decide) rfl (Or.inr ⟨by decide, by decide⟩)).2 _⟩

/-- C18: closing the upload modal with `closeModal('uploadModal')`, the modal
element being in the document, leaves `portfolioState.selectedFiles` empty
whatever it held before; `closeModal` with any other id leaves
`portfolioState` unchanged. -/
theorem closeModal_uploadModal_clears (w : World) :
    ((∃ active, ("uploadModal", active) ∈ w.dom.modals) →
      (closeModal "uploadModal" w).state.selectedFiles = []) ∧
    (∀ modalId, modalId ≠ "uploadModal" → (closeModal modalId w).state = w.state) := by
  constructor
  · rintro ⟨active, hmem⟩
    have hany : w.dom.modals.any (fun m => m.1 == "uploadModal") = true := by
      rw [List.any_eq_true]
      exact ⟨_, hmem, by simp⟩
    unfold closeModal
    rw [if_pos hany]
    simp only [if_true]
    exact clearUploadForm_selectedFiles _
  · intro modalId hne
    unfold closeModal
    split
    · simp only [hne, if_false]
    · rfl

theorem closeModal_uploadModal_clears_witness :
    sampleModalPage.state.selectedFiles.length = 3 ∧
    (closeModal "uploadModal" sampleModalPage).state.selectedFiles = [] ∧
    (closeModal "createPortfolioModal" sampleModalPage).state = sampleModalPage.state :=
  ⟨by decide,
   (closeModal_uploadModal_clears sampleModalPage).1 ⟨true, by decide⟩,
   (closeModal_uploadModal_clears sampleModalPage).2 "createPortfolioModal" (by decide)⟩

/-! ## Page initialization (C14, C15) -/

theorem runSetup_spec (env : InitEnv) (routines : List SetupRoutine) :
    ∀ w : World, runSetup env routines w
      = ({ w with setupCalls := w.setupCalls ++ routines }, none) := by
  induction routines with
  | nil => intro w; simp [runSetup]
  | cons routine rest ih =>
    intro w
    simp [runSetup, callSetup, ih]

/-- A call made while one of the two flags is set: only `isDetailsPage` is
written. -/
theorem initPortfolioSystem_guarded (env : InitEnv) (w : World)
    (hflag : w.state.isInitialized = true ∨ w.state.isInitializing = true) :
    initPortfolioSystem env w
      = { w with state := { w.state with
            isDetailsPage := stringIncludes env.pathname "/details/" } } := by
  have hcond : ((detectPageType env w).state.isInitialized
      || (detectPageType env w).state.isInitializing) = true := by
    rcases hflag with h | h <;> simp [detectPageType, h]
  unfold initPortfolioSystem
  simp only [hcond, if_true]
  rfl

/-- A call made with both flags clear. -/
theorem initPortfolioSystem_completes (env : InitEnv) (w : World)
    (hfresh : w.state.isInitialized = false ∧ w.state.isInitializing = false) :
    (initPortfolioSystem env w).setupCalls = w.setupCalls ++ setupRoutines env ∧
    (initPortfolioSystem env w).state.isInitialized = true ∧
    (initPortfolioSystem env w).state.isInitializing = false := by
  unfold initPortfolioSystem
  simp only [detectPageType, hfresh.1, hfresh.2, Bool.or_self, Bool.false_eq_true, if_false]
  rw [runSetup_spec env]
  simp [setupRoutines]

theorem initCalls_of_initialized (envs : List InitEnv) :
    ∀ w : World, w.state.isInitialized = true →
      (initCalls envs w).setupCalls = w.setupCalls ∧
      (initCalls envs w).state.isInitialized = true := by
  induction envs with
  | nil => intro w h; exact ⟨rfl, h⟩
  | cons env rest ih =>
    intro w h
    have hstep := initPortfolioSystem_guarded env w (Or.inl h)
    have hinit : (initPortfolioSystem env w).state.isInitialized = true := by
      rw [hstep]
      exact h
    obtain ⟨h1, h2⟩ := ih (initPortfolioSystem env w) hinit
    simp only [initCalls, List.foldl_cons] at h1 h2 ⊢
    rw [h1, h2, hstep]
    exact ⟨rfl, rfl⟩

/-- Every call of `initPortfolioSystem` leaves in `isDetailsPage` the page
type of its path. -/
theorem initPortfolioSystem_isDetailsPage (env : InitEnv) (w : World) :
    (initPortfolioSystem env w).state.isDetailsPage
      = stringIncludes env.pathname "/details/" := by
  unfold initPortfolioSystem
  simp only [detectPageType]
  split
  · rfl
  · rw [runSetup_spec env]

/-- On a page that is reached within one page load, a flag that is set means
that `detectPageType` has run for the path of the page. -/
theorem reachablePage_isDetailsPage (path : String) (w : World)
    (hreach : ReachablePage path w)
    (hflag : w.state.isInitialized = true ∨ w.state.isInitializing = true) :
    w.state.isDetailsPage = stringIncludes path "/details/" := by
  induction hreach with
  | loaded w hstate =>
    rw [hstate] at hflag
    rcases hflag with h | h <;> cases h
  | returned env w hpath _ _ =>
    rw [initPortfolioSystem_isDetailsPage, hpath]
  | entered env w hpath _ _ _ =>
    rw [← hpath]
    rfl
  | other w after _ h1 h2 h3 ih =>
    rw [h3]
    apply ih
    rw [← h1, ← h2]
    exact hflag

/-- C14: within one page load, every call of `initPortfolioSystem` made while
`portfolioState.isInitialized` or `portfolioState.isInitializing` is true is
a no-op: it leaves the page as it is, so every field of `portfolioState` is
unchanged and none of the setup routines runs.  The pages of one page load
are those of `ReachablePage`: the call runs `detectPageType` before the
guard, and that assignment writes the value that `isDetailsPage` has already,
because a flag is set only after `detectPageType` has run for the same
path. -/
theorem initPortfolioSystem_guarded_call (env : InitEnv) (w : World)
    (hreach : ReachablePage env.pathname w)
    (hflag : w.state.isInitialized = true ∨ w.state.isInitializing = true) :
    initPortfolioSystem env w = w ∧
    (initPortfolioSystem env w).state = w.state ∧
    (initPortfolioSystem env w).setupCalls = w.setupCalls ∧
    (initPortfolioSystem env w).trace = w.trace := by
  have hsame := reachablePage_isDetailsPage env.pathname w hreach hflag
  have hno : initPortfolioSystem env w = w := by
    rw [initPortfolioSystem_guarded env w hflag, ← hsame]
  rw [hno]
  exact ⟨rfl, rfl, rfl, rfl⟩

theorem initPortfolioSystem_guarded_call_witness :
    (initPortfolioSystem sampleDetailsEnv freshPage).state.isInitialized = true ∧
    initPortfolioSystem sampleDetailsEnv (initPortfolioSystem sampleDetailsEnv freshPage)
      = initPortfolioSystem sampleDetailsEnv freshPage ∧
    (initPortfolioSystemEntered sampleDetailsEnv freshPage).state.isInitializing = true ∧
    initPortfolioSystem sampleDetailsEnv (initPortfolioSystemEntered sampleDetailsEnv freshPage)
      = initPortfolioSystemEntered sampleDetailsEnv freshPage :=
  ⟨by decide,
   (initPortfolioSystem_guarded_call sampleDetailsEnv
      (initPortfolioSystem sampleDetailsEnv freshPage)
      (.returned sampleDetailsEnv freshPage rfl (.loaded freshPage rfl))
      (Or.inl (by decide))).1,
   by decide,
   (initPortfolioSystem_guarded_call sampleDetailsEnv
      (initPortfolioSystemEntered sampleDetailsEnv freshPage)
      (.entered sampleDetailsEnv freshPage rfl (.loaded freshPage rfl) ⟨rfl, rfl⟩)
      (Or.inr (by decide))).1⟩

theorem count_setupRoutines (env : InitEnv) (routine : SetupRoutine) :
    (setupRoutines env).count routine ≤ 1 ∧
    (routine ∈ setupRoutines env → (setupRoutines env).count routine = 1) := by
  unfold setupRoutines
  cases stringIncludes env.pathname "/details/" <;> cases routine <;> decide

/-- C15: for every sequence of calls of `initPortfolioSystem`, starting from a
page on which the two flags are clear and no setup routine has run (as with
the initial `portfolioState`), every setup routine is executed at most once.
The first call executes the setup logic (`setupToastSystem`, `setupModals`,
`setupUploadSystem` and the initializer of the page type), each routine
once and in that order, and no later call executes a setup routine; so two
calls in succession execute the setup logic exactly once. -/
theorem initPortfolioSystem_setup_once (envs : List InitEnv) (w : World)
    (hfresh : w.state.isInitialized = false ∧ w.state.isInitializing = false)
    (hnone : w.setupCalls = []) :
    (∀ routine, (initCalls envs w).setupCalls.count routine ≤ 1) ∧
    (∀ env later, envs = env :: later →
      (initPortfolioSystem env w).setupCalls = setupRoutines env ∧
      (initCalls envs w).setupCalls = setupRoutines env ∧
      (∀ routine ∈ setupRoutines env, (initCalls envs w).setupCalls.count routine = 1)) ∧
    (∀ first second, envs = [first, second] →
      (initCalls envs w).setupCalls
        = [.setupToastSystem, .setupModals, .setupUploadSystem,
           if stringIncludes first.pathname "/details/" then .initPortfolioDetailsPage
           else .initPortfolioMainPage]) := by
  have hcons : ∀ env later, envs = env :: later →
      (initPortfolioSystem env w).setupCalls = setupRoutines env ∧
      (initCalls envs w).setupCalls = setupRoutines env := by
    intro env later henvs
    obtain ⟨h1, h2, _⟩ := initPortfolioSystem_completes env w hfresh
    rw [hnone, List.nil_append] at h1
    refine ⟨h1, ?_⟩
    have := (initCalls_of_initialized later (initPortfolioSystem env w) h2).1
    rw [henvs]
    simp only [initCalls, List.foldl_cons] at this ⊢
    rw [this, h1]
  refine ⟨?_, ?_, ?_⟩
  · intro routine
    cases envs with
    | nil => simp [initCalls, hnone]
    | cons env later =>
      rw [(hcons env later rfl).2]
      exact (count_setupRoutines env routine).1
  · intro env later henvs
    refine ⟨(hcons env later henvs).1, (hcons env later henvs).2, ?_⟩
    intro routine hmem
    rw [(hcons env later henvs).2]
    exact (count_setupRoutines env routine).2 hmem
  · intro first second henvs
    rw [(hcons first [second] henvs).2]
    rfl

theorem initPortfolioSystem_setup_once_witness :
    (initCalls [sampleMainEnv, sampleDetailsEnv] freshPage).setupCalls
      = [.setupToastSystem, .setupModals, .setupUploadSystem, .initPortfolioMainPage] ∧
    (initCalls [sampleMainEnv, sampleDetailsEnv] freshPage).setupCalls.count
      .setupUploadSystem = 1 :=
  ⟨((initPortfolioSystem_setup_once [sampleMainEnv, sampleDetailsEnv] freshPage
      ⟨rfl, rfl⟩ rfl).2.1 sampleMainEnv [sampleDetailsEnv] rfl).2.1,
   ((initPortfolioSystem_setup_once [sampleMainEnv, sampleDetailsEnv] freshPage
      ⟨rfl, rfl⟩ rfl).2.1 sampleMainEnv [sampleDetailsEnv] rfl).2.2
      .setupUploadSystem (by decide)⟩

/-! ## The guard of portfolio creation (C16) -/

theorem createPortfolioStart_guarded (w : World) (hflag : w.isCreatingPortfolio = true) :
    createPortfolioStart w = (w, none) := by
  simp [createPortfolioStart, hflag]

/-- An accepted call of `createPortfolio` either returns at once after a
validation error, with the flag clear again, or is suspended at its request
with the flag set. -/
theorem createPortfolioStart_accepted (w : World) (hflag : w.isCreatingPortfolio = false) :
    (∀ w1, createPortfolioStart w = (w1, none) →
      w1.isCreatingPortfolio = false ∧ requests w1.trace = requests w.trace ∧
      scheduled w1.trace = scheduled w.trace ∧
      ∃ message, toasts w1.trace = toasts w.trace ++ [(ToastType.error, message)]) ∧
    (∀ w1 pending, createPortfolioStart w = (w1, some pending) →
      w1.isCreatingPortfolio = true ∧
      (∃ name description type,
        requests w1.trace = requests w.trace ++ [createRequest name description type]) ∧
      scheduled w1.trace = scheduled w.trace ∧ toasts w1.trace = toasts w.trace) := by
  unfold createPortfolioStart
  simp only [hflag, Bool.false_eq_true, if_false]
  cases hname : w.createForm.portfolioName with
  | none =>
    simp [hname, showError, showToast, World.emit, requests_append, requests,
      scheduled_append, scheduled, toasts_append, toasts]
  | some nameValue =>
    cases htype : w.createForm.portfolioType with
    | none =>
      simp [hname, htype, showError, showToast, World.emit, requests_append, requests,
        scheduled_append, scheduled, toasts_append, toasts]
    | some typeValue =>
      by_cases hn : trim nameValue = ""
      · simp [hname, htype, hn, showError, showToast, World.emit, requests_append, requests,
          scheduled_append, scheduled, toasts_append, toasts]
      · by_cases ht : typeValue = ""
        · simp [hname, htype, hn, ht, showError, showToast, World.emit, requests_append,
            requests, scheduled_append, scheduled, toasts_append, toasts]
        · simp only [hname, htype, hn, ht, if_false]
          constructor
          · intro w1 h
            cases h
          · intro w1 pending h
            simp only [Prod.mk.injEq] at h
            obtain ⟨h1, _⟩ := h
            subst h1
            refine ⟨rfl, ⟨trim nameValue,
              (match w.createForm.portfolioDescription with
                | some value => trim value
                | none => ""), typeValue, ?_⟩, ?_, ?_⟩
            · simp [World.emit, requests_append, requests]
            · simp [World.emit, scheduled_append, scheduled]
            · simp [World.emit, toasts_append, toasts]

theorem closeModal_other (modalId : String) (hne : modalId ≠ "uploadModal") (w : World) :
    (closeModal modalId w).trace = w.trace ∧
    (closeModal modalId w).isCreatingPortfolio = w.isCreatingPortfolio ∧
    (closeModal modalId w).createForm = w.createForm ∧
    (closeModal modalId w).state = w.state := by
  unfold closeModal
  split
  · simp [hne]
  · exact ⟨rfl, rfl, rfl, rfl⟩

/-- The second half of `createPortfolio`: whatever the outcome, the flag is
left as it was, and the last thing scheduled is its reset after 2000 ms. -/
theorem createPortfolioResume_spec (pending : CreatePending) (outcome : FetchOutcome)
    (w : World) :
    (createPortfolioResume pending outcome w).isCreatingPortfolio = w.isCreatingPortfolio ∧
    requests (createPortfolioResume pending outcome w).trace = requests w.trace ∧
    scheduled (createPortfolioResume pending outcome w).trace
      = scheduled w.trace
        ++ (if outcome.succeeded then [(TimerAction.reloadPage, 1500)] else [])
        ++ [(TimerAction.resetCreatingFlag, 2000)] := by
  have hcm := closeModal_other "createPortfolioModal" (by decide)
  unfold createPortfolioResume
  cases outcome with
  | rejected message =>
    simp [showError, showToast, setTimeout, World.emit, requests_append, requests,
      scheduled_append, scheduled, FetchOutcome.succeeded]
  | response status text json =>
    cases json with
    | threw message =>
      cases hok : FetchOutcome.ok status <;>
        simp [showError, showToast, setTimeout, World.emit, requests_append, requests,
          scheduled_append, scheduled, FetchOutcome.succeeded, hok]
    | null message =>
      cases hok : FetchOutcome.ok status <;>
        simp [showError, showToast, setTimeout, World.emit, requests_append, requests,
          scheduled_append, scheduled, FetchOutcome.succeeded, hok]
    | value body =>
      cases hok : FetchOutcome.ok status <;> cases hb : body.success <;>
        simp [showError, showSuccess, showToast, setTimeout, World.emit, requests_append,
          requests, scheduled_append, scheduled, FetchOutcome.succeeded, hok, hb,
          (hcm _).1, (hcm _).2.1]

/-- C16, as stated, fails: an attempt that is stopped by the form validation
completes with the flag already clear and with no timer scheduled, so a call
made right after it is accepted: it shows its own error, and it sends a
request once the name is filled in. -/
theorem createPortfolio_guard_counterexample :
    (createPortfolio sampleAcceptingNetwork sampleEmptyCreatePage).isCreatingPortfolio = false ∧
    scheduled (createPortfolio sampleAcceptingNetwork sampleEmptyCreatePage).trace = [] ∧
    toasts (createPortfolio sampleAcceptingNetwork
        (createPortfolio sampleAcceptingNetwork sampleEmptyCreatePage)).trace
      = [(ToastType.error, "Please enter portfolio name"),
         (ToastType.error, "Please enter portfolio name")] ∧
    requests (createPortfolio sampleAcceptingNetwork
        { createPortfolio sampleAcceptingNetwork sampleEmptyCreatePage with
          createForm := sampleCreatePage.createForm }).trace
      = [createRequest "Thesis" "Drafts and figures" "PERSONAL"] := by
  decide

/-- C16, amended: `createPortfolio` has a single in-flight guard.  A call made
while `isCreatingPortfolio` is true issues no request and changes nothing.  An
accepted call that passes the form validation sets the flag and sends its
request; when the request settles, whatever the outcome, the flag is still set
and the last thing scheduled is its reset after 2000 ms, which is the only
thing that clears it.  An accepted call that fails the form validation clears
the flag before it returns and schedules nothing, so the next call is accepted
at once. -/
theorem createPortfolio_guard (net : Network) (w : World) :
    (w.isCreatingPortfolio = true →
      createPortfolioStart w = (w, none) ∧ createPortfolio net w = w) ∧
    (∀ w1 pending, w.isCreatingPortfolio = false →
      createPortfolioStart w = (w1, some pending) →
      w1.isCreatingPortfolio = true ∧
      (∃ request, requests w1.trace = requests w.trace ++ [request]) ∧
      ∀ outcome,
        (createPortfolioResume pending outcome w1).isCreatingPortfolio = true ∧
        requests (createPortfolioResume pending outcome w1).trace = requests w1.trace ∧
        ∃ earlier, scheduled (createPortfolioResume pending outcome w1).trace
            = scheduled w.trace ++ earlier ++ [(TimerAction.resetCreatingFlag, 2000)] ∧
          ∀ timer ∈ earlier, timer.1 ≠ TimerAction.resetCreatingFlag) ∧
    (∀ w1, w.isCreatingPortfolio = false → createPortfolioStart w = (w1, none) →
      w1.isCreatingPortfolio = false ∧ requests w1.trace = requests w.trace ∧
      scheduled w1.trace = scheduled w.trace) ∧
    (∀ later : World, (resetCreatingFlag later).isCreatingPortfolio = false) := by
  refine ⟨?_, ?_, ?_, fun _ => rfl⟩
  · intro hflag
    have hs := createPortfolioStart_guarded w hflag
    exact ⟨hs, by simp [createPortfolio, hs]⟩
  · intro w1 pending hflag hstart
    obtain ⟨h1, ⟨name, description, type, h2⟩, h3, _⟩ :=
      (createPortfolioStart_accepted w hflag).2 w1 pending hstart
    refine ⟨h1, ⟨_, h2⟩, fun outcome => ?_⟩
    obtain ⟨r1, r2, r3⟩ := createPortfolioResume_spec pending outcome w1
    refine ⟨r1.trans h1, r2,
      (if outcome.succeeded then [(TimerAction.reloadPage, 1500)] else []), ?_, ?_⟩
    · rw [r3, h3]
    · intro timer hmem
      split at hmem
      · simp only [List.mem_singleton] at hmem
        rw [hmem]
        decide
      · cases hmem
  · intro w1 hflag hstart
    obtain ⟨h1, h2, h3, _⟩ := (createPortfolioStart_accepted w hflag).1 w1 hstart
    exact ⟨h1, h2, h3⟩

theorem createPortfolio_guard_witness :
    createPortfolio sampleAcceptingNetwork
        (createPortfolioStart sampleCreatePage).1 = (createPortfolioStart sampleCreatePage).1 ∧
    (createPortfolioStart sampleCreatePage).1.isCreatingPortfolio = true :=
  ⟨((createPortfolio_guard sampleAcceptingNetwork (createPortfolioStart sampleCreatePage).1).1
      (by decide)).2,
   ((createPortfolio_guard sampleAcceptingNetwork sampleCreatePage).2.1
      (createPortfolioStart sampleCreatePage).1 { originalText := "Create" } (by decide)
      (by decide)).1⟩

/-! ## Toasts (C17) -/

/-- With toast A showing, 1000 ms after its call, the call of `showToast` for B
takes the class `show` off A at once; B carries it 10 ms later, and 300 ms
after the call B is the only toast element in the document. -/
theorem showToast_while_showing :
    (ToastPage.elapse 1000 (ToastPage.showToast "A" .info 5000 ToastPage.empty)).visible
      = [{ id := 0, type := .info, message := "A", shown := true }] ∧
    (ToastPage.showToast "B" .info 5000
      (ToastPage.elapse 1000 (ToastPage.showToast "A" .info 5000 ToastPage.empty))).visible = [] ∧
    (ToastPage.elapse 10 (ToastPage.showToast "B" .info 5000
      (ToastPage.elapse 1000 (ToastPage.showToast "A" .info 5000 ToastPage.empty)))).visible
      = [{ id := 1, type := .info, message := "B", shown := true }] ∧
    (ToastPage.elapse 300 (ToastPage.showToast "B" .info 5000
      (ToastPage.elapse 1000 (ToastPage.showToast "A" .info 5000 ToastPage.empty)))).toasts
      = [{ id := 1, type := .info, message := "B", shown := true }] := by
  decide

/-- C17, at the failing input: the run of `uploadFiles` on the documents page
with two accepted files and one refused file calls `showToast` three times
without the clock moving in between.  Each call takes the class `show` off the
earlier toasts, which do not carry it yet, and leaves their 10 ms timers
pending; 10 ms later the three toasts all carry the class `show`, and they do
so until the two earlier ones are removed 300 ms after the calls.  From then
on the last toast is the only one in the document. -/
theorem showToast_same_tick_all_visible :
    toasts (uploadFiles sampleNetwork sampleDocumentsPage).trace
      = [(.success, "Successfully uploaded 2 file(s) to documents"),
         (.error, "photo.png: HTTP 500"),
         (.warning, "1 file(s) failed to upload")] ∧
    (ToastPage.showAll (toasts (uploadFiles sampleNetwork sampleDocumentsPage).trace)
      ToastPage.empty).visible = [] ∧
    ((ToastPage.elapse 10 (ToastPage.showAll
      (toasts (uploadFiles sampleNetwork sampleDocumentsPage).trace) ToastPage.empty)).visible.map
        (fun t => t.message))
      = ["Successfully uploaded 2 file(s) to documents", "photo.png: HTTP 500",
         "1 file(s) failed to upload"] ∧
    (ToastPage.elapse 299 (ToastPage.showAll
      (toasts (uploadFiles sampleNetwork sampleDocumentsPage).trace)
        ToastPage.empty)).visible.length = 3 ∧
    (ToastPage.elapse 300 (ToastPage.showAll
      (toasts (uploadFiles sampleNetwork sampleDocumentsPage).trace) ToastPage.empty)).toasts
      = [{ id := 2, type := .warning, message := "1 file(s) failed to upload", shown := true }] := by
  decide

/-! ## Headers of the mutating requests (C20) -/

/-- The requests that a run of `uploadFiles` sends are the one request of the
portfolio destination or the requests of the documents destination. -/
theorem uploadFiles_requests (net : Network) (w : World) :
    ∃ sent, requests (uploadFiles net w).trace = requests w.trace ++ sent ∧
      ∀ r ∈ sent, (∃ portfolioId, r = portfolioRequest w portfolioId) ∨
        (∃ file, r = documentRequest (selectedCategory w) file) := by
  by_cases hfiles : w.state.selectedFiles = []
  · exact ⟨[], by simp [uploadFiles, hfiles, showError, showToast, World.emit, requests_append,
      requests], by simp⟩
  · cases hbtn : w.dom.uploadBtn with
    | none =>
      have hlen : ¬ w.state.selectedFiles.length = 0 := by
        intro h
        exact hfiles (List.length_eq_zero.1 h)
      exact ⟨[], by simp [uploadFiles, hlen, hbtn], by simp⟩
    | some btn =>
      have hprep := uploadFilesPrepare_spec w
      have hpr : ∀ portfolioId,
          portfolioRequest (uploadFilesPrepare w) portfolioId = portfolioRequest w portfolioId := by
        intro portfolioId
        simp [portfolioRequest, hprep.1]
      by_cases hdest : w.state.uploadDestination = "portfolio"
      · have hsent : ∃ sent, requests (uploadToPortfolio net (uploadFilesPrepare w)).1.trace
            = requests w.trace ++ sent ∧
            ∀ r ∈ sent, ∃ portfolioId, r = portfolioRequest w portfolioId := by
          cases hsel : w.dom.uploadPortfolio with
          | none =>
            rw [uploadToPortfolio_unselected net _ (Or.inl (hprep.2.2.1.trans hsel))]
            exact ⟨[], by simp [showError, showToast, World.emit, requests_append, requests,
              hprep.2.1], by simp⟩
          | some portfolioId =>
            by_cases hne : portfolioId = ""
            · rw [uploadToPortfolio_unselected net _
                (Or.inr (by rw [hprep.2.2.1, hsel, hne]))]
              exact ⟨[], by simp [showError, showToast, World.emit, requests_append, requests,
                hprep.2.1], by simp⟩
            · have hsel2 : (uploadFilesPrepare w).dom.uploadPortfolio = some portfolioId :=
                hprep.2.2.1.trans hsel
              refine ⟨[portfolioRequest w portfolioId], ?_, ?_⟩
              · cases hs : (net (requests (uploadFilesPrepare w).trace).length).succeeded with
                | false =>
                  rw [(uploadToPortfolio_failure net _ portfolioId hsel2 hne hs).2.2.2.1,
                    hprep.2.1, hpr]
                | true =>
                  rw [(uploadToPortfolio_success net _ portfolioId hsel2 hne hs).2.2.1,
                    hprep.2.1, hpr]
              · intro r hr
                exact ⟨portfolioId, List.mem_singleton.1 hr⟩
        obtain ⟨sent, hreq, hshape⟩ := hsent
        refine ⟨sent, ?_, fun r hr => Or.inl (hshape r hr)⟩
        cases hrun : uploadToPortfolio net (uploadFilesPrepare w) with
        | mk w3 result =>
          rw [hrun] at hreq
          cases result with
          | error message =>
            rw [uploadFiles_portfolio_error net w w3 btn message hfiles hbtn hdest hrun,
              (uploadFilesCatch_spec _ _ _).2.1, requests_append]
            simpa [requests] using hreq
          | ok result =>
            rw [uploadFiles_portfolio_ok net w w3 btn result hfiles hbtn hdest hrun]
            exact hreq
      · refine ⟨(uploadFilesPrepare w).state.selectedFiles.map
          (documentRequest (selectedCategory (uploadFilesPrepare w))), ?_, ?_⟩
        · rw [uploadFiles_documents net w btn hfiles hbtn hdest]
          unfold uploadToDocuments uploadToDocumentsLoop
          rw [uploadToDocumentsReport_trace, requests_append, requests_reportEvents,
            (uploadLoop_spec net _ _ _ 0 _).1, requests_append, requests_flatMap_stepEvents,
            hprep.2.1]
          simp
        · intro r hr
          obtain ⟨file, _, hfile⟩ := List.mem_map.1 hr
          refine Or.inr ⟨file, ?_⟩
          rw [← hfile]
          simp [selectedCategory, hprep.2.2.2.1]

/-- A run of `createPortfolio` sends at most the one request built from the
form. -/
theorem createPortfolio_requests (net : Network) (w : World) :
    ∃ sent, requests (createPortfolio net w).trace = requests w.trace ++ sent ∧
      ∀ r ∈ sent, ∃ name description type, r = createRequest name description type := by
  cases hflag : w.isCreatingPortfolio with
  | true =>
    refine ⟨[], ?_, by simp⟩
    simp [createPortfolio, createPortfolioStart_guarded w hflag]
  | false =>
    have hacc := createPortfolioStart_accepted w hflag
    cases hstart : createPortfolioStart w with
    | mk w1 suspended =>
      cases suspended with
      | none =>
        refine ⟨[], ?_, by simp⟩
        simp [createPortfolio, hstart, (hacc.1 w1 hstart).2.1]
      | some pending =>
        obtain ⟨name, description, type, hreq⟩ := (hacc.2 w1 pending hstart).2.1
        refine ⟨[createRequest name description type], ?_, ?_⟩
        · simp only [createPortfolio, hstart]
          rw [(createPortfolioResume_spec _ _ _).2.1, hreq]
        · intro r hr
          exact ⟨name, description, type, List.mem_singleton.1 hr⟩

/-- A run of `deletePortfolio` sends one request when the id is truthy and the
user confirms, and none otherwise. -/
theorem deletePortfolio_requests (net : Network) (confirm : String → Bool)
    (portfolioId : Option String) (event : Option ClickEvent) (w : World) :
    ∃ sent, requests (deletePortfolio net confirm portfolioId event w).1.trace
        = requests w.trace ++ sent ∧
      (sent = [] ∨ sent = [deletePortfolioRequest (interpolate portfolioId)]) := by
  unfold deletePortfolio
  cases hid : truthy portfolioId with
  | false =>
    exact ⟨[], by simp [showError, showToast, World.emit, requests_append, requests],
      Or.inl rfl⟩
  | true =>
    simp only [Bool.not_true, Bool.false_eq_true, if_false]
    split
    · exact ⟨[], by simp, Or.inl rfl⟩
    · refine ⟨[deletePortfolioRequest (interpolate portfolioId)], ?_, Or.inr rfl⟩
      simp only [fetch]
      cases net (requests w.trace).length with
      | rejected message =>
        simp [showError, showToast, World.emit, requests_append, requests]
      | response status text json =>
        cases json with
        | threw message =>
          cases hok : FetchOutcome.ok status <;>
            simp [showError, showToast, World.emit, requests_append, requests, hok]
        | null message =>
          cases hok : FetchOutcome.ok status <;>
            simp [showError, showToast, World.emit, requests_append, requests, hok]
        | value body =>
          cases hok : FetchOutcome.ok status <;> cases hb : body.success <;>
            cases hcard : event.bind (fun e =>
              if e.button.isSome && e.detachedBySpinner then none else e.card) <;>
            simp [showError, showSuccess, showToast, setTimeout, World.emit, requests_append,
              requests, hcard, hok, hb]

/-- A run of `deleteItem` sends one request when the user confirms, and none
otherwise. -/
theorem deleteItem_requests (net : Network) (confirm : String → Bool) (itemId : Option String)
    (w : World) :
    ∃ sent, requests (deleteItem net confirm itemId w).trace = requests w.trace ++ sent ∧
      (sent = [] ∨ sent = [deleteItemRequest (interpolate itemId)]) := by
  unfold deleteItem
  split
  · exact ⟨[], by simp, Or.inl rfl⟩
  · refine ⟨[deleteItemRequest (interpolate itemId)], ?_, Or.inr rfl⟩
    simp only [fetch]
    cases net (requests w.trace).length with
    | rejected message => simp [World.emit, requests_append, requests]
    | response status text json =>
      cases json with
      | threw message =>
        cases hok : FetchOutcome.ok status <;> simp [World.emit, requests_append, requests, hok]
      | null message =>
        cases hok : FetchOutcome.ok status <;> simp [World.emit, requests_append, requests, hok]
      | value body =>
        cases hok : FetchOutcome.ok status <;> cases hb : body.success <;>
          simp [World.emit, requests_append, requests, hok, hb]

/-- A run of `deleteDocument` of `portfolio.js` sends one request when the user
confirms, and none otherwise. -/
theorem deleteDocument_requests (net : Network) (confirm : String → Bool)
    (documentId : Option String) (w : World) :
    ∃ sent, requests (deleteDocument net confirm documentId w).trace = requests w.trace ++ sent ∧
      (sent = [] ∨ sent = [deleteDocumentRequest (interpolate documentId)]) := by
  unfold deleteDocument
  split
  · exact ⟨[], by simp, Or.inl rfl⟩
  · refine ⟨[deleteDocumentRequest (interpolate documentId)], ?_, Or.inr rfl⟩
    simp only [fetch]
    cases net (requests w.trace).length with
    | rejected message => simp [showError, showToast, World.emit, requests_append, requests]
    | response status text json =>
      cases json with
      | threw message =>
        cases hok : FetchOutcome.ok status <;>
          simp [showError, showToast, World.emit, requests_append, requests, hok]
      | null message =>
        cases hok : FetchOutcome.ok status <;>
          simp [showError, showToast, World.emit, requests_append, requests, hok]
      | value body =>
        cases hok : FetchOutcome.ok status <;> cases hb : body.success <;>
          simp [showError, showSuccess, showToast, World.emit, requests_append, requests, hok,
            hb]

/-- A run of `deleteDocument` of `document.js` sends one request when the user
confirms, and none otherwise. -/
theorem documentJs_deleteDocument_requests (net : Network) (confirm : String → Bool)
    (documentId : Option String) (w : World) :
    ∃ sent, requests (DocumentJs.deleteDocument net confirm documentId w).trace
        = requests w.trace ++ sent ∧
      (sent = [] ∨ sent = [deleteDocumentRequest (interpolate documentId)]) := by
  unfold DocumentJs.deleteDocument
  split
  · exact ⟨[], by simp, Or.inl rfl⟩
  · refine ⟨[deleteDocumentRequest (interpolate documentId)], ?_, Or.inr rfl⟩
    simp only [fetch]
    cases net (requests w.trace).length with
    | rejected message => simp [showError, showToast, World.emit, requests_append, requests]
    | response status text json =>
      cases json with
      | threw message => simp [showError, showToast, World.emit, requests_append, requests]
      | null message => simp [showError, showToast, World.emit, requests_append, requests]
      | value body =>
        cases hb : body.success <;>
          simp [showError, showSuccess, showToast, World.emit, requests_append, requests, hb]

theorem sentBetween_of_append (before after : World) (sent : List Request)
    (h : requests after.trace = requests before.trace ++ sent) :
    sentBetween before after = sent := by
  simp [sentBetween, h]

/-- C20, as stated, fails: on a page whose metadata holds a CSRF header name
and token, each of the six mutating requests is sent, and none of them carries
the pair. -/
theorem mutating_requests_csrf_counterexample :
    sampleCsrfPage.dom.csrfHeaderMeta = some "X-CSRF-TOKEN" ∧
    sampleCsrfPage.dom.csrfMeta = some "5f1d2c9a-77aa-4c0e-9b1e-2f6d8e0a4b13" ∧
    (requests (uploadFiles sampleAcceptingNetwork sampleCsrfPage).trace).map
        (fun r => (r.method, r.url, r.headers, carriesCsrf sampleCsrfPage.dom r))
      = [("POST", "/portfolio/upload", [], false)] ∧
    (requests (uploadFiles sampleAcceptingNetwork
        { sampleCsrfPage with state := sampleDocumentsPage.state }).trace).map
        (fun r => (r.method, r.url, r.headers, carriesCsrf sampleCsrfPage.dom r))
      = [("POST", "/portfolio/api/upload-to-documents", [], false),
         ("POST", "/portfolio/api/upload-to-documents", [], false),
         ("POST", "/portfolio/api/upload-to-documents", [], false)] ∧
    (requests (createPortfolio sampleAcceptingNetwork sampleCsrfPage).trace).map
        (fun r => (r.method, r.url, r.headers, carriesCsrf sampleCsrfPage.dom r))
      = [("POST", "/portfolio/create",
          [("Content-Type", "application/x-www-form-urlencoded")], false)] ∧
    (requests (deletePortfolio sampleAcceptingNetwork confirmAll (some "12") (some sampleClick)
        sampleCsrfPage).1.trace).map
        (fun r => (r.method, r.url, r.headers, carriesCsrf sampleCsrfPage.dom r))
      = [("DELETE", "/portfolio/12", [("Accept", "application/json")], false)] ∧
    (requests (deleteItem sampleAcceptingNetwork confirmAll (some "31") sampleCsrfPage).trace).map
        (fun r => (r.method, r.url, r.headers, carriesCsrf sampleCsrfPage.dom r))
      = [("DELETE", "/portfolio/delete-item/31", [("Accept", "application/json")], false)] ∧
    (requests (deleteDocument sampleAcceptingNetwork confirmAll (some "8")
        sampleCsrfPage).trace).map
        (fun r => (r.method, r.url, r.headers, carriesCsrf sampleCsrfPage.dom r))
      = [("DELETE", "/portfolio/api/delete-document/8", [], false)] ∧
    (requests (DocumentJs.deleteDocument sampleAcceptingNetwork confirmAll (some "8")
        sampleCsrfPage).trace).map
        (fun r => (r.method, r.url, r.headers, carriesCsrf sampleCsrfPage.dom r))
      = [("DELETE", "/portfolio/api/delete-document/8", [], false)] := by
  refine ⟨rfl, rfl, ?_, ?_, ?_, ?_, ?_, ?_, ?_⟩ <;> decide

/-- C20, amended: no mutating request of `portfolio.js` and `document.js`
carries a CSRF header or token, and the page metadata is not read.  Every
request that a run of `uploadFiles` sends is a POST without headers, to
`/portfolio/upload` with the fields `file`, `portfolioId` and `folderId` only
or to `/portfolio/api/upload-to-documents` with the fields `file` and
`category`; the request of `createPortfolio` is a POST to `/portfolio/create`
with the fields `name`, `description` and `type` whose only header is
`Content-Type`; the requests of `deletePortfolio` and `deleteItem` are a
DELETE of `/portfolio/{id}` and of `/portfolio/delete-item/{id}` without body
whose only header is `Accept`; the request of `deleteDocument`, in either
file, is a DELETE of `/portfolio/api/delete-document/{id}` without body and
without headers. -/
theorem mutating_requests_headers (net : Network) (confirm : String → Bool)
    (id : Option String) (event : Option ClickEvent) (w : World) :
    (requests (uploadFiles net w).trace = requests w.trace ++ sentBetween w (uploadFiles net w) ∧
      ∀ r ∈ sentBetween w (uploadFiles net w), r.method = "POST" ∧ r.headers = [] ∧
        ((r.url = "/portfolio/upload" ∧
            ∀ entry ∈ r.body, entry.1 ∈ ["file", "portfolioId", "folderId"]) ∨
          (r.url = "/portfolio/api/upload-to-documents" ∧
            r.body.map Prod.fst = ["file", "category"]))) ∧
    (requests (createPortfolio net w).trace
        = requests w.trace ++ sentBetween w (createPortfolio net w) ∧
      ∀ r ∈ sentBetween w (createPortfolio net w), r.method = "POST" ∧
        r.url = "/portfolio/create" ∧
        r.headers = [("Content-Type", "application/x-www-form-urlencoded")] ∧
        r.body.map Prod.fst = ["name", "description", "type"]) ∧
    (requests (deletePortfolio net confirm id event w).1.trace
        = requests w.trace ++ sentBetween w (deletePortfolio net confirm id event w).1 ∧
      ∀ r ∈ sentBetween w (deletePortfolio net confirm id event w).1,
        r = { method := "DELETE", url := "/portfolio/" ++ interpolate id, body := [],
              headers := [("Accept", "application/json")] }) ∧
    (requests (deleteItem net confirm id w).trace
        = requests w.trace ++ sentBetween w (deleteItem net confirm id w) ∧
      ∀ r ∈ sentBetween w (deleteItem net confirm id w),
        r = { method := "DELETE", url := "/portfolio/delete-item/" ++ interpolate id, body := [],
              headers := [("Accept", "application/json")] }) ∧
    (requests (deleteDocument net confirm id w).trace
        = requests w.trace ++ sentBetween w (deleteDocument net confirm id w) ∧
      ∀ r ∈ sentBetween w (deleteDocument net confirm id w),
        r = { method := "DELETE", url := "/portfolio/api/delete-document/" ++ interpolate id,
              body := [], headers := [] }) ∧
    (requests (DocumentJs.deleteDocument net confirm id w).trace
        = requests w.trace ++ sentBetween w (DocumentJs.deleteDocument net confirm id w) ∧
      ∀ r ∈ sentBetween w (DocumentJs.deleteDocument net confirm id w),
        r = { method := "DELETE", url := "/portfolio/api/delete-document/" ++ interpolate id,
              body := [], headers := [] }) := by
  refine ⟨?_, ?_, ?_, ?_, ?_, ?_⟩
  · obtain ⟨sent, heq, hshape⟩ := uploadFiles_requests net w
    rw [sentBetween_of_append _ _ sent heq]
    refine ⟨heq, fun r hr => ?_⟩
    rcases hshape r hr with ⟨portfolioId, h⟩ | ⟨file, h⟩
    · subst h
      refine ⟨rfl, rfl, Or.inl ⟨rfl, ?_⟩⟩
      intro entry hentry
      simp only [portfolioRequest, List.mem_append, List.mem_map, List.mem_singleton] at hentry
      rcases hentry with (⟨f, _, hf⟩ | hp) | hfolder
      · rw [← hf]
        simp
      · rw [hp]
        simp
      · split at hfolder
        · rw [List.mem_singleton.1 hfolder]
          simp
        · cases hfolder
    · subst h
      exact ⟨rfl, rfl, Or.inr ⟨rfl, rfl⟩⟩
  · obtain ⟨sent, heq, hshape⟩ := createPortfolio_requests net w
    rw [sentBetween_of_append _ _ sent heq]
    refine ⟨heq, fun r hr => ?_⟩
    obtain ⟨name, description, type, h⟩ := hshape r hr
    subst h
    exact ⟨rfl, rfl, rfl, rfl⟩
  · obtain ⟨sent, heq, hshape⟩ := deletePortfolio_requests net confirm id event w
    rw [sentBetween_of_append _ _ sent heq]
    refine ⟨heq, fun r hr => ?_⟩
    rcases hshape with h | h
    · rw [h] at hr
      cases hr
    · rw [h] at hr
      exact List.mem_singleton.1 hr
  · obtain ⟨sent, heq, hshape⟩ := deleteItem_requests net confirm id w
    rw [sentBetween_of_append _ _ sent heq]
    refine ⟨heq, fun r hr => ?_⟩
    rcases hshape with h | h
    · rw [h] at hr
      cases hr
    · rw [h] at hr
      exact List.mem_singleton.1 hr
  · obtain ⟨sent, heq, hshape⟩ := deleteDocument_requests net confirm id w
    rw [sentBetween_of_append _ _ sent heq]
    refine ⟨heq, fun r hr => ?_⟩
    rcases hshape with h | h
    · rw [h] at hr
      cases hr
    · rw [h] at hr
      exact List.mem_singleton.1 hr
  · obtain ⟨sent, heq, hshape⟩ := documentJs_deleteDocument_requests net confirm id w
    rw [sentBetween_of_append _ _ sent heq]
    refine ⟨heq, fun r hr => ?_⟩
    rcases hshape with h | h
    · rw [h] at hr
      cases hr
    · rw [h] at hr
      exact List.mem_singleton.1 hr

theorem mutating_requests_headers_witness :
    (createRequest "Thesis" "Drafts and figures" "PERSONAL").headers
      = [("Content-Type", "application/x-www-form-urlencoded")] ∧
    deletePortfolioRequest "12"
      = { method := "DELETE", url := "/portfolio/12", body := [],
          headers := [("Accept", "application/json")] } :=
  ⟨((mutating_requests_headers sampleAcceptingNetwork confirmAll (some "12") (some sampleClick)
      sampleCsrfPage).2.1.2 (createRequest "Thesis" "Drafts and figures" "PERSONAL")
      (by decide)).2.2.1,
   (mutating_requests_headers sampleAcceptingNetwork confirmAll (some "12") (some sampleClick)
      sampleCsrfPage).2.2.1.2 (deletePortfolioRequest "12") (by decide)⟩

/-! ## The search of the documents list (C19) -/

theorem includesChars_iff_substring (s sub : List Char) :
    includesChars s sub = true ↔ sub <:+: s := by
  induction s with
  | nil => simp [includesChars]
  | cons c cs ih =>
    rw [includesChars, Bool.or_eq_true, ih, List.infix_cons_iff]
    simp

/-- Without a capital sigma, lower-casing maps the characters one by one. -/
theorem lowerFrom_of_no_sigma (cs : List Char) (h : 'Σ' ∉ cs) :
    ∀ before, Unicode.lowerFrom before cs = cs.map Unicode.lowerChar := by
  induction cs with
  | nil => intro before; rfl
  | cons c cs ih =>
    intro before
    have hc : c ≠ 'Σ' := fun e => h (by simp [e])
    have hcs : 'Σ' ∉ cs := fun e => h (by simp [e])
    simp [Unicode.lowerFrom, hc, ih hcs]

theorem lowerChar_eq_amp (c : Char) (h : Unicode.lowerChar c = '&') : c = '&' := by
  unfold Unicode.lowerChar at h
  split at h
  · rename_i hrange
    exfalso
    generalize c.toNat = n at h hrange
    rcases hrange with ⟨h1, h2⟩ | ⟨h1, h2⟩ <;> interval_cases n <;> exact absurd h (by decide)
  · unfold Char.toLower at h
    simp only [ge_iff_le] at h
    split at h
    · rename_i hrange
      exfalso
      generalize c.toNat = n at h hrange
      obtain ⟨h1, h2⟩ := hrange
      interval_cases n <;> exact absurd h (by decide)
    · exact h

theorem escapeChar_no_sigma (c : Char) (h : c ≠ 'Σ') : 'Σ' ∉ escapeChar c := by
  unfold escapeChar
  split_ifs <;> first | decide | simpa using h.symm

theorem escapeHtml_no_sigma (cs : List Char) (h : 'Σ' ∉ cs) : 'Σ' ∉ cs.flatMap escapeChar := by
  intro hmem
  obtain ⟨c, hc, hin⟩ := List.mem_flatMap.1 hmem
  exact escapeChar_no_sigma c (fun e => h (e ▸ hc)) hin

/-- Reading the attribute gives back the lower-cased text, when the text was
escaped and then lower-cased character by character. -/
theorem decodeFrom_escaped (cs : List Char) :
    decodeFrom 0 ((cs.flatMap escapeChar).map Unicode.lowerChar) = cs.map Unicode.lowerChar := by
  induction cs with
  | nil => rfl
  | cons c cs ih =>
    rw [List.flatMap_cons, List.map_append, List.map_cons]
    by_cases h1 : c = '&'
    · subst h1
      simp [escapeChar, Unicode.lowerChar, decodeFrom, characterReference, List.isPrefixOf, ih]
    by_cases h2 : c = '<'
    · subst h2
      simp [escapeChar, Unicode.lowerChar, decodeFrom, characterReference, List.isPrefixOf, ih]
    by_cases h3 : c = '>'
    · subst h3
      simp [escapeChar, Unicode.lowerChar, decodeFrom, characterReference, List.isPrefixOf, ih]
    by_cases h4 : c = '"'
    · subst h4
      simp [escapeChar, Unicode.lowerChar, decodeFrom, characterReference, List.isPrefixOf, ih]
    by_cases h5 : c = '\''
    · subst h5
      simp [escapeChar, Unicode.lowerChar, decodeFrom, characterReference, List.isPrefixOf, ih]
    · have hne : ¬ '&' = Unicode.lowerChar c := fun e => h1 (lowerChar_eq_amp c e.symm)
      simp [escapeChar, h1, h2, h3, h4, h5, decodeFrom, characterReference, List.isPrefixOf, hne,
        ih]

/-- The attribute `data-name` of a rendered card is the lower-cased name, for
a name without a capital sigma. -/
theorem dataName_of_no_sigma (name : String) (h : 'Σ' ∉ name.data) :
    decodeAttribute (Unicode.toLowerCase (escapeHtml name)).data
      = (Unicode.toLowerCase name).data := by
  simp only [decodeAttribute, Unicode.toLowerCase, escapeHtml]
  rw [lowerFrom_of_no_sigma _ (escapeHtml_no_sigma _ h), lowerFrom_of_no_sigma _ h,
    decodeFrom_escaped]

/-- For documents whose names hold no capital sigma, `searchDocuments` shows
the card of a document when the lower-cased name contains the lower-cased
search term as a substring, and hides it otherwise.  The names and the
search term are texts of ASCII characters and Greek letters, on which the
model of `toLowerCase()` is exact. -/
theorem searchDocuments_of_no_sigma (documents : List Document) (term : String)
    (h : ∀ doc ∈ documents, 'Σ' ∉ doc.name.data)
    (_hnames : ∀ doc ∈ documents, doc.name.data.all Unicode.covered = true)
    (_hterm : term.data.all Unicode.covered = true) :
    (searchDocuments (typeSearchTerm term (renderDocuments documents))).cards.map
        (fun card => card.display)
      = documents.map (fun doc =>
          if (Unicode.toLowerCase term).data <:+: (Unicode.toLowerCase doc.name).data then "flex"
          else "none") := by
  have hterm : orElse (some (Unicode.toLowerCase term)) "" = Unicode.toLowerCase term := by
    unfold orElse
    by_cases he : Unicode.toLowerCase term = ""
    · simp [he]
    · simp [he]
  simp only [searchDocuments, typeSearchTerm, renderDocuments, Option.map_some', hterm,
    List.map_map]
  apply List.map_congr_left
  intro doc hdoc
  simp only [Function.comp, stringIncludes, dataName_of_no_sigma doc.name (h doc hdoc)]
  by_cases hin : includesChars (Unicode.toLowerCase doc.name).data (Unicode.toLowerCase term).data
      = true
  · simp [hin, (includesChars_iff_substring _ _).1 hin]
  · have hnot : ¬ (Unicode.toLowerCase term).data <:+: (Unicode.toLowerCase doc.name).data :=
      fun e => hin ((includesChars_iff_substring _ _).2 e)
    simp [hin, hnot]

theorem searchDocuments_of_no_sigma_witness :
    (searchDocuments (typeSearchTerm "report" (renderDocuments sampleDocuments))).cards.map
        (fun card => card.display) = ["flex", "none"] :=
  (searchDocuments_of_no_sigma sampleDocuments "report" (by decide) (by decide)
    (by decide)).trans (by decide)

/-- C19, at the failing input: the document is named `ΑΣ'Α.pdf` and the search
term is `σ'α`.  The lower-cased name is `ασ'α.pdf` and contains the lower-cased
term, so the claim has the card shown.  The card is hidden: `renderDocuments`
lower-cases the escaped name, in which the sigma stands before `&#039;` and
so becomes a final sigma, and the attribute `data-name` reads `ας'α.pdf`.  On
the example of the claim, the documents `Report.pdf` and `invoice.pdf` and
the term `report`, the first card is shown and the second is hidden. -/
theorem searchDocuments_final_sigma :
    Unicode.toLowerCase "ΑΣ'Α.pdf" = "ασ'α.pdf" ∧
    Unicode.toLowerCase "σ'α" = "σ'α" ∧
    stringIncludes (Unicode.toLowerCase "ΑΣ'Α.pdf") (Unicode.toLowerCase "σ'α") = true ∧
    Unicode.toLowerCase (escapeHtml "ΑΣ'Α.pdf") = "ας&#039;α.pdf" ∧
    (searchDocuments (typeSearchTerm "σ'α" (renderDocuments sampleGreekDocuments))).cards
      = [{ dataCategory := "personal", dataName := "ας'α.pdf", display := "none" }] ∧
    (searchDocuments (typeSearchTerm "report" (renderDocuments sampleDocuments))).cards
      = [{ dataCategory := "work", dataName := "report.pdf", display := "flex" },
         { dataCategory := "personal", dataName := "invoice.pdf", display := "none" }] := by
  refine ⟨?_, ?_, ?_, ?_, ?_, ?_⟩ <;> decide

/-! ## Toasts: a call of `showToast` when no earlier toast waits for its class `show` -/

theorem mem_insertTimer (timer x : ToastTimer) (timers : List ToastTimer) :
    x ∈ ToastPage.insertTimer timer timers ↔ x = timer ∨ x ∈ timers := by
  induction timers with
  | nil => simp [ToastPage.insertTimer]
  | cons next rest ih =>
    unfold ToastPage.insertTimer
    split
    · simp
    · simp only [List.mem_cons, ih]
      tauto

theorem setShown_spec (id : Nat) (value : Bool) (p : ToastPage) :
    (ToastPage.setShown id value p).timers = p.timers ∧
    (ToastPage.setShown id value p).created = p.created ∧
    (ToastPage.setShown id value p).now = p.now ∧
    (ToastPage.setShown id value p).toasts.map (fun t => t.id) = p.toasts.map (fun t => t.id) ∧
    (∀ t ∈ (ToastPage.setShown id value p).toasts, t.shown = true →
      (t.id = id ∧ value = true) ∨ ∃ u ∈ p.toasts, u.id = t.id ∧ u.shown = true) := by
  refine ⟨rfl, rfl, rfl, ?_, ?_⟩
  · simp only [ToastPage.setShown, List.map_map]
    apply List.map_congr_left
    intro t _
    simp only [Function.comp]
    split <;> rfl
  · intro t ht hshown
    simp only [ToastPage.setShown, List.mem_map] at ht
    obtain ⟨u, hu, hut⟩ := ht
    by_cases hid : u.id = id
    · rw [if_pos hid] at hut
      subst hut
      exact Or.inl ⟨hid, hshown⟩
    · rw [if_neg hid] at hut
      subst hut
      exact Or.inr ⟨u, hu, rfl, hshown⟩

theorem setTimeout_spec (callback : ToastCallback) (delay : Nat) (p : ToastPage) :
    (ToastPage.setTimeout callback delay p).toasts = p.toasts ∧
    (ToastPage.setTimeout callback delay p).created = p.created ∧
    (ToastPage.setTimeout callback delay p).now = p.now ∧
    (∀ timer, timer ∈ (ToastPage.setTimeout callback delay p).timers ↔
      timer = { due := p.now + delay, callback := callback } ∨ timer ∈ p.timers) := by
  refine ⟨rfl, rfl, rfl, fun timer => ?_⟩
  simp [ToastPage.setTimeout, mem_insertTimer]

/-- Running a timer keeps the property that only `b` can be visible. -/
theorem onlyVisible_run (b : Nat) (callback : ToastCallback) (p : ToastPage)
    (h : p.OnlyVisible b)
    (hcb : ∀ id, callback = .addShow id → id = b ∨ ∀ t ∈ p.toasts, t.id ≠ id) :
    (ToastPage.run callback p).OnlyVisible b := by
  obtain ⟨h1, h2, h3⟩ := h
  have hids : ∀ (id : Nat) (value : Bool) (q : ToastPage),
      (∀ t ∈ (ToastPage.setShown id value q).toasts, ∃ u ∈ q.toasts, u.id = t.id) := by
    intro id value q t ht
    simp only [ToastPage.setShown, List.mem_map] at ht
    obtain ⟨u, hu, hut⟩ := ht
    refine ⟨u, hu, ?_⟩
    rw [← hut]
    split <;> rfl
  have hfilter : ∀ (id : Nat) (value : Bool) (q : ToastPage),
      ((ToastPage.setShown id value q).toasts.filter (fun t => t.id == b)).length
        = (q.toasts.filter (fun t => t.id == b)).length := by
    intro id value q
    simp only [ToastPage.setShown, List.filter_map, List.length_map]
    congr 1
    apply List.filter_congr
    intro t _
    simp only [Function.comp]
    split <;> rfl
  cases callback with
  | addShow id =>
    refine ⟨?_, ?_, ?_⟩
    · intro t ht hshown
      rcases (setShown_spec id true p).2.2.2.2 t ht hshown with ⟨hid, _⟩ | ⟨u, hu, hut, hus⟩
      · rcases hcb id rfl with hb | habsent
        · rw [hid, hb]
        · obtain ⟨u, hu, hut⟩ := hids id true p t ht
          exact absurd (hut.trans hid) (habsent u hu)
      · rw [← hut]
        exact h1 u hu hus
    · simp only [ToastPage.run]
      rw [hfilter]
      exact h2
    · intro timer htimer id2 hcb2
      rcases h3 timer htimer id2 hcb2 with hb | habsent
      · exact Or.inl hb
      · refine Or.inr (fun t ht => ?_)
        obtain ⟨u, hu, hut⟩ := hids id true p t ht
        rw [← hut]
        exact habsent u hu
  | remove id =>
    refine ⟨?_, ?_, ?_⟩
    · intro t ht hshown
      simp only [ToastPage.run, List.mem_filter] at ht
      exact h1 t ht.1 hshown
    · simp only [ToastPage.run, List.filter_filter]
      refine le_trans ?_ h2
      apply List.Sublist.length_le
      apply List.monotone_filter_right
      intro t ht
      simp only [Bool.and_eq_true] at ht
      exact ht.1
    · intro timer htimer id2 hcb2
      rcases h3 timer htimer id2 hcb2 with hb | habsent
      · exact Or.inl hb
      · refine Or.inr (fun t ht => ?_)
        simp only [ToastPage.run, List.mem_filter] at ht
        exact habsent t ht.1
  | dismiss id =>
    refine ⟨?_, ?_, ?_⟩
    · intro t ht hshown
      rcases (setShown_spec id false p).2.2.2.2 t ht hshown with ⟨_, hfalse⟩ | ⟨u, hu, hut, hus⟩
      · cases hfalse
      · rw [← hut]
        exact h1 u hu hus
    · simp only [ToastPage.run, (setTimeout_spec _ _ _).1]
      rw [hfilter]
      exact h2
    · intro timer htimer id2 hcb2
      simp only [ToastPage.run] at htimer
      rcases ((setTimeout_spec _ _ _).2.2.2 timer).1 htimer with hnew | hold
      · rw [hnew] at hcb2
        cases hcb2
      · rcases h3 timer hold id2 hcb2 with hb | habsent
        · exact Or.inl hb
        · refine Or.inr (fun t ht => ?_)
          obtain ⟨u, hu, hut⟩ := hids id false p t ht
          rw [← hut]
          exact habsent u hu

theorem onlyVisible_congr (b : Nat) (p q : ToastPage) (htoasts : q.toasts = p.toasts)
    (htimers : q.timers = p.timers) (h : p.OnlyVisible b) : q.OnlyVisible b := by
  unfold ToastPage.OnlyVisible at h ⊢
  rw [htoasts, htimers]
  exact h

/-- The passing of time keeps the property that only `b` can be visible. -/
theorem onlyVisible_advance (b : Nat) (fuel target : Nat) :
    ∀ p : ToastPage, p.OnlyVisible b → (ToastPage.advance fuel target p).OnlyVisible b := by
  induction fuel with
  | zero =>
    intro p h
    exact h
  | succ fuel ih =>
    intro p h
    unfold ToastPage.advance
    cases htimers : p.timers with
    | nil => exact onlyVisible_congr b p _ rfl htimers.symm h
    | cons timer rest =>
      simp only []
      split
      · apply ih
        apply onlyVisible_run
        · refine ⟨h.1, h.2.1, fun x hx id hid => ?_⟩
          exact h.2.2 x (by rw [htimers]; exact List.mem_cons_of_mem _ hx) id hid
        · intro id hid
          exact h.2.2 timer (by rw [htimers]; exact List.mem_cons_self _ _) id hid
      · exact onlyVisible_congr b p _ rfl htimers.symm h

/-- The dismissal of the existing toasts at the start of `showToast`: no toast
carries the class `show` afterwards, the toasts keep their ids, and the timers
added remove toasts. -/
theorem dismissExisting_spec (existing : List ToastElement) :
    ∀ p : ToastPage,
    let q := existing.foldl (fun page t =>
      ToastPage.setTimeout (.remove t.id) 300 (ToastPage.setShown t.id false page)) p
    q.created = p.created ∧ q.now = p.now ∧
    q.toasts.map (fun t => t.id) = p.toasts.map (fun t => t.id) ∧
    (∀ t ∈ q.toasts, t.shown = true →
      (∀ e ∈ existing, e.id ≠ t.id) ∧ ∃ u ∈ p.toasts, u.id = t.id ∧ u.shown = true) ∧
    (∀ timer ∈ q.timers, timer ∈ p.timers ∨ ∃ id, timer.callback = .remove id) := by
  induction existing with
  | nil =>
    intro p
    refine ⟨rfl, rfl, rfl, fun t ht hs => ⟨by simp, t, ht, rfl, hs⟩, fun timer h => Or.inl h⟩
  | cons e rest ih =>
    intro p
    simp only [List.foldl_cons]
    obtain ⟨h1, h2, h3, h4, h5⟩ :=
      ih (ToastPage.setTimeout (.remove e.id) 300 (ToastPage.setShown e.id false p))
    have hset := setShown_spec e.id false p
    have htime := setTimeout_spec (.remove e.id) 300 (ToastPage.setShown e.id false p)
    refine ⟨?_, ?_, ?_, ?_, ?_⟩
    · rw [h1, htime.2.1, hset.2.1]
    · rw [h2, htime.2.2.1, hset.2.2.1]
    · rw [h3, htime.1, hset.2.2.2.1]
    · intro t ht hs
      obtain ⟨hrest, u, hu, hut, hus⟩ := h4 t ht hs
      rw [htime.1] at hu
      rcases hset.2.2.2.2 u hu hus with ⟨_, hfalse⟩ | ⟨v, hv, hvu, hvs⟩
      · cases hfalse
      · refine ⟨?_, v, hv, hvu.trans hut, hvs⟩
        intro x hx
        rcases List.mem_cons.1 hx with hxe | hxr
        · subst hxe
          intro hid
          simp only [ToastPage.setShown, List.mem_map] at hu
          obtain ⟨w, hw, hwu⟩ := hu
          by_cases hwid : w.id = x.id
          · rw [if_pos hwid] at hwu
            rw [← hwu] at hus
            cases hus
          · rw [if_neg hwid] at hwu
            rw [hwu] at hwid
            exact hwid (hut.trans hid.symm)
        · exact hrest x hxr
    · intro timer htimer
      rcases h5 timer htimer with hmem | hremove
      · rcases (htime.2.2.2 timer).1 hmem with hnew | hold
        · exact Or.inr ⟨e.id, by rw [hnew]⟩
        · rw [hset.1] at hold
          exact Or.inl hold
      · exact Or.inr hremove

theorem filter_length_le_of_imp (toasts : List ToastElement) (f g : ToastElement → Bool)
    (h : ∀ t ∈ toasts, f t = true → g t = true) :
    (toasts.filter f).length ≤ (toasts.filter g).length := by
  induction toasts with
  | nil => simp
  | cons t rest ih =>
    have hrest := ih (fun u hu => h u (List.mem_cons_of_mem _ hu))
    have ht := h t (List.mem_cons_self _ _)
    cases hf : f t <;> cases hg : g t <;> simp [List.filter_cons, hf, hg] <;>
      first | omega | (rw [hf] at ht; simp [hg] at ht)

/-- After a call of `showToast` on a page where no toast of the document still
waits for its class `show`, only the new toast can be visible. -/
theorem onlyVisible_showToast (message : String) (type : ToastType) (duration : Nat)
    (p : ToastPage) (hfresh : ∀ t ∈ p.toasts, t.id < p.created)
    (hsettled : ∀ timer ∈ p.timers, ∀ id, timer.callback = .addShow id →
      ∀ t ∈ p.toasts, t.id ≠ id) :
    (ToastPage.showToast message type duration p).OnlyVisible p.created := by
  obtain ⟨h1, _, h3, h4, h5⟩ := dismissExisting_spec p.toasts p
  have hids : ∀ t ∈ (p.toasts.foldl (fun page t =>
      ToastPage.setTimeout (.remove t.id) 300 (ToastPage.setShown t.id false page)) p).toasts,
      ∃ u ∈ p.toasts, u.id = t.id := by
    intro t ht
    have hmem : t.id ∈ (p.toasts.foldl (fun page t =>
        ToastPage.setTimeout (.remove t.id) 300
          (ToastPage.setShown t.id false page)) p).toasts.map (fun t => t.id) :=
      List.mem_map.2 ⟨t, ht, rfl⟩
    rw [h3] at hmem
    obtain ⟨u, hu, hut⟩ := List.mem_map.1 hmem
    exact ⟨u, hu, hut⟩
  unfold ToastPage.showToast
  refine ⟨?_, ?_, ?_⟩
  · intro t ht hshown
    simp only [(setTimeout_spec _ _ _).1, List.mem_append, List.mem_singleton] at ht
    rcases ht with hold | hnew
    · obtain ⟨hnone, u, hu, hut, _⟩ := h4 t hold hshown
      exact absurd hut (hnone u hu)
    · rw [hnew] at hshown
      cases hshown
  · simp only [(setTimeout_spec _ _ _).1, List.filter_append]
    have hnone : (p.toasts.foldl (fun page t =>
        ToastPage.setTimeout (.remove t.id) 300
          (ToastPage.setShown t.id false page)) p).toasts.filter
          (fun t => t.id == p.created) = [] := by
      rw [List.filter_eq_nil_iff]
      intro t ht
      obtain ⟨u, hu, hut⟩ := hids t ht
      have := hfresh u hu
      simp only [beq_iff_eq]
      omega
    rw [h1, hnone]
    simp
  · intro timer htimer id hcb
    rcases ((setTimeout_spec _ _ _).2.2.2 timer).1 htimer with hnew | hmem
    · rw [hnew] at hcb
      cases hcb
    · rcases ((setTimeout_spec _ _ _).2.2.2 timer).1 hmem with hnew | hmem2
      · rw [hnew] at hcb
        simp only [ToastCallback.addShow.injEq] at hcb
        exact Or.inl (hcb.symm.trans h1)
      · by_cases hb : id = p.created
        · exact Or.inl hb
        · refine Or.inr (fun t ht => ?_)
          simp only [(setTimeout_spec _ _ _).1, List.mem_append, List.mem_singleton] at ht
          rcases h5 timer hmem2 with hp | ⟨rid, hr⟩
          · rcases ht with hold | hnew
            · obtain ⟨u, hu, hut⟩ := hids t hold
              rw [← hut]
              exact hsettled timer hp id hcb u hu
            · rw [hnew]
              simp only [h1]
              exact fun e => hb e.symm
          · rw [hr] at hcb
            cases hcb

/-- When `showToast` is called on a page where no toast of the document still
waits for its class `show` (every toast there is at least 10 ms old), then at
every later moment, until the next call, at most one toast carries the class
`show`, and it is the new toast. -/
theorem showToast_at_most_one_visible (message : String) (type : ToastType) (duration : Nat)
    (p : ToastPage) (hfresh : ∀ t ∈ p.toasts, t.id < p.created)
    (hsettled : ∀ timer ∈ p.timers, ∀ id, timer.callback = .addShow id →
      ∀ t ∈ p.toasts, t.id ≠ id)
    (fuel target : Nat) :
    (ToastPage.advance fuel target
      (ToastPage.showToast message type duration p)).visible.length ≤ 1 ∧
    ∀ t ∈ (ToastPage.advance fuel target
      (ToastPage.showToast message type duration p)).visible, t.id = p.created := by
  obtain ⟨h1, h2, _⟩ := onlyVisible_advance p.created fuel target _
    (onlyVisible_showToast message type duration p hfresh hsettled)
  refine ⟨le_trans ?_ h2, ?_⟩
  · unfold ToastPage.visible
    apply filter_length_le_of_imp
    intro t ht hshown
    rw [beq_iff_eq]
    exact h1 t ht hshown
  · intro t ht
    simp only [ToastPage.visible, List.mem_filter] at ht
    exact h1 t ht.1 ht.2

theorem showToast_at_most_one_visible_witness :
    (ToastPage.elapse 10 (ToastPage.showToast "B" .info 5000
      (ToastPage.elapse 1000
        (ToastPage.showToast "A" .info 5000 ToastPage.empty)))).visible.length ≤ 1 :=
  (showToast_at_most_one_visible "B" .info 5000
    (ToastPage.elapse 1000 (ToastPage.showToast "A" .info 5000 ToastPage.empty))
    (by decide)
    (by
      intro timer htimer id hcb
      have htimers : (ToastPage.elapse 1000
          (ToastPage.showToast "A" .info 5000 ToastPage.empty)).timers
            = [{ due := 5000, callback := .dismiss 0 }] := by decide
      rw [htimers, List.mem_singleton] at htimer
      rw [htimer] at hcb
      cases hcb)
    _ _).1

/-! ## A file name without a dot (C28) -/

/-- C28: for a file whose name contains no dot, `validateFile` takes the whole
lower-cased name as the extension; such a file, within the size limit and not
a video, is accepted exactly when its lower-cased name is one of the 14
allow-listed extensions without the dot, so files named `pdf` and `ZIP` are
accepted. -/
theorem validateFile_name_without_dot (file : File)
    (hsize : file.size ≤ 50 * 1024 * 1024)
    (htype : ¬ "video/".data <+: file.type.data)
    (hdot : '.' ∉ file.name.data) :
    fileExtension file.name = "." ++ toLowerCase file.name ∧
    ((validateFile file).valid = true ↔
      toLowerCase file.name ∈
        ["pdf", "doc", "docx", "xls", "xlsx", "ppt", "pptx", "jpg", "jpeg", "png", "gif",
         "txt", "zip", "rar"]) ∧
    (validateFile { name := "pdf", size := file.size, type := file.type }).valid = true ∧
    (validateFile { name := "ZIP", size := file.size, type := file.type }).valid = true := by
  have hs : startsWith file.type "video/" = false := by
    rw [Bool.eq_false_iff]
    exact fun e => htype ((startsWith_iff _ _).1 e)
  have hsz : ¬ file.size > maxSize := by
    simp only [maxSize]
    omega
  have hext : fileExtension file.name = "." ++ toLowerCase file.name := by
    simp only [fileExtension, splitDot_of_no_dot _ hdot, pop]
  refine ⟨hext, ?_, ?_, ?_⟩
  · have hin := includes_dot_append (toLowerCase file.name)
    rw [← hext] at hin
    change _ ↔ toLowerCase file.name ∈ allowedNames
    rw [← hin]
    cases hinc : includes allowedExtensions (fileExtension file.name) <;>
      simp [validateFile, hsz, hs, hinc]
  · have hin : includes allowedExtensions (fileExtension "pdf") = true := by decide
    simp [validateFile, hsz, hs, hin]
  · have hin : includes allowedExtensions (fileExtension "ZIP") = true := by decide
    simp [validateFile, hsz, hs, hin]

theorem validateFile_name_without_dot_witness :
    (validateFile { name := "Jpeg", size := 1024, type := "" }).valid = true ∧
    (validateFile { name := "README", size := 1024, type := "text/plain" }).valid = false :=
  ⟨((validateFile_name_without_dot { name := "Jpeg", size := 1024, type := "" }
      (by decide) (by decide) (by decide)).2.1).2 (by decide),
   by
    have h := (validateFile_name_without_dot
      { name := "README", size := 1024, type := "text/plain" }
      (by decide) (by decide) (by decide)).2.1
    cases hv : (validateFile { name := "README", size := 1024, type := "text/plain" }).valid
    · rfl
    · exact absurd (h.1 hv) (by decide)⟩

/-! ## The request and the progress reports of `uploadToPortfolio` (C24, C25) -/

theorem files_portfolioRequest (w : World) (portfolioId : String) :
    (portfolioRequest w portfolioId).files = w.state.selectedFiles := by
  have hfiles : ∀ files : List File,
      (files.map (fun f => ("file", FormValue.file f))).filterMap (fun entry =>
        match entry.2 with
        | .file f => some f
        | .text _ => none) = files := by
    intro files
    induction files with
    | nil => rfl
    | cons f fs ih => simp [List.filterMap_cons, ih]
  unfold Request.files portfolioRequest
  simp only [List.filterMap_append, hfiles]
  split <;> simp [List.filterMap_cons]

theorem texts_portfolioRequest (w : World) (portfolioId : String) :
    (portfolioRequest w portfolioId).texts "portfolioId" = [portfolioId] ∧
    (portfolioRequest w portfolioId).texts "folderId"
      = (if w.state.isDetailsPage && truthy w.state.currentFolderId then
          [interpolate w.state.currentFolderId] else []) := by
  have hfiles : ∀ (name : String) (files : List File),
      (files.map (fun f => ("file", FormValue.file f))).filterMap (fun entry =>
        match entry.2 with
        | .text s => if entry.1 = name then some s else none
        | .file _ => none) = [] := by
    intro name files
    induction files with
    | nil => rfl
    | cons f fs ih => simp [List.filterMap_cons, ih]
  unfold Request.texts portfolioRequest
  simp only [List.filterMap_append, hfiles]
  constructor
  · split <;> simp [List.filterMap_cons]
  · split <;> simp [List.filterMap_cons]

/-- A run of `uploadToPortfolio` sends one request when a portfolio is
selected, and none otherwise. -/
theorem uploadToPortfolio_requests (net : Network) (w : World) :
    requests (uploadToPortfolio net w).1.trace
      = requests w.trace ++
        (match w.dom.uploadPortfolio with
          | some portfolioId => if portfolioId = "" then [] else [portfolioRequest w portfolioId]
          | none => []) := by
  cases hsel : w.dom.uploadPortfolio with
  | none =>
    rw [uploadToPortfolio_unselected net w (Or.inl hsel)]
    simp [showError, showToast, World.emit, requests_append, requests]
  | some portfolioId =>
    by_cases hne : portfolioId = ""
    · rw [uploadToPortfolio_unselected net w (Or.inr (by rw [hsel, hne]))]
      simp [showError, showToast, World.emit, requests_append, requests, hne]
    · simp only [hne, if_false]
      cases hs : (net (requests w.trace).length).succeeded with
      | false => exact (uploadToPortfolio_failure net w portfolioId hsel hne hs).2.2.2.1
      | true => exact (uploadToPortfolio_success net w portfolioId hsel hne hs).2.2.1

/-- C24: with a portfolio selected, `uploadToPortfolio` sends a single request,
a POST to `/portfolio/upload`; its form data holds every file of
`selectedFiles` once and in selection order, the selected portfolio id, and
the folder id exactly when `isDetailsPage` is true and `currentFolderId` is
set; it holds no folder id otherwise. -/
theorem uploadToPortfolio_request_contents (net : Network) (w : World) (portfolioId : String)
    (hsel : w.dom.uploadPortfolio = some portfolioId) (hne : portfolioId ≠ "") :
    ∃ request, requests (uploadToPortfolio net w).1.trace = requests w.trace ++ [request] ∧
      request.method = "POST" ∧ request.url = "/portfolio/upload" ∧
      request.files = w.state.selectedFiles ∧
      request.texts "portfolioId" = [portfolioId] ∧
      (w.state.isDetailsPage = true → truthy w.state.currentFolderId = true →
        request.texts "folderId" = [interpolate w.state.currentFolderId]) ∧
      (¬ (w.state.isDetailsPage = true ∧ truthy w.state.currentFolderId = true) →
        request.texts "folderId" = []) ∧
      request.body.length = w.state.selectedFiles.length + 1
        + (request.texts "folderId").length := by
  refine ⟨portfolioRequest w portfolioId, ?_, rfl, rfl, files_portfolioRequest w portfolioId,
    (texts_portfolioRequest w portfolioId).1, ?_, ?_, ?_⟩
  · rw [uploadToPortfolio_requests, hsel]
    simp [hne]
  · intro hd hf
    rw [(texts_portfolioRequest w portfolioId).2]
    simp [hd, hf]
  · intro hnot
    rw [(texts_portfolioRequest w portfolioId).2]
    by_cases hd : w.state.isDetailsPage = true
    · have hf : ¬ truthy w.state.currentFolderId = true := fun hf => hnot ⟨hd, hf⟩
      simp [hd, hf]
    · simp [hd]
  · rw [(texts_portfolioRequest w portfolioId).2]
    unfold portfolioRequest
    split <;> simp

theorem uploadToPortfolio_request_contents_witness :
    (requests (uploadToPortfolio sampleAcceptingNetwork samplePortfolioPage).1.trace).map
        (fun request => (request.files, request.texts "portfolioId", request.texts "folderId"))
      = [(samplePortfolioPage.state.selectedFiles, ["12"], [])] := by
  obtain ⟨request, h1, _, _, h4, h5, _, h7, _⟩ :=
    uploadToPortfolio_request_contents sampleAcceptingNetwork samplePortfolioPage "12" rfl
      (by decide)
  have hold : requests samplePortfolioPage.trace = [] := rfl
  rw [h1, hold]
  simp [h4, h5, h7 (by decide)]

/-- The progress reports of a run of `uploadToPortfolio` that fails after its
request: the first two checkpoints, the third when a body was parsed, and the
reset to 0. -/
theorem uploadToPortfolio_failure_progress (net : Network) (w : World) (portfolioId : String)
    (hsel : w.dom.uploadPortfolio = some portfolioId) (hne : portfolioId ≠ "")
    (hfail : (net (requests w.trace).length).succeeded = false) :
    ∃ middle, progressReports (uploadToPortfolio net w).1.trace
        = progressReports w.trace ++ [(10, "Preparing upload..."),
            (30, "Uploading files to server...")] ++ middle ++ [(0, "Upload failed")] ∧
      (middle = [] ∨ middle = [(70, "Processing files...")]) := by
  have hreq : (requests (updateUploadProgress 30 "Uploading files to server..."
      (updateUploadProgress 10 "Preparing upload..." w)).trace).length
        = (requests w.trace).length := by
    simp [updateUploadProgress, requests_append, requests]
  unfold uploadToPortfolio
  simp only [hsel, hne, if_false, fetch, hreq]
  cases hout : net (requests w.trace).length with
  | rejected message =>
    exact ⟨[], by simp [World.emit, updateUploadProgress, progressReports_append,
      progressReports], Or.inl rfl⟩
  | response status text json =>
    cases json with
    | threw message =>
      refine ⟨[], ?_, Or.inl rfl⟩
      cases hok : FetchOutcome.ok status <;>
        simp [World.emit, updateUploadProgress, progressReports_append, progressReports, hok]
    | null message =>
      cases hok : FetchOutcome.ok status with
      | false =>
        exact ⟨[], by simp [World.emit, updateUploadProgress, progressReports_append,
          progressReports, hok], Or.inl rfl⟩
      | true =>
        exact ⟨[(70, "Processing files...")], by simp [World.emit, updateUploadProgress,
          progressReports_append, progressReports, hok], Or.inr rfl⟩
    | value body =>
      cases hok : FetchOutcome.ok status with
      | false =>
        exact ⟨[], by simp [World.emit, updateUploadProgress, progressReports_append,
          progressReports, hok], Or.inl rfl⟩
      | true =>
        cases hb : body.success with
        | false =>
          exact ⟨[(70, "Processing files...")], by simp [World.emit, updateUploadProgress,
            progressReports_append, progressReports, hok, hb], Or.inr rfl⟩
        | true =>
          rw [hout] at hfail
          simp [FetchOutcome.succeeded, hok, hb] at hfail

/-- A run of `uploadToPortfolio` whose response is 2xx with the body `null`:
the body is parsed, so the third checkpoint is reported, and reading
`result.success` throws, so the progress is reset and the function throws. -/
theorem uploadToPortfolio_null_body :
    progressReports (uploadToPortfolio sampleNullNetwork samplePortfolioPage).1.trace
      = progressReports samplePortfolioPage.trace
        ++ [(10, "Preparing upload..."), (30, "Uploading files to server..."),
            (70, "Processing files..."), (0, "Upload failed")] ∧
    (uploadToPortfolio sampleNullNetwork samplePortfolioPage).2
      = .error "Cannot read properties of null (reading 'success')" := by
  constructor
  · decide
  · rfl

/-- C25: a run of `uploadToPortfolio` that succeeds reports progress at the
four checkpoints 10, 30, 70, 100, in that order and nothing else, whatever the
selected files are, and so does the run of `uploadFiles` around it; a run of
`uploadToPortfolio` reports 100 only when a portfolio is selected and the
response is 2xx with success=true. -/
theorem uploadToPortfolio_checkpoints (net : Network) (w : World) :
    (∀ portfolioId, w.dom.uploadPortfolio = some portfolioId → portfolioId ≠ "" →
      (net (requests w.trace).length).succeeded = true →
      progressReports (uploadToPortfolio net w).1.trace
        = progressReports w.trace ++ [(10, "Preparing upload..."),
            (30, "Uploading files to server..."), (70, "Processing files..."),
            (100, "Upload complete!")]) ∧
    (∀ portfolioId btn, w.dom.uploadPortfolio = some portfolioId → portfolioId ≠ "" →
      (net (requests w.trace).length).succeeded = true →
      w.state.selectedFiles ≠ [] → w.dom.uploadBtn = some btn →
      w.state.uploadDestination = "portfolio" →
      progressReports (uploadFiles net w).trace
        = progressReports w.trace ++ [(10, "Preparing upload..."),
            (30, "Uploading files to server..."), (70, "Processing files..."),
            (100, "Upload complete!")]) ∧
    (∀ message, (100, message) ∈ (progressReports (uploadToPortfolio net w).1.trace).drop
        (progressReports w.trace).length →
      (∃ portfolioId, w.dom.uploadPortfolio = some portfolioId ∧ portfolioId ≠ "") ∧
      (net (requests w.trace).length).succeeded = true) := by
  refine ⟨?_, ?_, ?_⟩
  · intro portfolioId hsel hne hsucc
    exact (uploadToPortfolio_success net w portfolioId hsel hne hsucc).2.2.2.1
  · intro portfolioId btn hsel hne hsucc hfiles hbtn hdest
    have hprep := uploadFilesPrepare_spec w
    have hsel2 : (uploadFilesPrepare w).dom.uploadPortfolio = some portfolioId :=
      hprep.2.2.1.trans hsel
    have hsucc2 : (net (requests (uploadFilesPrepare w).trace).length).succeeded = true := by
      rw [hprep.2.1]
      exact hsucc
    obtain ⟨⟨result, hres⟩, _, _, hprog, _⟩ :=
      uploadToPortfolio_success net (uploadFilesPrepare w) portfolioId hsel2 hne hsucc2
    cases hrun : uploadToPortfolio net (uploadFilesPrepare w) with
    | mk w3 r =>
      rw [hrun] at hres hprog
      simp only at hres
      subst hres
      rw [uploadFiles_portfolio_ok net w w3 btn result hfiles hbtn hdest hrun, hprog, hprep.2.1]
  · intro message hmem
    cases hsel : w.dom.uploadPortfolio with
    | none =>
      rw [uploadToPortfolio_unselected net w (Or.inl hsel)] at hmem
      simp [showError, showToast, World.emit, progressReports_append, progressReports] at hmem
    | some portfolioId =>
      by_cases hne : portfolioId = ""
      · rw [uploadToPortfolio_unselected net w (Or.inr (by rw [hsel, hne]))] at hmem
        simp [showError, showToast, World.emit, progressReports_append, progressReports] at hmem
      · refine ⟨⟨portfolioId, rfl, hne⟩, ?_⟩
        cases hs : (net (requests w.trace).length).succeeded with
        | true => rfl
        | false =>
          exfalso
          obtain ⟨middle, hprog, hmid⟩ :=
            uploadToPortfolio_failure_progress net w portfolioId hsel hne hs
          rw [hprog] at hmem
          rcases hmid with h | h <;> subst h <;> simp at hmem

theorem uploadToPortfolio_checkpoints_witness :
    (progressReports (uploadFiles sampleAcceptingNetwork samplePortfolioPage).trace).map
        (fun report => report.1) = [10, 30, 70, 100] := by
  have h := (uploadToPortfolio_checkpoints sampleAcceptingNetwork samplePortfolioPage).2.1 "12"
    { innerHTML := "<i class=\"fas fa-upload\"></i> Upload Files", disabled := false }
    rfl (by decide) (by decide) (by decide) rfl rfl
  rw [h]
  rfl

/-! ## The documents destination when every file fails (C26) -/

/-- The parts of the document that the upload form and the modal consist of,
apart from the progress elements. -/
theorem updateUploadProgress_form (percent : Nat) (message : String) (w : World) :
    (updateUploadProgress percent message w).dom.uploadBtn = w.dom.uploadBtn ∧
    (updateUploadProgress percent message w).dom.modals = w.dom.modals ∧
    (updateUploadProgress percent message w).dom.uploadPreview = w.dom.uploadPreview ∧
    (updateUploadProgress percent message w).dom.fileInput = w.dom.fileInput ∧
    (updateUploadProgress percent message w).dom.documentsActive = w.dom.documentsActive :=
  ⟨rfl, rfl, rfl, rfl, rfl⟩

theorem uploadStep_form (net : Network) (category : String) (total i : Nat) (file : File)
    (s : LoopState) :
    (uploadStep net category total i file s).world.dom.uploadBtn = s.world.dom.uploadBtn ∧
    (uploadStep net category total i file s).world.dom.modals = s.world.dom.modals ∧
    (uploadStep net category total i file s).world.dom.uploadPreview
      = s.world.dom.uploadPreview ∧
    (uploadStep net category total i file s).world.dom.fileInput = s.world.dom.fileInput := by
  simp only [uploadStep, fetch]
  cases net (requests (updateUploadProgress (progressPercent i total)
      (progressMessage i total file) s.world).trace).length with
  | rejected message => simp [LoopState.fail, World.emit, updateUploadProgress]
  | response status text json =>
    cases json with
    | threw message =>
      cases hok : FetchOutcome.ok status <;>
        simp [LoopState.fail, World.emit, updateUploadProgress, hok]
    | null message =>
      cases hok : FetchOutcome.ok status <;>
        simp [LoopState.fail, World.emit, updateUploadProgress, hok]
    | value body =>
      cases hok : FetchOutcome.ok status <;> cases hb : body.success <;>
        simp [LoopState.fail, World.emit, updateUploadProgress, hok, hb]

theorem uploadLoop_form (net : Network) (category : String) (total : Nat) (files : List File) :
    ∀ (i : Nat) (s : LoopState),
    (uploadLoop net category total i files s).world.dom.uploadBtn = s.world.dom.uploadBtn ∧
    (uploadLoop net category total i files s).world.dom.modals = s.world.dom.modals ∧
    (uploadLoop net category total i files s).world.dom.uploadPreview
      = s.world.dom.uploadPreview ∧
    (uploadLoop net category total i files s).world.dom.fileInput = s.world.dom.fileInput := by
  induction files with
  | nil =>
    intro i s
    exact ⟨rfl, rfl, rfl, rfl⟩
  | cons file rest ih =>
    intro i s
    obtain ⟨h1, h2, h3, h4⟩ := ih (i + 1) (uploadStep net category total i file s)
    obtain ⟨g1, g2, g3, g4⟩ := uploadStep_form net category total i file s
    exact ⟨h1.trans g1, h2.trans g2, h3.trans g3, h4.trans g4⟩

theorem uploadToDocumentsReport_form (s : LoopState) :
    (uploadToDocumentsReport s).dom.uploadBtn = s.world.dom.uploadBtn ∧
    (uploadToDocumentsReport s).dom.modals = s.world.dom.modals ∧
    (uploadToDocumentsReport s).dom.uploadPreview = s.world.dom.uploadPreview ∧
    (uploadToDocumentsReport s).dom.fileInput = s.world.dom.fileInput := by
  unfold uploadToDocumentsReport
  by_cases hs : 0 < s.successCount <;> by_cases hf : 0 < s.failCount <;>
    by_cases hd : s.world.dom.documentsActive = true <;>
    simp [hs, hf, hd, (foldl_showError s.errors _).2.1, showWarning, showSuccess, showToast,
      setTimeout, World.emit, updateUploadProgress]

/-- The strategy `uploadToDocuments` leaves the upload button, the modals, the
preview and the file input as they are. -/
theorem uploadToDocuments_form (net : Network) (w : World) :
    (uploadToDocuments net w).dom.uploadBtn = w.dom.uploadBtn ∧
    (uploadToDocuments net w).dom.modals = w.dom.modals ∧
    (uploadToDocuments net w).dom.uploadPreview = w.dom.uploadPreview ∧
    (uploadToDocuments net w).dom.fileInput = w.dom.fileInput := by
  obtain ⟨h1, h2, h3, h4⟩ := uploadToDocumentsReport_form (uploadToDocumentsLoop net w)
  obtain ⟨g1, g2, g3, g4⟩ := uploadLoop_form net (selectedCategory w)
    w.state.selectedFiles.length w.state.selectedFiles 0
    { successCount := 0, failCount := 0, errors := [], world := w }
  unfold uploadToDocuments
  exact ⟨h1.trans g1, h2.trans g2, h3.trans g3, h4.trans g4⟩

theorem uploadFilesPrepare_form (w : World) :
    (uploadFilesPrepare w).dom.modals = w.dom.modals ∧
    (uploadFilesPrepare w).dom.uploadPreview = w.dom.uploadPreview ∧
    (uploadFilesPrepare w).dom.fileInput = w.dom.fileInput := by
  unfold uploadFilesPrepare
  simp only []
  split <;> simp

/-- C26: when `uploadFiles` runs the documents-destination strategy and every
request fails, `successCount` is 0 and the run is the run of the strategy: the
`catch` block of `uploadFiles` does not run, the only notices are the error of
each file and the closing warning, nothing is scheduled, `selectedFiles`, the
preview, the file input and the modals are as before, and the upload button is
left disabled with the `Uploading...` label. -/
theorem uploadFiles_documents_all_failed (net : Network) (w : World) (btn : Button)
    (hfiles : w.state.selectedFiles ≠ []) (hbtn : w.dom.uploadBtn = some btn)
    (hdest : w.state.uploadDestination ≠ "portfolio")
    (hall : ∀ o ∈ outcomesFrom net (requests w.trace).length w.state.selectedFiles.length,
      o.succeeded = false) :
    (uploadToDocumentsLoop net (uploadFilesPrepare w)).successCount = 0 ∧
    (uploadToDocumentsLoop net (uploadFilesPrepare w)).failCount
      = w.state.selectedFiles.length ∧
    uploadFiles net w = uploadToDocuments net (uploadFilesPrepare w) ∧
    toasts (uploadFiles net w).trace
      = toasts w.trace
        ++ (uploadToDocumentsLoop net (uploadFilesPrepare w)).errors.map
            (fun error => (ToastType.error, error))
        ++ [(ToastType.warning,
            toString w.state.selectedFiles.length ++ " file(s) failed to upload")] ∧
    scheduled (uploadFiles net w).trace = scheduled w.trace ∧
    (uploadFiles net w).state.selectedFiles = w.state.selectedFiles ∧
    (uploadFiles net w).dom.uploadPreview = w.dom.uploadPreview ∧
    (uploadFiles net w).dom.fileInput = w.dom.fileInput ∧
    (uploadFiles net w).dom.modals = w.dom.modals ∧
    (uploadFiles net w).dom.uploadBtn = some
      { innerHTML := "<i class=\"fas fa-spinner fa-spin\"></i> Uploading...",
        disabled := true } := by
  have hprep := uploadFilesPrepare_spec w
  have hform := uploadFilesPrepare_form w
  have hloop := uploadLoop_spec net (selectedCategory (uploadFilesPrepare w))
    (uploadFilesPrepare w).state.selectedFiles.length (uploadFilesPrepare w).state.selectedFiles 0
    { successCount := 0, failCount := 0, errors := [], world := uploadFilesPrepare w }
  simp only [hprep.1, hprep.2.1] at hloop
  have hzero : (uploadToDocumentsLoop net (uploadFilesPrepare w)).successCount = 0 := by
    unfold uploadToDocumentsLoop
    simp only [hprep.1]
    rw [hloop.2.2.1, Nat.zero_add, List.countP_eq_zero]
    intro o ho
    simp [hall o ho]
  have hcount : (uploadToDocumentsLoop net (uploadFilesPrepare w)).failCount
      = w.state.selectedFiles.length := by
    unfold uploadToDocumentsLoop
    simp only [hprep.1]
    rw [hloop.2.2.2.1, Nat.zero_add, List.countP_eq_length.2]
    · simp [outcomesFrom]
    · intro o ho
      simp [hall o ho]
  have hpos : 0 < w.state.selectedFiles.length := List.length_pos.2 hfiles
  have hrun := uploadFiles_documents net w btn hfiles hbtn hdest
  obtain ⟨f1, f2, f3, f4⟩ := uploadToDocuments_form net (uploadFilesPrepare w)
  refine ⟨hzero, hcount, hrun, ?_, ?_, ?_, ?_, ?_, ?_, ?_⟩
  · rw [hrun]
    unfold uploadToDocuments
    rw [uploadToDocumentsReport_trace, toasts_append, toasts_reportEvents, hzero, hcount]
    have htoasts : toasts (uploadToDocumentsLoop net (uploadFilesPrepare w)).world.trace
        = toasts w.trace := by
      unfold uploadToDocumentsLoop
      rw [(uploadLoop_spec net _ _ _ 0 _).1, toasts_append, toasts_flatMap_stepEvents, hprep.2.1]
      simp
    rw [htoasts]
    simp [hpos]
  · rw [hrun, (uploadToDocuments_state net _).2, hzero, hprep.2.1]
    simp
  · rw [uploadFiles_state]
  · rw [hrun, f3, hform.2.1]
  · rw [hrun, f4, hform.2.2]
  · rw [hrun, f2, hform.1]
  · rw [hrun, f1, hprep.2.2.2.2.2]

theorem uploadFiles_documents_all_failed_witness :
    (uploadFiles sampleTooLargeNetwork sampleDocumentsPage).dom.uploadBtn = some
      { innerHTML := "<i class=\"fas fa-spinner fa-spin\"></i> Uploading...",
        disabled := true } ∧
    (uploadFiles sampleTooLargeNetwork sampleDocumentsPage).state.selectedFiles
      = sampleDocumentsPage.state.selectedFiles :=
  ⟨(uploadFiles_documents_all_failed sampleTooLargeNetwork sampleDocumentsPage
      { innerHTML := "<i class=\"fas fa-upload\"></i> Upload Files", disabled := false }
      (by decide) rfl (by decide) (by decide)).2.2.2.2.2.2.2.2.2,
   (uploadFiles_documents_all_failed sampleTooLargeNetwork sampleDocumentsPage
      { innerHTML := "<i class=\"fas fa-upload\"></i> Upload Files", disabled := false }
      (by decide) rfl (by decide) (by decide)).2.2.2.2.2.1⟩

/-! ## The triggering button after a failed request (C22) -/

/-- The function `createPortfolio` from the moment a failed request settles:
an error is shown, the button has the saved text and is enabled, the form and
the modals are as they were, and only the reset of the flag is scheduled. -/
theorem createPortfolioResume_failure (pending : CreatePending) (outcome : FetchOutcome)
    (w : World) (hfail : outcome.succeeded = false) :
    (createPortfolioResume pending outcome w).createForm.submitBtn
      = w.createForm.submitBtn.map (fun _ =>
          { innerHTML := pending.originalText, disabled := false }) ∧
    (createPortfolioResume pending outcome w).createForm.portfolioName
      = w.createForm.portfolioName ∧
    (createPortfolioResume pending outcome w).dom = w.dom ∧
    (∃ message, toasts (createPortfolioResume pending outcome w).trace
      = toasts w.trace ++ [(ToastType.error, message)]) ∧
    scheduled (createPortfolioResume pending outcome w).trace
      = scheduled w.trace ++ [(TimerAction.resetCreatingFlag, 2000)] := by
  unfold createPortfolioResume
  cases outcome with
  | rejected message =>
    simp [showError, showToast, setTimeout, World.emit, toasts_append, toasts,
      scheduled_append, scheduled]
  | response status text json =>
    cases json with
    | threw message =>
      cases hok : FetchOutcome.ok status <;>
        simp [showError, showToast, setTimeout, World.emit, toasts_append, toasts,
          scheduled_append, scheduled, hok]
    | null message =>
      cases hok : FetchOutcome.ok status <;>
        simp [showError, showToast, setTimeout, World.emit, toasts_append, toasts,
          scheduled_append, scheduled, hok]
    | value body =>
      cases hok : FetchOutcome.ok status <;> cases hb : body.success <;>
        simp [showError, showToast, setTimeout, World.emit, toasts_append, toasts,
          scheduled_append, scheduled, hok, hb]
      simp [FetchOutcome.succeeded, hok, hb] at hfail

/-- The function `createPortfolio` up to its request, when the request is
sent: the text of the button is saved, and nothing but the flag, the button and
the trace changes. -/
theorem createPortfolioStart_pending (w w1 : World) (pending : CreatePending)
    (hflag : w.isCreatingPortfolio = false)
    (hstart : createPortfolioStart w = (w1, some pending)) :
    (∀ button, w.createForm.submitBtn = some button →
      pending.originalText = button.innerHTML) ∧
    w1.createForm.submitBtn = w.createForm.submitBtn.map (fun _ =>
      { innerHTML := "<i class=\"fas fa-spinner fa-spin\"></i> Creating...",
        disabled := true }) ∧
    w1.createForm.portfolioName = w.createForm.portfolioName ∧
    w1.dom = w.dom := by
  unfold createPortfolioStart at hstart
  simp only [hflag, Bool.false_eq_true, if_false] at hstart
  cases hname : w.createForm.portfolioName with
  | none => simp [hname] at hstart
  | some nameValue =>
    cases htype : w.createForm.portfolioType with
    | none => simp [hname, htype] at hstart
    | some typeValue =>
      by_cases hn : trim nameValue = ""
      · simp [hname, htype, hn] at hstart
      · by_cases ht : typeValue = ""
        · simp [hname, htype, hn, ht] at hstart
        · simp only [hname, htype, hn, ht, if_false, Prod.mk.injEq, Option.some.injEq]
            at hstart
          obtain ⟨h1, h2⟩ := hstart
          subst h1
          subst h2
          refine ⟨?_, rfl, ?_, rfl⟩
          · intro button hb
            simp [hb]
          · simp [World.emit, hname]

/-- A confirmed run of `deletePortfolio` that succeeds after a click on the
icon of the delete button: the spinner has replaced the icon, so the second
lookup of the card from the icon finds nothing, the card is left as it is and
a reload is scheduled; after a click on the button itself the card is faded
and its collapse is scheduled. -/
theorem deletePortfolio_success_card :
    scheduled (deletePortfolio sampleAcceptingNetwork confirmAll (some "12")
        (some sampleIconClick) samplePage).1.trace
      = scheduled samplePage.trace ++ [(TimerAction.reloadPage, 1500)] ∧
    ((deletePortfolio sampleAcceptingNetwork confirmAll (some "12")
        (some sampleIconClick) samplePage).2.bind (fun e => e.card))
      = sampleIconClick.card ∧
    scheduled (deletePortfolio sampleAcceptingNetwork confirmAll (some "12")
        (some sampleClick) samplePage).1.trace
      = scheduled samplePage.trace ++ [(TimerAction.collapsePortfolioCard, 100)] := by
  refine ⟨?_, ?_, ?_⟩ <;> decide

/-- A confirmed run of `deletePortfolio` whose request fails: an error is
shown, nothing is scheduled, the card is as it was, and the button has the
text it had and is enabled. -/
theorem deletePortfolio_failure (net : Network) (confirm : String → Bool)
    (portfolioId : Option String) (event : Option ClickEvent) (w : World)
    (hid : truthy portfolioId = true)
    (hconfirm : ∀ message, confirm message = true)
    (hfail : (net (requests w.trace).length).succeeded = false) :
    (deletePortfolio net confirm portfolioId event w).2
      = event.map (fun e => { e with
          button := e.button.map (fun b => { innerHTML := b.innerHTML, disabled := false }) }) ∧
    (∃ message, toasts (deletePortfolio net confirm portfolioId event w).1.trace
      = toasts w.trace ++ [(ToastType.error, message)]) ∧
    scheduled (deletePortfolio net confirm portfolioId event w).1.trace = scheduled w.trace ∧
    (deletePortfolio net confirm portfolioId event w).1.dom = w.dom := by
  have hrestore : event.map (fun e => ({ e with
      button := e.button.map (fun _ =>
        { innerHTML :=
            match event.bind (fun e => e.button) with
            | some button => button.innerHTML
            | none => "undefined",
          disabled := false }) } : ClickEvent))
      = event.map (fun e => { e with
          button := e.button.map (fun b =>
            { innerHTML := b.innerHTML, disabled := false }) }) := by
    cases event with
    | none => rfl
    | some e =>
      cases hb : e.button with
      | none => simp [hb]
      | some b => simp [hb]
  unfold deletePortfolio
  simp only [hid, hconfirm, Bool.not_true, Bool.false_eq_true, if_false, fetch]
  cases hout : net (requests w.trace).length with
  | rejected message =>
    simp [showError, showToast, World.emit, toasts_append, toasts, scheduled_append, scheduled,
      hrestore]
  | response status text json =>
    cases json with
    | threw message =>
      cases hok : FetchOutcome.ok status <;>
        simp [showError, showToast, World.emit, toasts_append, toasts, scheduled_append,
          scheduled, hrestore, hok]
    | null message =>
      cases hok : FetchOutcome.ok status <;>
        simp [showError, showToast, World.emit, toasts_append, toasts, scheduled_append,
          scheduled, hrestore, hok]
    | value body =>
      cases hok : FetchOutcome.ok status <;> cases hb : body.success <;>
        simp [showError, showToast, World.emit, toasts_append, toasts, scheduled_append,
          scheduled, hrestore, hok, hb]
      rw [hout] at hfail
      simp [FetchOutcome.succeeded, hok, hb] at hfail

/-- C22: in each single-request flow, when the request fails (it throws, the
status is not 2xx, the body does not parse or has success=false), the flow
shows an error and does nothing further, and the triggering button ends
enabled with the text it had before the request: the upload button after
`uploadFiles` for the portfolio destination, the submit button of the create
form after `createPortfolio`, and the clicked button after `deletePortfolio`. -/
theorem single_request_failure_restores_button (net : Network) (w : World)
    (hfail : (net (requests w.trace).length).succeeded = false) :
    (∀ btn portfolioId, w.state.selectedFiles ≠ [] → w.dom.uploadBtn = some btn →
      w.state.uploadDestination = "portfolio" →
      w.dom.uploadPortfolio = some portfolioId → portfolioId ≠ "" →
      (uploadFiles net w).dom.uploadBtn
        = some { innerHTML := btn.innerHTML, disabled := false } ∧
      (∃ message, toasts (uploadFiles net w).trace
        = toasts w.trace ++ [(ToastType.error, message)]) ∧
      scheduled (uploadFiles net w).trace = scheduled w.trace ∧
      (uploadFiles net w).state = w.state) ∧
    (∀ w1 pending, w.isCreatingPortfolio = false →
      createPortfolioStart w = (w1, some pending) →
      (createPortfolio net w).createForm.submitBtn
        = w.createForm.submitBtn.map (fun b =>
            { innerHTML := b.innerHTML, disabled := false }) ∧
      (∃ message, toasts (createPortfolio net w).trace
        = toasts w.trace ++ [(ToastType.error, message)]) ∧
      scheduled (createPortfolio net w).trace
        = scheduled w.trace ++ [(TimerAction.resetCreatingFlag, 2000)] ∧
      (createPortfolio net w).createForm.portfolioName = w.createForm.portfolioName ∧
      (createPortfolio net w).dom = w.dom) ∧
    (∀ (confirm : String → Bool) portfolioId event, truthy portfolioId = true →
      (∀ message, confirm message = true) →
      (deletePortfolio net confirm portfolioId event w).2
        = event.map (fun e => { e with
            button := e.button.map (fun b =>
              { innerHTML := b.innerHTML, disabled := false }) }) ∧
      (∃ message, toasts (deletePortfolio net confirm portfolioId event w).1.trace
        = toasts w.trace ++ [(ToastType.error, message)]) ∧
      scheduled (deletePortfolio net confirm portfolioId event w).1.trace
        = scheduled w.trace) := by
  refine ⟨?_, ?_, ?_⟩
  · intro btn portfolioId hfiles hbtn hdest hsel hne
    obtain ⟨hps, hpt, hpsel, _⟩ := uploadFilesPrepare_spec w
    have hsel2 : (uploadFilesPrepare w).dom.uploadPortfolio = some portfolioId := by
      rw [hpsel, hsel]
    have hfail2 : (net (requests (uploadFilesPrepare w).trace).length).succeeded = false := by
      rw [hpt]
      exact hfail
    obtain ⟨h1, h2, _, _, h5, h6⟩ :=
      uploadToPortfolio_failure net (uploadFilesPrepare w) portfolioId hsel2 hne hfail2
    rw [hpt] at h5 h6
    cases hrun : uploadToPortfolio net (uploadFilesPrepare w) with
    | mk w3 r =>
      rw [hrun] at h1 h2 h5 h6
      simp only at h1 h2 h5 h6
      subst h1
      rw [uploadFiles_portfolio_error net w w3 btn _ hfiles hbtn hdest hrun]
      obtain ⟨c1, c2, c3⟩ := uploadFilesCatch_spec btn.innerHTML
        (portfolioFailureMessage (net (requests (uploadFilesPrepare w).trace).length)) w3
      refine ⟨c3, ⟨"Upload failed: "
        ++ portfolioFailureMessage (net (requests (uploadFilesPrepare w).trace).length), ?_⟩,
        ?_, ?_⟩
      · rw [c2, toasts_append, h5]
        rfl
      · rw [c2, scheduled_append, h6]
        simp [scheduled]
      · exact c1.trans (h2.trans hps)
  · intro w1 pending hflag hstart
    obtain ⟨p1, p2, p3, p4⟩ := createPortfolioStart_pending w w1 pending hflag hstart
    obtain ⟨_, a2⟩ := createPortfolioStart_accepted w hflag
    obtain ⟨_, _, a3, a4⟩ := a2 w1 pending hstart
    obtain ⟨r1, r2, r3, ⟨message, r4⟩, r5⟩ :=
      createPortfolioResume_failure pending (net (requests w.trace).length) w1 hfail
    have hrun : createPortfolio net w
        = createPortfolioResume pending (net (requests w.trace).length) w1 := by
      simp only [createPortfolio, hstart]
    rw [hrun]
    refine ⟨?_, ⟨message, ?_⟩, ?_, ?_, ?_⟩
    · rw [r1, p2]
      cases hb : w.createForm.submitBtn with
      | none => rfl
      | some button => simp [p1 button hb]
    · rw [r4, a4]
    · rw [r5, a3]
    · rw [r2, p3]
    · rw [r3, p4]
  · intro confirm portfolioId event hid hconfirm
    obtain ⟨h1, h2, h3, _⟩ :=
      deletePortfolio_failure net confirm portfolioId event w hid hconfirm hfail
    exact ⟨h1, h2, h3⟩

theorem single_request_failure_restores_button_witness :
    (uploadFiles sampleRefusingNetwork samplePortfolioPage).dom.uploadBtn
      = some { innerHTML := "<i class=\"fas fa-upload\"></i> Upload Files", disabled := false } ∧
    (createPortfolio sampleRefusingNetwork sampleCreatePage).createForm.submitBtn
      = some { innerHTML := "Create", disabled := false } ∧
    (deletePortfolio sampleRefusingNetwork confirmAll (some "12") (some sampleClick)
        samplePortfolioPage).2
      = some { sampleClick with
          button := some { innerHTML := "<i class=\"fas fa-trash\"></i>", disabled := false } } :=
  ⟨((single_request_failure_restores_button sampleRefusingNetwork samplePortfolioPage
      (by decide)).1 _ "12" (by decide) rfl rfl rfl (by decide)).1,
   ((single_request_failure_restores_button sampleRefusingNetwork sampleCreatePage
      (by decide)).2.1 (createPortfolioStart sampleCreatePage).1 { originalText := "Create" }
      rfl (by decide)).1,
   ((single_request_failure_restores_button sampleRefusingNetwork samplePortfolioPage
      (by decide)).2.2 confirmAll (some "12") (some sampleClick) (by decide)
      (fun _ => rfl)).1⟩

/-! ## The selection of files (C21, C23) -/

/-- The loop of `handleFiles`: the valid files are appended to the selection
and to the preview in input order, each invalid file adds one error, and the
flag records whether a file was invalid. -/
theorem handleFiles_loop (files : List File) :
    ∀ (w : World) (flag : Bool) (items : List String), w.dom.uploadPreview = some items →
    let looped := files.foldl (fun (acc : World × Bool) file =>
      let validation := validateFile file
      if !validation.valid then (showError (interpolate validation.message) acc.1, true)
      else
        ({ acc.1 with
            state := { acc.1.state with selectedFiles := acc.1.state.selectedFiles ++ [file] }
            dom := { acc.1.dom with
              uploadPreview := acc.1.dom.uploadPreview.map (fun items => items ++ [file.name]) } },
          acc.2)) (w, flag)
    looped.1.state.selectedFiles
      = w.state.selectedFiles ++ files.filter (fun f => (validateFile f).valid) ∧
    looped.1.dom.uploadPreview
      = some (items ++ (files.filter (fun f => (validateFile f).valid)).map (fun f => f.name)) ∧
    looped.2 = (flag || files.any (fun f => !(validateFile f).valid)) ∧
    toasts looped.1.trace
      = toasts w.trace ++ (files.filter (fun f => !(validateFile f).valid)).map
          (fun f => (ToastType.error, interpolate (validateFile f).message)) ∧
    requests looped.1.trace = requests w.trace ∧
    looped.1.dom.uploadBtn = w.dom.uploadBtn ∧
    looped.1.state.uploadDestination = w.state.uploadDestination ∧
    looped.1.dom.uploadPortfolio = w.dom.uploadPortfolio := by
  induction files with
  | nil =>
    intro w flag items hitems
    simp [hitems]
  | cons file rest ih =>
    intro w flag items hitems
    simp only [List.foldl_cons]
    cases hv : (validateFile file).valid with
    | false =>
      simp only [Bool.not_false, if_true]
      have hitems2 : (showError (interpolate (validateFile file).message) w).dom.uploadPreview
          = some items := hitems
      obtain ⟨h1, h2, h3, h4, h5, h6, h7, h8⟩ :=
        ih (showError (interpolate (validateFile file).message) w) true items hitems2
      refine ⟨?_, ?_, ?_, ?_, ?_, ?_, ?_, ?_⟩
      · rw [h1]
        simp [List.filter_cons, hv, showError, showToast, World.emit]
      · rw [h2]
        simp [List.filter_cons, hv]
      · rw [h3]
        simp [hv]
      · rw [h4]
        simp [List.filter_cons, hv, showError, showToast, World.emit, toasts_append, toasts]
      · rw [h5]
        simp [showError, showToast, World.emit, requests_append, requests]
      · rw [h6]
        rfl
      · rw [h7]
        rfl
      · rw [h8]
        rfl
    | true =>
      simp only [Bool.not_true, Bool.false_eq_true, if_false]
      obtain ⟨h1, h2, h3, h4, h5, h6, h7, h8⟩ := ih
        { w with
          state := { w.state with selectedFiles := w.state.selectedFiles ++ [file] }
          dom := { w.dom with
            uploadPreview := w.dom.uploadPreview.map (fun items => items ++ [file.name]) } }
        flag (items ++ [file.name]) (by simp [hitems])
      refine ⟨?_, ?_, ?_, ?_, ?_, ?_, ?_, ?_⟩
      · rw [h1]
        simp [List.filter_cons, hv]
      · rw [h2]
        simp [List.filter_cons, hv]
      · rw [h3]
        simp [hv]
      · rw [h4]
        simp [List.filter_cons, hv]
      · rw [h5]
      · rw [h6]
      · rw [h7]
      · rw [h8]

theorem updateUploadButton_frame (w : World) :
    (updateUploadButton w).state = w.state ∧
    (updateUploadButton w).trace = w.trace ∧
    (updateUploadButton w).dom.uploadPreview = w.dom.uploadPreview := by
  unfold updateUploadButton
  cases w.dom.uploadBtn with
  | none => exact ⟨rfl, rfl, rfl⟩
  | some _ => exact ⟨rfl, rfl, rfl⟩

/-- The function `handleFiles` on a page with the preview element: the new
selection is the valid files of the argument, in input order, the preview has
one item for each of them, each invalid file is reported, and no request is
sent. -/
theorem handleFiles_spec (files : List File) (w : World) (items : List String)
    (hpreview : w.dom.uploadPreview = some items) :
    (handleFiles files w).state.selectedFiles
      = files.filter (fun f => (validateFile f).valid) ∧
    (handleFiles files w).dom.uploadPreview
      = some ((files.filter (fun f => (validateFile f).valid)).map (fun f => f.name)) ∧
    requests (handleFiles files w).trace = requests w.trace := by
  have hloop := handleFiles_loop files
    { w with
      state := { w.state with selectedFiles := [] }
      dom := { w.dom with uploadPreview := some [] } } false [] rfl
  simp only [] at hloop
  obtain ⟨h1, h2, _, _, h5, _⟩ := hloop
  unfold handleFiles
  simp only [hpreview]
  split
  · refine ⟨?_, ?_, ?_⟩
    · simp only [showWarning, showToast, World.emit, (updateUploadButton_frame _).1, h1]
      simp
    · simp only [showWarning, showToast, World.emit, (updateUploadButton_frame _).2.2, h2]
      simp
    · simp only [showWarning, showToast, World.emit, (updateUploadButton_frame _).2.1,
        requests_append, h5, requests]
      simp
  · refine ⟨?_, ?_, ?_⟩
    · simp only [(updateUploadButton_frame _).1, h1]
      simp
    · simp only [(updateUploadButton_frame _).2.2, h2]
      simp
    · simp only [(updateUploadButton_frame _).2.1, h5]

theorem handleFiles_without_preview (files : List File) (w : World)
    (hpreview : w.dom.uploadPreview = none) : handleFiles files w = w := by
  simp [handleFiles, hpreview]

theorem removeFilePreview_selectedFiles (engine : SelectorEngine) (fileName : String)
    (w : World) :
    (removeFilePreview engine fileName w).state.selectedFiles
      = w.state.selectedFiles.filter (fun file => file.name != fileName) ∧
    (removeFilePreview engine fileName w).trace = w.trace := by
  unfold removeFilePreview
  simp only
  split
  · split
    · exact ⟨rfl, rfl⟩
    · exact ⟨by rw [(updateUploadButton_frame _).1], by rw [(updateUploadButton_frame _).2.1]⟩
  · exact ⟨by rw [(updateUploadButton_frame _).1], by rw [(updateUploadButton_frame _).2.1]⟩

/-- The function `removeFilePreview` for a name that stands for itself in the
selector. -/
theorem removeFilePreview_spec (engine : SelectorEngine) (fileName : String) (w : World)
    (hplain : fileName.data.any selectorSpecial = false) :
    removeFilePreview engine fileName w
      = updateUploadButton
          { w with
            state := { w.state with
              selectedFiles := w.state.selectedFiles.filter (fun file => file.name != fileName) }
            dom := { w.dom with uploadPreview := w.dom.uploadPreview.map (fun items =>
              items.erase fileName) } } ∧
    (removeFilePreview engine fileName w).dom.uploadPreview
      = w.dom.uploadPreview.map (fun items => items.erase fileName) := by
  have h : removeFilePreview engine fileName w
      = updateUploadButton
          { w with
            state := { w.state with
              selectedFiles := w.state.selectedFiles.filter (fun file => file.name != fileName) }
            dom := { w.dom with uploadPreview := w.dom.uploadPreview.map (fun items =>
              items.erase fileName) } } := by
    unfold removeFilePreview
    simp only [hplain, Bool.false_eq_true, if_false]
  exact ⟨h, by rw [h, (updateUploadButton_frame _).2.2]⟩

/-- The function `removeFilePreview` when the lookup of the preview item
throws: only the selection has changed. -/
theorem removeFilePreview_of_syntaxError (engine : SelectorEngine) (fileName : String)
    (w : World) (hspecial : fileName.data.any selectorSpecial = true)
    (hthrows : engine (previewSelector fileName) w.dom = none) :
    removeFilePreview engine fileName w
      = { w with
          state := { w.state with
            selectedFiles :=
              w.state.selectedFiles.filter (fun file => file.name != fileName) } } := by
  unfold removeFilePreview
  simp only [hspecial, if_true, hthrows]

/-- Each of the three functions that write `selectedFiles` leaves only valid
files in it, when it held only valid files. -/
theorem formAction_keeps_valid (engine : SelectorEngine) (action : FormAction) (w : World)
    (hvalid : ∀ f ∈ w.state.selectedFiles, (validateFile f).valid = true) :
    ∀ f ∈ (action.run engine w).state.selectedFiles, (validateFile f).valid = true := by
  cases action with
  | handleFiles files =>
    intro f hf
    simp only [FormAction.run] at hf
    cases hpreview : w.dom.uploadPreview with
    | none =>
      rw [handleFiles_without_preview files w hpreview] at hf
      exact hvalid f hf
    | some items =>
      rw [(handleFiles_spec files w items hpreview).1] at hf
      exact (List.mem_filter.1 hf).2
  | removeFilePreview fileName =>
    intro f hf
    simp only [FormAction.run, (removeFilePreview_selectedFiles engine fileName w).1] at hf
    exact hvalid f (List.mem_filter.1 hf).1
  | clearUploadForm =>
    intro f hf
    simp only [FormAction.run, clearUploadForm_selectedFiles] at hf
    cases hf

theorem runFormActions_keeps_valid (engine : SelectorEngine) (actions : List FormAction) :
    ∀ w : World, (∀ f ∈ w.state.selectedFiles, (validateFile f).valid = true) →
    ∀ f ∈ (runFormActions engine actions w).state.selectedFiles,
      (validateFile f).valid = true := by
  induction actions with
  | nil =>
    intro w hvalid
    exact hvalid
  | cons action rest ih =>
    intro w hvalid
    exact ih (action.run engine w) (formAction_keeps_valid engine action w hvalid)

/-- The requests of a run of `uploadToDocuments`: one for each selected file,
in order. -/
theorem uploadToDocuments_requests (net : Network) (w : World) :
    requests (uploadToDocuments net w).trace
      = requests w.trace
        ++ w.state.selectedFiles.map (documentRequest (selectedCategory w)) := by
  unfold uploadToDocuments uploadToDocumentsLoop
  rw [uploadToDocumentsReport_trace, requests_append, requests_reportEvents,
    (uploadLoop_spec net _ _ _ 0 _).1, requests_append, requests_flatMap_stepEvents]
  simp

theorem files_documentRequest (category : String) (file : File) :
    (documentRequest category file).files = [file] := rfl

/-- C21: starting from a page whose `selectedFiles` are all valid (the initial
`selectedFiles` is empty), after any sequence of calls of `handleFiles`,
`removeFilePreview` and `clearUploadForm` every file in `selectedFiles`
passes `validateFile`, whatever the selector engine answers inside
`removeFilePreview`; a call of `handleFiles` on the page of the upload form
makes `selectedFiles` the valid files of its argument, in input order; and
every file that `uploadToPortfolio` or `uploadToDocuments` then places in a
request is valid. -/
theorem selectedFiles_all_valid (engine : SelectorEngine) (actions : List FormAction)
    (w : World)
    (hvalid : ∀ f ∈ w.state.selectedFiles, (validateFile f).valid = true) :
    (∀ f ∈ (runFormActions engine actions w).state.selectedFiles,
      (validateFile f).valid = true) ∧
    (∀ files items, (runFormActions engine actions w).dom.uploadPreview = some items →
      (handleFiles files (runFormActions engine actions w)).state.selectedFiles
        = files.filter (fun f => (validateFile f).valid)) ∧
    (∀ net, ∀ request ∈ sentBetween (runFormActions engine actions w)
        (uploadToPortfolio net (runFormActions engine actions w)).1,
      ∀ f ∈ request.files, (validateFile f).valid = true) ∧
    (∀ net, ∀ request ∈ sentBetween (runFormActions engine actions w)
        (uploadToDocuments net (runFormActions engine actions w)),
      ∀ f ∈ request.files, (validateFile f).valid = true) ∧
    initialState.selectedFiles = [] := by
  have hinv := runFormActions_keeps_valid engine actions w hvalid
  refine ⟨hinv, ?_, ?_, ?_, rfl⟩
  · intro files items hpreview
    exact (handleFiles_spec files _ items hpreview).1
  · intro net request hrequest f hf
    rw [sentBetween_of_append _ _ _ (uploadToPortfolio_requests net _)] at hrequest
    cases hsel : (runFormActions engine actions w).dom.uploadPortfolio with
    | none =>
      rw [hsel] at hrequest
      cases hrequest
    | some portfolioId =>
      rw [hsel] at hrequest
      simp only at hrequest
      split at hrequest
      · cases hrequest
      · rw [List.mem_singleton.1 hrequest, files_portfolioRequest] at hf
        exact hinv f hf
  · intro net request hrequest f hf
    rw [sentBetween_of_append _ _ _ (uploadToDocuments_requests net _)] at hrequest
    obtain ⟨file, hfile, hreq⟩ := List.mem_map.1 hrequest
    rw [← hreq, files_documentRequest, List.mem_singleton] at hf
    rw [hf]
    exact hinv file hfile

theorem selectedFiles_all_valid_witness :
    (runFormActions strictEngine
        [.handleFiles sampleSelection, .removeFilePreview "notes.txt",
         .removeFilePreview "a\"b.pdf"]
        sampleFormPage).state.selectedFiles
      = [{ name := "cv.pdf", size := 120000, type := "application/pdf" },
         { name := "cv.pdf", size := 450000, type := "application/pdf" }] ∧
    (validateFile { name := "cv.pdf", size := 450000, type := "application/pdf" }).valid
      = true :=
  ⟨by decide,
   (selectedFiles_all_valid strictEngine
      [.handleFiles sampleSelection, .removeFilePreview "notes.txt",
       .removeFilePreview "a\"b.pdf"]
      sampleFormPage (by decide)).1
      { name := "cv.pdf", size := 450000, type := "application/pdf" } (by decide)⟩

/-- C23, as stated, fails: a selection with two valid files named `cv.pdf`
leaves both in `selectedFiles`, the earlier one first, and gives the preview
two items of that name. -/
theorem handleFiles_same_name_counterexample :
    (handleFiles sampleSelection sampleFormPage).state.selectedFiles
      = [{ name := "cv.pdf", size := 120000, type := "application/pdf" },
         { name := "cv.pdf", size := 450000, type := "application/pdf" }] ∧
    (handleFiles sampleSelection sampleFormPage).dom.uploadPreview
      = some ["cv.pdf", "cv.pdf"] ∧
    (validateFile { name := "cv.pdf", size := 120000, type := "application/pdf" }).valid = true ∧
    (validateFile { name := "cv.pdf", size := 450000, type := "application/pdf" }).valid
      = true := by
  decide

/-- C23, amended: `handleFiles` does not overwrite on equal names.  On the
page of the upload form it keeps every valid file of the selection, in input
order, so that a name occurs in `selectedFiles` as often as among the valid
files of the selection, and the preview has one item for each kept file.  The
name is the key of `removeFilePreview`: it drops every selected file of that
name, whatever the name is.  When the name has no double quote, backslash,
line break or U+0000, it also removes the first preview item of that name.
When the name has such a character and the selector built from it is not
valid, the lookup throws after the selection was filtered, and the document,
with the preview items and the button, stays as it was. -/
theorem handleFiles_keeps_equal_names (files : List File) (w : World) (items : List String)
    (hpreview : w.dom.uploadPreview = some items) :
    (handleFiles files w).state.selectedFiles
      = files.filter (fun f => (validateFile f).valid) ∧
    (∀ name, ((handleFiles files w).state.selectedFiles.map (fun f => f.name)).count name
      = (files.filter (fun f => (validateFile f).valid && f.name == name)).length) ∧
    (handleFiles files w).dom.uploadPreview
      = some ((handleFiles files w).state.selectedFiles.map (fun f => f.name)) ∧
    (∀ (engine : SelectorEngine) (fileName : String),
      (removeFilePreview engine fileName (handleFiles files w)).state.selectedFiles
        = (files.filter (fun f => (validateFile f).valid)).filter
            (fun f => f.name != fileName) ∧
      (∀ f ∈ (removeFilePreview engine fileName (handleFiles files w)).state.selectedFiles,
        f.name ≠ fileName) ∧
      (fileName.data.any selectorSpecial = false →
        (removeFilePreview engine fileName (handleFiles files w)).dom.uploadPreview
          = some (((files.filter (fun f => (validateFile f).valid)).map
              (fun f => f.name)).erase fileName)) ∧
      (fileName.data.any selectorSpecial = true →
        engine (previewSelector fileName) (handleFiles files w).dom = none →
        (removeFilePreview engine fileName (handleFiles files w)).dom
          = (handleFiles files w).dom)) := by
  obtain ⟨h1, h2, _⟩ := handleFiles_spec files w items hpreview
  refine ⟨h1, ?_, ?_, ?_⟩
  · intro name
    rw [h1, List.count, List.countP_map, List.countP_eq_length_filter, List.filter_filter]
    congr 1
    apply List.filter_congr
    intro f _
    simp [Function.comp, Bool.and_comm]
  · rw [h2, h1]
  · intro engine fileName
    have r1 := (removeFilePreview_selectedFiles engine fileName (handleFiles files w)).1
    refine ⟨by rw [r1, h1], ?_, ?_, ?_⟩
    · intro f hf
      rw [r1] at hf
      simpa using (List.mem_filter.1 hf).2
    · intro hplain
      rw [(removeFilePreview_spec engine fileName (handleFiles files w) hplain).2, h2]
      rfl
    · intro hspecial hthrows
      rw [removeFilePreview_of_syntaxError engine fileName (handleFiles files w) hspecial
        hthrows]

theorem handleFiles_keeps_equal_names_witness :
    ((handleFiles sampleSelection sampleFormPage).state.selectedFiles.map
        (fun f => f.name)).count "cv.pdf" = 2 ∧
    (removeFilePreview strictEngine "cv.pdf"
        (handleFiles sampleSelection sampleFormPage)).state.selectedFiles = [] ∧
    (removeFilePreview strictEngine "cv.pdf"
        (handleFiles sampleSelection sampleFormPage)).dom.uploadPreview = some ["cv.pdf"] ∧
    (handleFiles sampleQuotedSelection sampleFormPage).state.selectedFiles
      = sampleQuotedSelection ∧
    (removeFilePreview strictEngine "a\"b.pdf"
        (handleFiles sampleQuotedSelection sampleFormPage)).state.selectedFiles = [] ∧
    (removeFilePreview strictEngine "a\"b.pdf"
        (handleFiles sampleQuotedSelection sampleFormPage)).dom.uploadPreview
      = some ["a\"b.pdf"] :=
  ⟨((handleFiles_keeps_equal_names sampleSelection sampleFormPage [] rfl).2.1 "cv.pdf").trans
      (by decide),
   ((handleFiles_keeps_equal_names sampleSelection sampleFormPage [] rfl).2.2.2
      strictEngine "cv.pdf").1.trans (by decide),
   (((handleFiles_keeps_equal_names sampleSelection sampleFormPage [] rfl).2.2.2
      strictEngine "cv.pdf").2.2.1 (by decide)).trans (by decide),
   (handleFiles_keeps_equal_names sampleQuotedSelection sampleFormPage [] rfl).1.trans
      (by decide),
   ((handleFiles_keeps_equal_names sampleQuotedSelection sampleFormPage [] rfl).2.2.2
      strictEngine "a\"b.pdf").1.trans (by decide),
   (congrArg Dom.uploadPreview
      (((handleFiles_keeps_equal_names sampleQuotedSelection sampleFormPage [] rfl).2.2.2
        strictEngine "a\"b.pdf").2.2.2 (by decide) rfl)).trans (by decide)⟩

/-! ## The function `escapeHtml` (C27) -/

theorem escapeChar_safe (c : Char) :
    ∀ x ∈ escapeChar c, x ≠ '<' ∧ x ≠ '>' ∧ x ≠ '"' ∧ x ≠ '\'' := by
  unfold escapeChar
  split_ifs with h1 h2 h3 h4 h5
  · decide
  · decide
  · decide
  · decide
  · decide
  · intro x hx
    rw [List.mem_singleton.1 hx]
    exact ⟨h2, h3, h4, h5⟩

/-- A position of a list, given as a split of the list. -/
theorem split_position (xs pre rest : List Char) (x : Char) (h : xs = pre ++ x :: rest) :
    pre.length < xs.length ∧ xs.get? pre.length = some x ∧ rest = xs.drop (pre.length + 1) := by
  subst h
  refine ⟨by simp, ?_, ?_⟩
  · induction pre with
    | nil => rfl
    | cons p ps ih => simpa using ih
  · induction pre with
    | nil => rfl
    | cons p ps ih => simp

/-- An `&` in the replacement of one character is its first character, and
what follows is the rest of a character reference. -/
theorem escapeChar_amp (c : Char) (pre rest : List Char)
    (h : escapeChar c = pre ++ '&' :: rest) : rest ∈ referenceTails := by
  obtain ⟨hlt, hget, hrest⟩ := split_position _ _ _ _ h
  rw [hrest]
  generalize pre.length = n at hlt hget
  unfold escapeChar at hlt hget ⊢
  split_ifs at hlt hget ⊢ with h1 h2 h3 h4 h5
  · have key : ∀ n < "&amp;".data.length, "&amp;".data.get? n = some '&' →
        "&amp;".data.drop (n + 1) ∈ referenceTails := by decide
    exact key n hlt hget
  · have key : ∀ n < "&lt;".data.length, "&lt;".data.get? n = some '&' →
        "&lt;".data.drop (n + 1) ∈ referenceTails := by decide
    exact key n hlt hget
  · have key : ∀ n < "&gt;".data.length, "&gt;".data.get? n = some '&' →
        "&gt;".data.drop (n + 1) ∈ referenceTails := by decide
    exact key n hlt hget
  · have key : ∀ n < "&quot;".data.length, "&quot;".data.get? n = some '&' →
        "&quot;".data.drop (n + 1) ∈ referenceTails := by decide
    exact key n hlt hget
  · have key : ∀ n < "&#039;".data.length, "&#039;".data.get? n = some '&' →
        "&#039;".data.drop (n + 1) ∈ referenceTails := by decide
    exact key n hlt hget
  · exfalso
    simp only [List.length_singleton, Nat.lt_one_iff] at hlt
    subst hlt
    simp only [List.get?_cons_zero, Option.some.injEq] at hget
    exact h1 hget

/-- Every `&` in an escaped text begins one of the five character
references. -/
theorem escaped_amp (cs : List Char) :
    ∀ pre post, cs.flatMap escapeChar = pre ++ '&' :: post →
      ∃ tail ∈ referenceTails, tail <+: post := by
  induction cs with
  | nil =>
    intro pre post h
    simp at h
  | cons c cs ih =>
    intro pre post h
    rw [List.flatMap_cons, List.append_eq_append_iff] at h
    rcases h with ⟨middle, _, hrest⟩ | ⟨middle, hfirst, hrest⟩
    · exact ih middle post hrest
    · cases middle with
      | nil => exact ih [] post hrest.symm
      | cons x tail =>
        simp only [List.cons_append, List.cons.injEq] at hrest
        obtain ⟨hx, hpost⟩ := hrest
        subst hx
        refine ⟨tail, escapeChar_amp c pre tail hfirst, ?_⟩
        rw [hpost]
        exact List.prefix_append _ _

theorem escapeChar_of_plain (c : Char)
    (h : c ≠ '&' ∧ c ≠ '<' ∧ c ≠ '>' ∧ c ≠ '"' ∧ c ≠ '\'') : escapeChar c = [c] := by
  simp [escapeChar, h.1, h.2.1, h.2.2.1, h.2.2.2.1, h.2.2.2.2]

theorem documentJs_escapeChar (c : Char) :
    (match DocumentJs.escapeMap.lookup c with
      | some entity => entity.data
      | none => [c]) = escapeChar c := by
  unfold escapeChar DocumentJs.escapeMap
  by_cases h1 : c = '&'
  · subst h1
    rfl
  by_cases h2 : c = '<'
  · subst h2
    rfl
  by_cases h3 : c = '>'
  · subst h3
    rfl
  by_cases h4 : c = '"'
  · subst h4
    rfl
  by_cases h5 : c = '\''
  · subst h5
    rfl
  have e1 : (c == '&') = false := by simp [h1]
  have e2 : (c == '<') = false := by simp [h2]
  have e3 : (c == '>') = false := by simp [h3]
  have e4 : (c == '"') = false := by simp [h4]
  have e5 : (c == '\'') = false := by simp [h5]
  simp only [List.lookup, e1, e2, e3, e4, e5]
  simp [h1, h2, h3, h4, h5]

/-- C27: for every string, the result of `escapeHtml` holds none of the
characters `<`, `>`, `"` and `'`; every `&` in it begins one of the five
references `&amp;`, `&lt;`, `&gt;`, `&quot;`, `&#039;`; a string without any of
`&`, `<`, `>`, `"`, `'` is returned as it is; escaping twice differs from
escaping once, on `&`; and the copy in `document.js` returns the same as the
copy in `portfolio.js`. -/
theorem escapeHtml_properties (s : String) :
    ('<' ∉ (escapeHtml s).data ∧ '>' ∉ (escapeHtml s).data ∧ '"' ∉ (escapeHtml s).data ∧
      '\'' ∉ (escapeHtml s).data) ∧
    (∀ pre post, (escapeHtml s).data = pre ++ '&' :: post →
      "amp;".data <+: post ∨ "lt;".data <+: post ∨ "gt;".data <+: post ∨
      "quot;".data <+: post ∨ "#039;".data <+: post) ∧
    ((∀ c ∈ s.data, c ≠ '&' ∧ c ≠ '<' ∧ c ≠ '>' ∧ c ≠ '"' ∧ c ≠ '\'') → escapeHtml s = s) ∧
    escapeHtml (escapeHtml "&") ≠ escapeHtml "&" ∧
    escapeHtml "&" = "&amp;" ∧ escapeHtml (escapeHtml "&") = "&amp;amp;" ∧
    DocumentJs.escapeHtml s = escapeHtml s := by
  refine ⟨?_, ?_, ?_, by decide, by decide, by decide, ?_⟩
  · have hsafe : ∀ x ∈ (escapeHtml s).data, x ≠ '<' ∧ x ≠ '>' ∧ x ≠ '"' ∧ x ≠ '\'' := by
      intro x hx
      obtain ⟨c, _, hxc⟩ := List.mem_flatMap.1 hx
      exact escapeChar_safe c x hxc
    exact ⟨fun h => (hsafe _ h).1 rfl, fun h => (hsafe _ h).2.1 rfl,
      fun h => (hsafe _ h).2.2.1 rfl, fun h => (hsafe _ h).2.2.2 rfl⟩
  · intro pre post h
    obtain ⟨tail, hmem, hpre⟩ := escaped_amp s.data pre post h
    simp only [referenceTails, List.mem_cons, List.mem_singleton, List.not_mem_nil,
      or_false] at hmem
    rcases hmem with h1 | h1 | h1 | h1 | h1 <;> subst h1 <;> simp [hpre]
  · intro hplain
    apply String.ext
    show s.data.flatMap escapeChar = s.data
    have key : ∀ cs : List Char,
        (∀ c ∈ cs, c ≠ '&' ∧ c ≠ '<' ∧ c ≠ '>' ∧ c ≠ '"' ∧ c ≠ '\'') →
        cs.flatMap escapeChar = cs := by
      intro cs
      induction cs with
      | nil => intro _; rfl
      | cons c cs ih =>
        intro h
        rw [List.flatMap_cons, escapeChar_of_plain c (h c (List.mem_cons_self _ _)),
          ih (fun x hx => h x (List.mem_cons_of_mem _ hx))]
        rfl
    exact key s.data hplain
  · apply String.ext
    show s.data.flatMap _ = s.data.flatMap escapeChar
    congr 1
    funext c
    exact documentJs_escapeChar c

theorem escapeHtml_properties_witness :
    escapeHtml "report-2024.pdf" = "report-2024.pdf" ∧
    ("amp;".data <+: "amp; B".data ∨ "lt;".data <+: "amp; B".data ∨
      "gt;".data <+: "amp; B".data ∨ "quot;".data <+: "amp; B".data ∨
      "#039;".data <+: "amp; B".data) :=
  ⟨(escapeHtml_properties "report-2024.pdf").2.2.1 (by decide),
   (escapeHtml_properties "A & B").2.1 "A ".data "amp; B".data (by decide)⟩

/-! ## Search and category filter do not compose (C29) -/

theorem includesChars_nil (s : List Char) : includesChars s [] = true := by
  cases s with
  | nil => rfl
  | cons c cs => simp [includesChars]

/-- The visibility that `searchDocuments` sets depends on the data attributes
of the cards and on the search field only. -/
theorem searchDocuments_visibility (view : DocumentsView) :
    (searchDocuments view).visibility
      = view.cards.map (fun card =>
          if stringIncludes card.dataName
              (orElse (view.documentSearch.map Unicode.toLowerCase) "") then "flex"
          else "none") ∧
    (searchDocuments view).cards.map (fun card => (card.dataCategory, card.dataName))
      = view.cards.map (fun card => (card.dataCategory, card.dataName)) ∧
    (searchDocuments view).documentSearch = view.documentSearch := by
  refine ⟨?_, ?_, rfl⟩
  · simp only [DocumentsView.visibility, searchDocuments, List.map_map]
    apply List.map_congr_left
    intro card _
    simp only [Function.comp]
    split <;> rfl
  · simp only [searchDocuments, List.map_map]
    apply List.map_congr_left
    intro card _
    simp only [Function.comp]
    split <;> rfl

/-- The visibility that `filterDocuments` sets, when it is called from an event
handler, depends on the data attributes of the cards and on its argument
only. -/
theorem filterDocuments_visibility (category : String) (clickedBtn : Option Nat)
    (view : DocumentsView) :
    (filterDocuments category (some clickedBtn) view).1.visibility
      = view.cards.map (fun card =>
          if category = "all" ∨ card.dataCategory = category then "flex" else "none") ∧
    (filterDocuments category (some clickedBtn) view).1.cards.map
        (fun card => (card.dataCategory, card.dataName))
      = view.cards.map (fun card => (card.dataCategory, card.dataName)) ∧
    (filterDocuments category (some clickedBtn) view).1.documentSearch = view.documentSearch ∧
    (filterDocuments category (some clickedBtn) view).2 = false := by
  have hcards : (filterDocuments category (some clickedBtn) view).1.cards
      = view.cards.map (fun card =>
          if category = "all" || card.dataCategory = category then { card with display := "flex" }
          else { card with display := "none" }) := by
    cases clickedBtn <;> rfl
  have hsearch : (filterDocuments category (some clickedBtn) view).1.documentSearch
      = view.documentSearch := by
    cases clickedBtn <;> rfl
  refine ⟨?_, ?_, hsearch, rfl⟩
  · simp only [DocumentsView.visibility, hcards, List.map_map]
    apply List.map_congr_left
    intro card _
    simp only [Function.comp]
    by_cases h : category = "all" ∨ card.dataCategory = category
    · rcases h with h | h <;> simp [h]
    · have h1 : ¬ category = "all" := fun e => h (Or.inl e)
      have h2 : ¬ card.dataCategory = category := fun e => h (Or.inr e)
      simp [h1, h2]
  · simp only [hcards, List.map_map]
    apply List.map_congr_left
    intro card _
    simp only [Function.comp]
    split <;> rfl

/-- The visibility set by `searchDocuments` and by `filterDocuments` is a
function of the data attributes of the cards, the search field and the
argument. -/
theorem visibility_of_attributes (view other : DocumentsView)
    (hcards : other.cards.map (fun card => (card.dataCategory, card.dataName))
      = view.cards.map (fun card => (card.dataCategory, card.dataName)))
    (hsearch : other.documentSearch = view.documentSearch) :
    (searchDocuments other).visibility = (searchDocuments view).visibility ∧
    ∀ category clickedBtn clickedBtn2,
      (filterDocuments category (some clickedBtn) other).1.visibility
        = (filterDocuments category (some clickedBtn2) view).1.visibility := by
  have hname : other.cards.map (fun card => card.dataName)
      = view.cards.map (fun card => card.dataName) := by
    have := congrArg (List.map Prod.snd) hcards
    simpa [List.map_map, Function.comp] using this
  have hcategory : other.cards.map (fun card => card.dataCategory)
      = view.cards.map (fun card => card.dataCategory) := by
    have := congrArg (List.map Prod.fst) hcards
    simpa [List.map_map, Function.comp] using this
  constructor
  · rw [(searchDocuments_visibility other).1, (searchDocuments_visibility view).1, hsearch]
    have := congrArg (List.map (fun name =>
      if stringIncludes name (orElse (view.documentSearch.map Unicode.toLowerCase) "")
      then "flex" else "none")) hname
    simpa [List.map_map, Function.comp] using this
  · intro category clickedBtn clickedBtn2
    rw [(filterDocuments_visibility category clickedBtn other).1,
      (filterDocuments_visibility category clickedBtn2 view).1]
    have := congrArg (List.map (fun cardCategory =>
      if category = "all" ∨ cardCategory = category then "flex" else "none")) hcategory
    simpa [List.map_map, Function.comp] using this

/-- C29: `searchDocuments` and `filterDocuments` (called from an event handler)
each set the visibility of every card from their own criterion alone, so the
visibility after one and then the other is the visibility that the later one
gives on its own; `filterDocuments('all')` shows every card whatever the
search term is, and a search with the empty term, or without the search
field, shows every card whatever the category filter was. -/
theorem search_and_filter_do_not_compose (view : DocumentsView) (category : String)
    (clickedBtn : Option Nat) :
    (filterDocuments category (some clickedBtn) (searchDocuments view)).1.visibility
      = (filterDocuments category (some clickedBtn) view).1.visibility ∧
    (searchDocuments (filterDocuments category (some clickedBtn) view).1).visibility
      = (searchDocuments view).visibility ∧
    (filterDocuments category (some clickedBtn) view).1.visibility
      = view.cards.map (fun card =>
          if category = "all" ∨ card.dataCategory = category then "flex" else "none") ∧
    (searchDocuments view).visibility
      = view.cards.map (fun card =>
          if stringIncludes card.dataName
              (orElse (view.documentSearch.map Unicode.toLowerCase) "") then "flex"
          else "none") ∧
    (∀ d ∈ (filterDocuments "all" (some clickedBtn) (searchDocuments view)).1.visibility,
      d = "flex") ∧
    (view.documentSearch = some "" ∨ view.documentSearch = none →
      ∀ d ∈ (searchDocuments (filterDocuments category (some clickedBtn) view).1).visibility,
        d = "flex") := by
  obtain ⟨s1, s2, s3⟩ := searchDocuments_visibility view
  obtain ⟨f1, f2, f3, _⟩ := filterDocuments_visibility category clickedBtn view
  refine ⟨?_, ?_, f1, s1, ?_, ?_⟩
  · exact (visibility_of_attributes view (searchDocuments view) s2 s3).2 _ _ _
  · exact (visibility_of_attributes view _ f2 f3).1
  · intro d hd
    rw [(filterDocuments_visibility "all" clickedBtn (searchDocuments view)).1] at hd
    obtain ⟨card, _, hcard⟩ := List.mem_map.1 hd
    rw [← hcard]
    simp
  · intro hempty d hd
    rw [(visibility_of_attributes view _ f2 f3).1, s1] at hd
    obtain ⟨card, _, hcard⟩ := List.mem_map.1 hd
    have hterm : orElse (view.documentSearch.map Unicode.toLowerCase) "" = "" := by
      rcases hempty with h | h <;> rw [h] <;> rfl
    rw [hterm] at hcard
    rw [← hcard]
    simp [stringIncludes, includesChars_nil]

theorem search_and_filter_do_not_compose_witness :
    (searchDocuments (filterDocuments "work" (some (some 2))
        (renderDocuments sampleCategorizedDocuments)).1).visibility.all
        (fun d => d == "flex") = true ∧
    (filterDocuments "work" (some (some 2))
        (searchDocuments (typeSearchTerm "inv"
          (renderDocuments sampleCategorizedDocuments)))).1.visibility
      = ["flex", "none", "flex"] := by
  have h := search_and_filter_do_not_compose (renderDocuments sampleCategorizedDocuments)
    "work" (some 2)
  have h2 := search_and_filter_do_not_compose
    (typeSearchTerm "inv" (renderDocuments sampleCategorizedDocuments)) "work" (some 2)
  refine ⟨?_, ?_⟩
  · rw [List.all_eq_true]
    intro d hd
    rw [h.2.2.2.2.2 (Or.inl rfl) d hd]
    rfl
  · rw [h2.1]
    decide

/-! ## The unit of `formatFileSize` (C30) -/

/-- The index grows with the size, when `Math.log` does. -/
theorem unitIndex_mono (log : Nat → Nat) (hpos : 0 < log 1024)
    (hmono : ∀ a b, 1 ≤ a → a ≤ b → log a ≤ log b) (a b : Nat) (ha : 1 ≤ a) (hab : a ≤ b) :
    unitIndex log a ≤ unitIndex log b :=
  Double.floor_mono _ _ (Double.div_mono _ _ _ hpos (hmono a b ha hab))

/-- Between two powers of 1024 the index is the exponent of the lower one,
when it is so at the lower power and just below the upper power. -/
theorem unitIndex_between (log : Nat → Nat) (hpos : 0 < log 1024)
    (hmono : ∀ a b, 1 ≤ a → a ≤ b → log a ≤ log b) (k bytes : Nat)
    (hlow : k ≤ unitIndex log (1024 ^ k))
    (hhigh : unitIndex log (1024 ^ (k + 1) - 1) < k + 1)
    (h1 : 1024 ^ k ≤ bytes) (h2 : bytes < 1024 ^ (k + 1)) :
    unitIndex log bytes = k := by
  have hone : 1 ≤ 1024 ^ k := Nat.one_le_two_pow.trans (Nat.pow_le_pow_left (by decide) k)
  have ha := unitIndex_mono log hpos hmono (1024 ^ k) bytes hone h1
  have hb := unitIndex_mono log hpos hmono bytes (1024 ^ (k + 1) - 1) (hone.trans h1)
    (Nat.le_sub_one_of_lt h2)
  omega

theorem formatFileSize_positive (log : Nat → Nat) (bytes : Nat) (h : 1 ≤ bytes) :
    formatFileSize log (some bytes)
      = renderHundredths (scaledHundredths bytes (unitIndex log bytes)) ++ " "
        ++ interpolate (sizes.get? (unitIndex log bytes)) := by
  cases bytes with
  | zero => cases h
  | succ n => rfl

/-- The unit of `formatFileSize`, relative to the logarithm of the platform.
The function returns `0 Bytes` for 0 and for an absent size.
Let `Math.log` be non-decreasing on the positive integers, with
`Math.floor(Math.log(n) / Math.log(1024))` at least `k` at `n = 1024^k` and
below `k` at `n = 1024^k - 1`, for `k` up to 4.  Then for every integer
`bytes` with `1 ≤ bytes < 1024^4` the index is `floor(log_1024(bytes))`, it is
at most 3, it is the largest `i` with `1024^i ≤ bytes`, the scaled value
`bytes / 1024^i` is at least 1 and below 1024, and the result ends in the unit
`sizes[i]`; for `bytes ≥ 1024^4` the index is at least 4, `sizes[i]` is
undefined, and the result ends in `undefined`.  The copy in `document.js` is
the same function. -/
theorem formatFileSize_unit (log : Nat → Nat) (hpos : 0 < log 1024)
    (hmono : ∀ a b, 1 ≤ a → a ≤ b → log a ≤ log b)
    (hlow : ∀ k, k ≤ 4 → k ≤ Double.floor (Double.div (log (1024 ^ k)) (log 1024)))
    (hhigh : ∀ k, 1 ≤ k → k ≤ 4 →
      Double.floor (Double.div (log (1024 ^ k - 1)) (log 1024)) < k) :
    formatFileSize log (some 0) = "0 Bytes" ∧ formatFileSize log none = "0 Bytes" ∧
    (∀ bytes, 1 ≤ bytes → bytes < 1024 ^ 4 →
      unitIndex log bytes = Nat.log 1024 bytes ∧
      unitIndex log bytes ≤ 3 ∧
      1024 ^ unitIndex log bytes ≤ bytes ∧
      (∀ j, 1024 ^ j ≤ bytes → j ≤ unitIndex log bytes) ∧
      bytes < 1024 * 1024 ^ unitIndex log bytes ∧
      ∃ unit ∈ sizes, sizes.get? (unitIndex log bytes) = some unit ∧
        formatFileSize log (some bytes)
          = renderHundredths (scaledHundredths bytes (unitIndex log bytes)) ++ " " ++ unit) ∧
    (∀ bytes, 1024 ^ 4 ≤ bytes →
      4 ≤ unitIndex log bytes ∧ sizes.get? (unitIndex log bytes) = none ∧
      formatFileSize log (some bytes)
        = renderHundredths (scaledHundredths bytes (unitIndex log bytes)) ++ " undefined") ∧
    (∀ bytes, DocumentJs.formatFileSize log bytes = formatFileSize log bytes) := by
  refine ⟨rfl, rfl, ?_, ?_, fun _ => rfl⟩
  · intro bytes h1 h2
    have hne : bytes ≠ 0 := by omega
    have hk3 : Nat.log 1024 bytes < 4 := Nat.log_lt_of_lt_pow hne h2
    have hlo : 1024 ^ Nat.log 1024 bytes ≤ bytes := Nat.pow_log_le_self 1024 hne
    have hhi : bytes < 1024 ^ (Nat.log 1024 bytes + 1) :=
      Nat.lt_pow_succ_log_self (by decide) bytes
    have hindex : unitIndex log bytes = Nat.log 1024 bytes :=
      unitIndex_between log hpos hmono _ bytes (hlow _ (by omega))
        (hhigh _ (by omega) (by omega)) hlo hhi
    rw [hindex]
    refine ⟨rfl, by omega, hlo, ?_, ?_, ?_⟩
    · intro j hj
      exact Nat.le_log_of_pow_le (by decide) hj
    · rw [← Nat.pow_succ']
      exact hhi
    · have hunit : ∃ unit ∈ sizes, sizes.get? (Nat.log 1024 bytes) = some unit := by
        generalize Nat.log 1024 bytes = k at hk3
        interval_cases k <;> simp [sizes]
      obtain ⟨unit, hmem, hget⟩ := hunit
      refine ⟨unit, hmem, hget, ?_⟩
      rw [formatFileSize_positive log bytes h1, hindex, hget]
      rfl
  · intro bytes h
    have hone : 1 ≤ (1024 : Nat) ^ 4 := by decide
    have h4 : 4 ≤ unitIndex log bytes :=
      (hlow 4 (le_refl 4)).trans (unitIndex_mono log hpos hmono _ bytes hone h)
    have hnone : sizes.get? (unitIndex log bytes) = none := by
      rw [List.get?_eq_none]
      exact h4
    refine ⟨h4, hnone, ?_⟩
    rw [formatFileSize_positive log bytes (hone.trans h), hnone]
    simp [interpolate, String.append_assoc]

theorem sampleLog_of_pow (k : Nat) : sampleLog (1024 ^ k) = Double.ofNat (10 * k) := by
  unfold sampleLog
  rw [show (1024 : Nat) = 2 ^ 10 from rfl, ← pow_mul, Nat.log_pow (by decide)]

theorem sampleLog_below_pow (k : Nat) (hk : 1 ≤ k) :
    sampleLog (1024 ^ k - 1) = Double.ofNat (10 * k - 1) := by
  unfold sampleLog
  congr 1
  rw [show (1024 : Nat) = 2 ^ 10 from rfl, ← pow_mul]
  have hpos : 0 < 2 ^ (10 * k - 1) := Nat.two_pow_pos _
  have hdouble : 2 ^ (10 * k) = 2 * 2 ^ (10 * k - 1) := by
    rw [← Nat.pow_succ']
    congr 1
    omega
  apply Nat.log_eq_of_pow_le_of_lt_pow
  · omega
  · have : 10 * k - 1 + 1 = 10 * k := by omega
    rw [this]
    omega

set_option maxRecDepth 100000 in
/-- The coarse logarithm has the properties that the unit of `formatFileSize`
rests on. -/
theorem sampleLog_spec :
    0 < sampleLog 1024 ∧
    (∀ a b, 1 ≤ a → a ≤ b → sampleLog a ≤ sampleLog b) ∧
    (∀ k, k ≤ 4 →
      k ≤ Double.floor (Double.div (sampleLog (1024 ^ k)) (sampleLog 1024))) ∧
    (∀ k, 1 ≤ k → k ≤ 4 →
      Double.floor (Double.div (sampleLog (1024 ^ k - 1)) (sampleLog 1024)) < k) := by
  have h1024 : sampleLog 1024 = Double.ofNat 10 := sampleLog_of_pow 1
  refine ⟨?_, ?_, ?_, ?_⟩
  · rw [h1024]
    decide
  · intro a b _ hab
    exact Nat.mul_le_mul_right _ (Nat.log_mono_right hab)
  · intro k hk
    rw [sampleLog_of_pow, h1024]
    interval_cases k <;> decide
  · intro k hk1 hk4
    rw [sampleLog_below_pow k hk1, h1024]
    interval_cases k <;> decide

theorem formatFileSize_unit_witness :
    formatFileSize sampleLog (some 0) = "0 Bytes" ∧
    unitIndex sampleLog 1536 ≤ 3 ∧
    4 ≤ unitIndex sampleLog (5 * 1024 ^ 4) :=
  ⟨(formatFileSize_unit sampleLog sampleLog_spec.1 sampleLog_spec.2.1 sampleLog_spec.2.2.1
      sampleLog_spec.2.2.2).1,
   ((formatFileSize_unit sampleLog sampleLog_spec.1 sampleLog_spec.2.1 sampleLog_spec.2.2.1
      sampleLog_spec.2.2.2).2.2.1 1536 (by decide) (by decide)).2.1,
   ((formatFileSize_unit sampleLog sampleLog_spec.1 sampleLog_spec.2.1 sampleLog_spec.2.2.1
      sampleLog_spec.2.2.2).2.2.2.1 (5 * 1024 ^ 4) (by decide)).1⟩

end FPMS
